import Mathlib

/-!
The buildkitd lifecycle controller: an embedding of `buildkitd/buildkitd.go`.

The Go file drives two collaborators (the container frontend and the buildkit
daemon client), timers and an advisory file lock.  The embedding is a state
monad over the *history* of effects issued so far:

* every call on a collaborator, every timer and every context creation appends
  an `Event` to the history;
* the answer of a collaborator is read from an `Env`, a record of functions
  from the history so far (and the call's arguments) to a response, so the
  frontend and the daemon may answer differently at every call;
* Go `error` results are values (`Option GoError`, `Except GoError α`), a Go
  `panic` and an exhausted loop budget are outcomes of the monad;
* `for { select { ... } }` loops take a budget of iterations.

Console output (`conslogging`) influences neither control flow nor the
collaborators and is left out, and so are `NewClient`, `GetDockerVersion`,
`GetLogs`, `GetContainerIP` and `printBuildkitInfo`, which no statement below
is about.  In addition to the real effects, the lifecycle functions log a
ghost `Event.enter` marker when they are entered, which gives the call
sequence of a run.

What is declared outside `buildkitd.go` is a parameter: `containerutil.IsLocal`,
`Settings.Hash`, `Settings.VerifyHash` and the library functions are fields of
`Env`; the maps returned by the frontend hold pointers, so reading a field of
an absent entry (`infos[image].ID`) is a nil dereference.
-/

namespace Buildkitd

/-! ## Durations and contexts -/

/-- A Go `time.Duration`: a signed 64-bit count of nanoseconds. -/
abbrev Duration := Int

/-- Two's-complement wrap-around of an integer into the `int64` range. -/
def wrap64 (x : Int) : Int := (x + 2 ^ 63) % 2 ^ 64 - 2 ^ 63

def millisecond : Duration := 1000000
def second : Duration := 1000000000
def minute : Duration := 60 * second

/-- Go `d *= 2` on a `time.Duration`. -/
def Duration.double (d : Duration) : Duration := wrap64 (d * 2)

/-- A `context.Context`, identified by the stack of timeouts that
`context.WithTimeout` put on top of the caller's context (innermost first). -/
abbrev Ctx := List Duration

/-! ## Errors -/

/-- An error value produced outside this package (container frontend, buildkit
client, flock, file system, URL and number parsing).  Only what this file
inspects is kept: the text, whether `errors.Is(err, context.DeadlineExceeded)`
holds, and the gRPC status code of its cause when it carries one. -/
structure ExtError where
  msg : String
  deadlineExceeded : Bool
  grpcCode : Option Nat
  deriving DecidableEq, Repr

/-- The gRPC code `codes.Unimplemented`. -/
def codesUnimplemented : Nat := 12

/-- Go error values as built in this file. -/
inductive GoError where
  /-- The package variable `ErrBuildkitCrashed`. -/
  | errBuildkitCrashed
  /-- The package variable `ErrBuildkitConnectionFailure`. -/
  | errBuildkitConnectionFailure
  /-- A fresh error from `errors.New`, `errors.Errorf` or `fmt.Errorf`. -/
  | new (msg : String)
  /-- The result of `errors.Wrap(cause, msg)` or `errors.Wrapf`. -/
  | wrap (cause : GoError) (msg : String)
  /-- An error handed over by a collaborator.  The collaborators are packages
  that this one imports, so none of them can hand over one of the two package
  variables above. -/
  | ext (e : ExtError)
  deriving DecidableEq, Repr

namespace GoError

/-- The Go method `err.Error()`. -/
def Error : GoError → String
  | errBuildkitCrashed => "buildkitd crashed"
  | errBuildkitConnectionFailure => "buildkitd did not respond (in time)"
  | new msg => msg
  | wrap cause msg => msg ++ ": " ++ cause.Error
  | ext e => e.msg

/-- The function `errors.Cause`: the innermost error of a chain of wraps. -/
def cause : GoError → GoError
  | wrap c _ => c.cause
  | e => e

/-- The function `errors.Is(err, target)`: some error of the wrap chain of `err`
is `target`. -/
def is (err target : GoError) : Bool :=
  match err with
  | wrap c _ => err == target || c.is target
  | e => e == target

end GoError

/-! ## Data of the collaborators -/

/-- The run status of a container (`containerutil.Status*`). -/
inductive Status where
  | missing
  | running
  | other (s : String)
  deriving DecidableEq, Repr

/-- The fields of `containerutil.ContainerInfo` that are read here. -/
structure ContainerInfo where
  Status : Status
  ImageID : String
  Labels : List (String × String)
  deriving DecidableEq, Repr

structure ImageInfo where
  ID : String
  deriving DecidableEq, Repr

structure VolumeInfo where
  Size : Int
  deriving DecidableEq, Repr

/-- A Go `map[string]V` as an association list. -/
abbrev GoMap (V : Type) := List (String × V)

/-- Map index with presence flag: `v, ok := m[k]`. -/
def GoMap.get? {V : Type} (m : GoMap V) (k : String) : Option V :=
  match m with
  | [] => none
  | (k', v) :: rest => if k' = k then some v else GoMap.get? rest k

/-- Map assignment `m[k] = v`. -/
def GoMap.set {V : Type} (m : GoMap V) (k : String) (v : V) : GoMap V :=
  match m with
  | [] => [(k, v)]
  | (k', v') :: rest => if k' = k then (k, v) :: rest else (k', v') :: GoMap.set rest k v

/-- Guarded map assignment `if c { m[k] = v }`. -/
def GoMap.setIf {V : Type} (c : Bool) (m : GoMap V) (k : String) (v : V) : GoMap V :=
  if c then GoMap.set m k v else m

/-- Index of a `map[string]string`: the empty string when the key is absent. -/
def GoMap.getD (m : GoMap String) (k : String) : String :=
  (GoMap.get? m k).getD ""

inductive MountType where
  | MountVolume
  | MountBind
  deriving DecidableEq, Repr

structure Mount where
  Typ : MountType
  Source : String
  Dest : String
  ReadOnly : Bool
  deriving DecidableEq, Repr

structure Port where
  IP : String
  HostPort : Int
  ContainerPort : Int
  Protocol : String
  deriving DecidableEq, Repr

/-- The constant `containerutil.ProtocolTCP`. -/
def ProtocolTCP : String := "tcp"

/-- The argument of `ContainerFrontend.ContainerRun`. -/
structure ContainerRun where
  NameOrID : String
  ImageRef : String
  Privileged : Bool
  Envs : GoMap String
  Labels : GoMap String
  Mounts : List Mount
  Ports : List Port
  AdditionalArgs : List String
  deriving DecidableEq, Repr

/-- The fields of `client.Info` that are read here. -/
structure Info where
  Package : String
  Version : String
  Revision : String
  NumSessions : Int
  deriving DecidableEq, Repr

/-- A `client.WorkerInfo`. -/
structure WorkerInfo where
  ID : String
  ParallelismCurrent : Int
  ParallelismMax : Int
  ParallelismWaiting : Int
  deriving DecidableEq, Repr

/-- A `client.ClientOpt` as built by `addRequiredOpts`. -/
inductive ClientOpt where
  | WithAdditionalMetadataContext (kvs : List String)
  | WithCredentials (serverName ca cert key : String)
  | other (tag : String)
  deriving DecidableEq, Repr

/-- The fields of `Settings` (declared in `settings.go`) used in this file. -/
structure Settings where
  BuildkitAddress : String
  DebuggerAddress : String
  LocalRegistryAddress : String
  AdditionalArgs : List String
  AdditionalConfig : String
  IPTables : String
  VolumeName : String
  StartUpLockPath : String
  SatelliteName : String
  SatelliteOrgID : String
  SatelliteToken : String
  TLSCA : String
  ClientTLSCert : String
  ClientTLSKey : String
  ServerTLSCert : String
  ServerTLSKey : String
  Timeout : Duration
  CacheSizeMb : Int
  CacheSizePct : Int
  MaxParallelism : Int
  CniMtu : Nat
  Debug : Bool
  UseTCP : Bool
  UseTLS : Bool
  EnableProfiler : Bool
  NoUpdate : Bool
  deriving DecidableEq, Repr

/-- The parts of a parsed `url.URL` that are read here. -/
structure URL where
  Port : String
  Hostname : String
  deriving DecidableEq, Repr

/-! ## Events and environment -/

/-- Ghost markers: the lifecycle functions of this file, with the arguments
that tell their calls apart. -/
inductive Call where
  | Stop (containerName : String)
  | WaitUntilStopped (opTimeout : Duration)
  | Start (reset : Bool)
  | WaitUntilStarted (opTimeout : Duration)
  | MaybeRestart
  | waitForConnection (opTimeout : Duration)
  | checkConnection (timeout : Duration)
  deriving DecidableEq, Repr

/-- One effect of a run. -/
inductive Event where
  | ContainerInfo (ctx : Ctx) (name : String)
  | ContainerStop (ctx : Ctx) (timeoutSec : Nat) (name : String)
  | ContainerRemove (ctx : Ctx) (force : Bool) (name : String)
  | ContainerRun (ctx : Ctx) (spec : ContainerRun)
  | ImageInfo (ctx : Ctx) (ref : String)
  | ImagePull (ctx : Ctx) (ref : String)
  | VolumeInfo (ctx : Ctx) (name : String)
  | clientNew (ctx : Ctx) (address : String) (opts : List ClientOpt)
  | ListWorkers (ctx : Ctx)
  | clientInfo (ctx : Ctx)
  | clientClose
  | WithTimeout (parent : Ctx) (d : Duration)
  | timeAfter (d : Duration)
  | TryLockContext (path : String) (ctx : Ctx) (retryDelay : Duration)
  | Unlock (path : String)
  | GetOrCreateEarthlyDir
  | FileExists (path : String)
  | enter (c : Call)
  deriving DecidableEq, Repr

abbrev Trace := List Event

/-- The answer of the daemon client inside one probe: `none` when the deadline
of the attempt fired, and the waiting caller read the result slot, before the
call had completed. -/
abbrev Raced (α : Type) := Option (Except ExtError α)

/-- Everything the code reads from outside.  The first group are pure library
functions and methods declared in other files; the second group are the
collaborators, whose answers may depend on the whole history. -/
structure Env where
  /-- The function `containerutil.IsLocal`. -/
  IsLocal : String → Bool
  /-- The method `Settings.Hash`. -/
  Hash : Settings → Except ExtError String
  /-- The method `Settings.VerifyHash`. -/
  VerifyHash : Settings → String → Except ExtError Bool
  /-- The method `time.Duration.String`. -/
  durationString : Duration → String
  /-- The function `os.Getenv`. -/
  Getenv : String → String
  /-- The function `url.Parse`. -/
  urlParse : String → Except ExtError URL
  /-- The function `strconv.Atoi`. -/
  Atoi : String → Except ExtError Int
  /-- The function `filepath.IsAbs`. -/
  IsAbs : String → Bool
  /-- The function `filepath.Join` on two elements. -/
  Join : String → String → String
  /-- The constant `runtime.GOOS`. -/
  GOOS : String
  feContainerInfo : Trace → Ctx → String → Except ExtError (GoMap ContainerInfo)
  feContainerStop : Trace → Ctx → Nat → String → Option ExtError
  feContainerRemove : Trace → Ctx → Bool → String → Option ExtError
  feContainerRun : Trace → Ctx → ContainerRun → Option ExtError
  feImageInfo : Trace → Ctx → String → Except ExtError (GoMap ImageInfo)
  feImagePull : Trace → Ctx → String → Option ExtError
  feVolumeInfo : Trace → Ctx → String → Except ExtError (GoMap VolumeInfo)
  bkNew : Trace → Ctx → String → List ClientOpt → Raced Unit
  bkListWorkers : Trace → Ctx → Raced (List WorkerInfo)
  bkInfo : Trace → Ctx → Except ExtError Info
  /-- Which case of a `select` between `time.After(d)` and `ctx.Done()` is
  taken: `true` when the context is done. -/
  selectDone : Trace → Ctx → Duration → Bool
  flockTryLockContext : Trace → String → Ctx → Duration → Bool × Option ExtError
  earthlyDir : Trace → Except ExtError String
  fileExists : Trace → String → Except ExtError Bool

/-! ## The monad -/

/-- How a computation ends. -/
inductive Outcome (α : Type) where
  /-- It returned. -/
  | ret (a : α)
  /-- It panicked. -/
  | panic (msg : String)
  /-- The iteration budget of a loop ran out: the loop is still running. -/
  | outOfFuel
  deriving DecidableEq, Repr

/-- A computation: from the environment and the history so far to an outcome
and the extended history. -/
def M (α : Type) : Type := Env → Trace → Outcome α × Trace

namespace M

def pure {α : Type} (a : α) : M α := fun _ t => (Outcome.ret a, t)

def bind {α β : Type} (m : M α) (f : α → M β) : M β := fun env t =>
  match m env t with
  | (Outcome.ret a, t') => f a env t'
  | (Outcome.panic msg, t') => (Outcome.panic msg, t')
  | (Outcome.outOfFuel, t') => (Outcome.outOfFuel, t')

instance : Monad M where
  pure := M.pure
  bind := M.bind

/-- Go `panic(msg)`. -/
def panic {α : Type} (msg : String) : M α := fun _ t => (Outcome.panic msg, t)

/-- A loop that has used up its budget. -/
def outOfFuel {α : Type} : M α := fun _ t => (Outcome.outOfFuel, t)

/-- Append an event to the history. -/
def emit (e : Event) : M Unit := fun _ t => (Outcome.ret (), t ++ [e])

/-- Issue the call `e` and read its answer from the history before the call. -/
def call {α : Type} (e : Event) (answer : Env → Trace → α) : M α := fun env t =>
  (Outcome.ret (answer env t), t ++ [e])

/-- Read a pure library function of the environment. -/
def lib {α : Type} (f : Env → α) : M α := fun env t => (Outcome.ret (f env), t)

/-- Go `defer cleanup()` in front of `body`: `cleanup` runs when `body` returns
or panics, and the outcome of `body` is kept. -/
def deferred {α : Type} (cleanup : M Unit) (body : M α) : M α := fun env t =>
  match body env t with
  | (Outcome.outOfFuel, t') => (Outcome.outOfFuel, t')
  | (r, t') => (r, (cleanup env t').2)

end M

/-! ## Primitive effects -/

/-- The `containerutil.ContainerFrontend` handed to the functions of this file:
either a live frontend or a nil interface value (as passed by
`PrintSatelliteInfo`), on which every method call panics. -/
inductive Frontend where
  | nil
  | live
  deriving DecidableEq, Repr

/-- A method call on the frontend. -/
def feCall {α : Type} (fe : Frontend) (e : Event) (answer : Env → Trace → α) : M α :=
  match fe with
  | Frontend.nil => M.panic "invalid memory address or nil pointer dereference"
  | Frontend.live => M.call e answer

def feContainerInfo (fe : Frontend) (ctx : Ctx) (name : String) :
    M (Except ExtError (GoMap ContainerInfo)) :=
  feCall fe (Event.ContainerInfo ctx name) (fun env t => env.feContainerInfo t ctx name)

def feContainerStop (fe : Frontend) (ctx : Ctx) (timeoutSec : Nat) (name : String) :
    M (Option ExtError) :=
  feCall fe (Event.ContainerStop ctx timeoutSec name)
    (fun env t => env.feContainerStop t ctx timeoutSec name)

def feContainerRemove (fe : Frontend) (ctx : Ctx) (force : Bool) (name : String) :
    M (Option ExtError) :=
  feCall fe (Event.ContainerRemove ctx force name)
    (fun env t => env.feContainerRemove t ctx force name)

def feContainerRun (fe : Frontend) (ctx : Ctx) (spec : ContainerRun) : M (Option ExtError) :=
  feCall fe (Event.ContainerRun ctx spec) (fun env t => env.feContainerRun t ctx spec)

def feImageInfo (fe : Frontend) (ctx : Ctx) (ref : String) :
    M (Except ExtError (GoMap ImageInfo)) :=
  feCall fe (Event.ImageInfo ctx ref) (fun env t => env.feImageInfo t ctx ref)

def feImagePull (fe : Frontend) (ctx : Ctx) (ref : String) : M (Option ExtError) :=
  feCall fe (Event.ImagePull ctx ref) (fun env t => env.feImagePull t ctx ref)

def feVolumeInfo (fe : Frontend) (ctx : Ctx) (name : String) :
    M (Except ExtError (GoMap VolumeInfo)) :=
  feCall fe (Event.VolumeInfo ctx name) (fun env t => env.feVolumeInfo t ctx name)

/-- The call `context.WithTimeout(parent, d)`; the cancel function is dropped. -/
def WithTimeout (parent : Ctx) (d : Duration) : M Ctx := do
  M.emit (Event.WithTimeout parent d)
  return d :: parent

/-- One evaluation of `select { case <-time.After(d): ... case <-ctx.Done(): ... }`:
`true` when the `ctx.Done()` case is taken. -/
def selectDone (ctx : Ctx) (d : Duration) : M Bool :=
  M.call (Event.timeAfter d) (fun env t => env.selectDone t ctx d)

/-- The function `strconv.FormatBool`. -/
def FormatBool (b : Bool) : String := if b then "true" else "false"

/-- The functions `strconv.Itoa` and `strconv.FormatInt(_, 10)`. -/
def Itoa (n : Int) : String := toString n

/-- The function `strconv.FormatUint(_, 10)`. -/
def FormatUint (n : Nat) : String := toString n

/-! ## The functions of `buildkitd.go` -/

/-- The function `isContainerRunning` (lines 795-806). -/
def isContainerRunning (ctx : Ctx) (containerName : String) (fe : Frontend) :
    M (Except GoError Bool) := do
  match ← feContainerInfo fe ctx containerName with
  | Except.error err =>
    return Except.error
      (GoError.wrap (GoError.ext err) "failed to get container info while checking if running")
  | Except.ok infos =>
    match GoMap.get? infos containerName with
    | some containerInfo => return Except.ok (containerInfo.Status == Status.running)
    | none =>
      return Except.error
        (GoError.new ("status for container " ++ containerName ++ " was not found"))

/-- The function `checkConnection` (lines 599-664).  The goroutine and the
caller share the result slot under a mutex, and the goroutine keeps the mutex
from its success point to its return; the caller therefore reads either the
initial `errors.New("timeout")`, when the deadline of the attempt fires before
`client.New` or `ListWorkers` has completed (answer `none`), or what the
goroutine wrote at one of its returns.  The calls that an abandoned goroutine
still makes afterwards are not recorded. -/
def checkConnection (ctx : Ctx) (address : String) (timeout : Duration)
    (opts : List ClientOpt) : M (Except GoError (Info × WorkerInfo)) := do
  M.emit (Event.enter (Call.checkConnection timeout))
  let ctxTimeout ← WithTimeout ctx timeout
  -- connErr starts as errors.New("timeout"); the goroutine overwrites it
  match ← M.call (Event.clientNew ctxTimeout address opts)
      (fun env t => env.bkNew t ctxTimeout address opts) with
  | none => return Except.error (GoError.new "timeout")
  | some (Except.error err) => return Except.error (GoError.ext err)
  | some (Except.ok ()) =>
    match ← M.call (Event.ListWorkers ctxTimeout)
        (fun env t => env.bkListWorkers t ctxTimeout) with
    | none => return Except.error (GoError.new "timeout")
    | some (Except.error err) =>
      M.emit Event.clientClose
      return Except.error (GoError.ext err)
    | some (Except.ok []) =>
      M.emit Event.clientClose
      return Except.error (GoError.new "no workers")
    | some (Except.ok (w :: _)) =>
      -- Success: the goroutine holds the mutex from here to its return.
      let workerInfo := w
      let r ← M.call (Event.clientInfo ctxTimeout) (fun env t => env.bkInfo t ctxTimeout)
      M.emit Event.clientClose
      match r with
      | Except.ok info => return Except.ok (info, workerInfo)
      | Except.error err =>
        if err.grpcCode = some codesUnimplemented then
          -- Degrade gracefully.
          return Except.ok
            ({ Package := "unknown", Version := "unknown", Revision := "unknown",
               NumSessions := 0 }, workerInfo)
        else
          return Except.error (GoError.ext err)

/-- The loop of `waitForConnection`, with a budget of iterations. -/
def waitForConnection.loop (ctx ctxTimeout : Ctx) (containerName address : String)
    (opTimeout retryInterval : Duration) (fe : Frontend) (opts : List ClientOpt) :
    Nat → Duration → M (Except GoError (Info × WorkerInfo))
  | 0, _ => M.outOfFuel
  | fuel + 1, attemptTimeout => do
    if ← selectDone ctxTimeout retryInterval then
      -- case <-ctxTimeout.Done(): try one last time.
      match ← checkConnection ctx address attemptTimeout opts with
      | Except.error err =>
        -- We give up.
        let d ← M.lib (fun env => env.durationString opTimeout)
        return Except.error (GoError.wrap GoError.errBuildkitConnectionFailure
          ("timeout " ++ d ++ ": could not connect to buildkit: " ++ err.Error))
      | Except.ok r => return Except.ok r
    else
      -- case <-time.After(retryInterval)
      let isLocal ← M.lib (fun env => env.IsLocal address)
      let crashed : Option GoError ←
        if isLocal then
          -- Make sure that our managed buildkit has not crashed on startup.
          match ← isContainerRunning ctxTimeout containerName fe with
          | Except.error err => pure (some err)
          | Except.ok isRunning =>
            if !isRunning then pure (some GoError.errBuildkitCrashed) else pure none
        else pure none
      match crashed with
      | some err => return Except.error err
      | none =>
        match ← checkConnection ctxTimeout address attemptTimeout opts with
        | Except.error _ =>
          -- Try again.
          waitForConnection.loop ctx ctxTimeout containerName address opTimeout retryInterval
            fe opts fuel attemptTimeout.double
        | Except.ok r => return Except.ok r

/-- The function `waitForConnection` (lines 555-597). -/
def waitForConnection (fuel : Nat) (ctx : Ctx) (containerName address : String)
    (opTimeout : Duration) (fe : Frontend) (opts : List ClientOpt) :
    M (Except GoError (Info × WorkerInfo)) := do
  M.emit (Event.enter (Call.waitForConnection opTimeout))
  let isLocal ← M.lib (fun env => env.IsLocal address)
  let retryInterval : Duration := if !isLocal then 1 * second else 200 * millisecond
  let ctxTimeout ← WithTimeout ctx opTimeout
  let attemptTimeout : Duration := if !isLocal then 1 * second else 500 * millisecond
  waitForConnection.loop ctx ctxTimeout containerName address opTimeout retryInterval fe opts
    fuel attemptTimeout


/-- The loop of `WaitUntilStopped`, with a budget of iterations. -/
def WaitUntilStopped.loop (ctxTimeout : Ctx) (containerName : String) (opTimeout : Duration)
    (fe : Frontend) : Nat → M (Option GoError)
  | 0 => M.outOfFuel
  | fuel + 1 => do
    if ← selectDone ctxTimeout (200 * millisecond) then
      -- case <-ctxTimeout.Done()
      let d ← M.lib (fun env => env.durationString opTimeout)
      return some (GoError.new ("timeout " ++ d ++ ": buildkitd did not stop"))
    else
      -- case <-time.After(200 * time.Millisecond)
      match ← isContainerRunning ctxTimeout containerName fe with
      | Except.error _ =>
        -- The container can no longer be found at all.
        return none
      | Except.ok isRunning =>
        if !isRunning then return none
        else WaitUntilStopped.loop ctxTimeout containerName opTimeout fe fuel

/-- The function `WaitUntilStopped` (lines 737-755). -/
def WaitUntilStopped (fuel : Nat) (ctx : Ctx) (containerName : String) (opTimeout : Duration)
    (fe : Frontend) : M (Option GoError) := do
  M.emit (Event.enter (Call.WaitUntilStopped opTimeout))
  let ctxTimeout ← WithTimeout ctx opTimeout
  WaitUntilStopped.loop ctxTimeout containerName opTimeout fe fuel

/-- Reading a field through the pointer stored in a frontend map
(`infos[key].Field`): a nil dereference when the key is absent. -/
def derefEntry {V : Type} (m : GoMap V) (k : String) : M V :=
  match GoMap.get? m k with
  | some v => pure v
  | none => M.panic "invalid memory address or nil pointer dereference"

/-- Go conversion `int(x)` on a 64-bit platform. -/
def toInt (x : Int) : Int := wrap64 x

/-- The function `getCacheSize` (lines 893-900). -/
def getCacheSize (ctx : Ctx) (volumeName : String) (fe : Frontend) : M (Except GoError Int) := do
  match ← feVolumeInfo fe ctx volumeName with
  | Except.error err =>
    return Except.error
      (GoError.wrap (GoError.ext err) ("failed to get volume info for cache size " ++ volumeName))
  | Except.ok infos =>
    let v ← derefEntry infos volumeName
    return Except.ok (toInt v.Size)

/-- The `ContainerRunningLoop` of `WaitUntilStarted`, with a budget of
iterations: `none` when the loop is left by `break`. -/
def WaitUntilStarted.runningLoop (ctxTimeout : Ctx) (containerName : String)
    (opTimeout : Duration) (fe : Frontend) : Nat → M (Option GoError)
  | 0 => M.outOfFuel
  | fuel + 1 => do
    if ← selectDone ctxTimeout (200 * millisecond) then
      -- case <-ctxTimeout.Done()
      let d ← M.lib (fun env => env.durationString opTimeout)
      return some (GoError.new ("timeout " ++ d ++ ": buildkitd container did not start"))
    else
      match ← isContainerRunning ctxTimeout containerName fe with
      | Except.error _ =>
        -- Has not yet started. Keep waiting.
        WaitUntilStarted.runningLoop ctxTimeout containerName opTimeout fe fuel
      | Except.ok isRunning =>
        if !isRunning then return some GoError.errBuildkitCrashed
        else return none

/-- The function `WaitUntilStarted` (lines 493-553). -/
def WaitUntilStarted (fuel : Nat) (ctx : Ctx) (containerName volumeName address : String)
    (opTimeout : Duration) (fe : Frontend) (opts : List ClientOpt) :
    M (Except GoError (Info × WorkerInfo)) := do
  M.emit (Event.enter (Call.WaitUntilStarted opTimeout))
  -- First, wait for the container to be marked as started.
  let ctxTimeout ← WithTimeout ctx opTimeout
  match ← WaitUntilStarted.runningLoop ctxTimeout containerName opTimeout fe fuel with
  | some err => return Except.error err
  | none =>
    -- Wait for the connection to be available.
    match ← waitForConnection fuel ctx containerName address opTimeout fe opts with
    | Except.ok r => return Except.ok r
    | Except.error err =>
      if !err.is GoError.errBuildkitConnectionFailure then
        return Except.error err
      else
        -- We timed out. Check if the user has a lot of cache.
        match ← getCacheSize ctx volumeName fe with
        | Except.error _ => return Except.error err
        | Except.ok cacheSize =>
          let cacheGigs := Int.tdiv (Int.tdiv cacheSize 1024) 1024
          let goos ← M.lib (fun env => env.GOOS)
          if cacheGigs ≥ 30 || (cacheGigs ≥ 10 && goos == "darwin") then
            match ← waitForConnection fuel ctx containerName address opTimeout fe opts with
            | Except.error err => return Except.error err
            | Except.ok r => return Except.ok r
          else
            return Except.error err

/-- The function `Stop` (lines 475-477). -/
def Stop (ctx : Ctx) (containerName : String) (fe : Frontend) : M (Option GoError) := do
  M.emit (Event.enter (Call.Stop containerName))
  let r ← feContainerStop fe ctx 10 containerName
  return r.map GoError.ext

/-- The function `IsStarted` (lines 480-490). -/
def IsStarted (ctx : Ctx) (containerName : String) (fe : Frontend) : M (Except GoError Bool) := do
  match ← feContainerInfo fe ctx containerName with
  | Except.error err => return Except.error (GoError.ext err)
  | Except.ok infos =>
    match GoMap.get? infos containerName with
    | none => return Except.ok false
    | some containerInfo => return Except.ok (containerInfo.Status == Status.running)

/-- The function `GetSettingsHash` (lines 758-769). -/
def GetSettingsHash (ctx : Ctx) (containerName : String) (fe : Frontend) :
    M (Except GoError String) := do
  match ← feContainerInfo fe ctx containerName with
  | Except.error err =>
    return Except.error (GoError.wrap (GoError.ext err) "get container info for settings")
  | Except.ok infos =>
    match GoMap.get? infos containerName with
    | some containerInfo =>
      return Except.ok (GoMap.getD containerInfo.Labels "dev.earthly.settingshash")
    | none =>
      return Except.error
        (GoError.new ("settings hash for container " ++ containerName ++ " was not found"))

/-- The function `GetContainerImageID` (lines 772-784). -/
def GetContainerImageID (ctx : Ctx) (containerName : String) (fe : Frontend) :
    M (Except GoError String) := do
  match ← feContainerInfo fe ctx containerName with
  | Except.error err =>
    return Except.error
      (GoError.wrap (GoError.ext err) "get container info for current container image ID")
  | Except.ok infos =>
    match GoMap.get? infos containerName with
    | some containerInfo => return Except.ok containerInfo.ImageID
    | none =>
      return Except.error
        (GoError.new ("image id for container " ++ containerName ++ " was not found"))

/-- The function `GetAvailableImageID` (lines 787-793). -/
def GetAvailableImageID (ctx : Ctx) (image : String) (fe : Frontend) :
    M (Except GoError String) := do
  match ← feImageInfo fe ctx image with
  | Except.error err =>
    return Except.error (GoError.wrap (GoError.ext err) "get output for available image ID")
  | Except.ok infos =>
    let v ← derefEntry infos image
    return Except.ok v.ID

/-- The function `MaybePull` (lines 667-687). -/
def MaybePull (ctx : Ctx) (image : String) (fe : Frontend) : M (Option GoError) := do
  match ← feImageInfo fe ctx image with
  | Except.error err =>
    return some (GoError.wrap (GoError.ext err) "could not get container info")
  | Except.ok infos =>
    if infos.length > 0 then
      -- the presence of an item implies its local
      return none
    else
      match ← feImagePull fe ctx image with
      | some err => return some (GoError.wrap (GoError.ext err) ("could not pull " ++ image))
      | none => return none

/-- The function `RemoveExited` (lines 254-270). -/
def RemoveExited (ctx : Ctx) (fe : Frontend) (containerName : String) : M (Option GoError) := do
  match ← feContainerInfo fe ctx containerName with
  | Except.error err =>
    return some (GoError.wrap (GoError.ext err) ("get info to remove exited " ++ containerName))
  | Except.ok infos =>
    match GoMap.get? infos containerName with
    | none => return none
    | some containerInfo =>
      if containerInfo.Status == Status.missing then return none
      else
        match ← feContainerRemove fe ctx false containerName with
        | some err =>
          return some (GoError.wrap (GoError.ext err) ("remove exited " ++ containerName))
        | none => return none

/-- The function `makeTLSPath` (lines 902-923). -/
def makeTLSPath (path : String) : M (Except GoError String) := do
  let isAbs ← M.lib (fun env => env.IsAbs path)
  let full : Except GoError String ←
    if !isAbs then
      match ← M.call Event.GetOrCreateEarthlyDir (fun env t => env.earthlyDir t) with
      | Except.error err => pure (Except.error (GoError.ext err))
      | Except.ok earthlyDir =>
        let joined ← M.lib (fun env => env.Join earthlyDir path)
        pure (Except.ok joined)
    else pure (Except.ok path)
  match full with
  | Except.error err => return Except.error err
  | Except.ok fullPath =>
    match ← M.call (Event.FileExists fullPath) (fun env t => env.fileExists t fullPath) with
    | Except.error err =>
      return Except.error
        (GoError.wrap (GoError.ext err) ("failed to check if " ++ fullPath ++ " exists"))
    | Except.ok found =>
      if !found then
        return Except.error (GoError.new ("path \x27" ++ path ++ "\x27 does not exist"))
      else return Except.ok fullPath

/-- The function `addRequiredOpts` (lines 925-960). -/
def addRequiredOpts (settings : Settings) (opts : List ClientOpt) :
    M (Except GoError (List ClientOpt)) := do
  if settings.SatelliteName ≠ "" then
    return Except.ok (opts ++
      [ClientOpt.WithAdditionalMetadataContext
        ["satellite_name", settings.SatelliteName,
         "satellite_org", settings.SatelliteOrgID,
         "satellite_token", settings.SatelliteToken],
       -- force buildkit to use a TLS connection
       ClientOpt.WithCredentials "" "" "" ""])
  else if !settings.UseTCP || !settings.UseTLS then
    return Except.ok opts
  else
    match ← M.lib (fun env => env.urlParse settings.BuildkitAddress) with
    | Except.error err => return Except.error (GoError.wrap (GoError.ext err) "invalid buildkit url")
    | Except.ok server =>
      match ← makeTLSPath settings.TLSCA with
      | Except.error err => return Except.error (GoError.wrap err "caPath")
      | Except.ok caPath =>
        match ← makeTLSPath settings.ClientTLSCert with
        | Except.error err => return Except.error (GoError.wrap err "certPath")
        | Except.ok certPath =>
          match ← makeTLSPath settings.ClientTLSKey with
          | Except.error err => return Except.error (GoError.wrap err "keyPath")
          | Except.ok keyPath =>
            return Except.ok
              (opts ++ [ClientOpt.WithCredentials server.Hostname caPath certPath keyPath])

/-- The `if settings.UseTLS { ... }` block of `Start`: the bind mounts of the
TLS material, or the error that makes `Start` return. -/
def Start.tlsMounts (settings : Settings) (volumeOpts : List Mount) :
    M (Except GoError (List Mount)) := do
  let ca : Except GoError (List Mount) ←
    if settings.TLSCA ≠ "" then
      match ← makeTLSPath settings.TLSCA with
      | Except.error err => pure (Except.error (GoError.wrap err "start buildkitd"))
      | Except.ok caPath =>
        pure (Except.ok (volumeOpts ++
          [{ Typ := MountType.MountBind, Source := caPath, Dest := "/etc/ca.pem",
             ReadOnly := true }]))
    else pure (Except.ok volumeOpts)
  match ca with
  | Except.error err => return Except.error err
  | Except.ok volumeOpts =>
    let cert : Except GoError (List Mount) ←
      if settings.ServerTLSCert ≠ "" then
        match ← makeTLSPath settings.ServerTLSCert with
        | Except.error err => pure (Except.error (GoError.wrap err "start buildkitd"))
        | Except.ok certPath =>
          pure (Except.ok (volumeOpts ++
            [{ Typ := MountType.MountBind, Source := certPath, Dest := "/etc/cert.pem",
               ReadOnly := true }]))
      else pure (Except.ok volumeOpts)
    match cert with
    | Except.error err => return Except.error err
    | Except.ok volumeOpts =>
      if settings.ServerTLSKey ≠ "" then
        match ← makeTLSPath settings.ServerTLSKey with
        | Except.error err => return Except.error (GoError.wrap err "start buildkitd")
        | Except.ok keyPath =>
          return Except.ok (volumeOpts ++
            [{ Typ := MountType.MountBind, Source := keyPath, Dest := "/etc/key.pem",
               ReadOnly := true }])
      else return Except.ok volumeOpts

/-- The `else` branch of the `EARTHLY_WITH_DOCKER` test of `Start` (TCP ports
are only supported in top-most earthly): the published ports and the mounts,
or the error that makes `Start` return. -/
def Start.ports (settings : Settings) (volumeOpts : List Mount) (portOpts : List Port) :
    M (Except GoError (List Mount × List Port)) := do
  match ← M.lib (fun env => env.urlParse settings.DebuggerAddress) with
  | Except.error _ => M.panic "Debugger address was not a URL when attempting to start buildkit"
  | Except.ok dbURL =>
    match ← M.lib (fun env => env.Atoi dbURL.Port) with
    | Except.error _ =>
      M.panic "Local registry host port was not a number when attempting to start buildkit"
    | Except.ok hostPort =>
      let portOpts := portOpts ++
        [{ IP := "127.0.0.1", HostPort := hostPort, ContainerPort := 8373,
           Protocol := ProtocolTCP }]
      let portOpts : List Port ←
        if settings.LocalRegistryAddress ≠ "" then
          match ← M.lib (fun env => env.urlParse settings.LocalRegistryAddress) with
          | Except.error _ =>
            M.panic "Local registry address was not a URL when attempting to start buildkit"
          | Except.ok lrURL =>
            match ← M.lib (fun env => env.Atoi lrURL.Port) with
            | Except.error _ =>
              M.panic
                "Local registry host port was not a number when attempting to start buildkit"
            | Except.ok hostPort =>
              pure (portOpts ++
                [{ IP := "127.0.0.1", HostPort := hostPort, ContainerPort := 8371,
                   Protocol := ProtocolTCP }])
        else pure portOpts
      match ← M.lib (fun env => env.urlParse settings.BuildkitAddress) with
      | Except.error _ =>
        M.panic "Buildkit address was not a URL when attempting to start buildkit"
      | Except.ok bkURL =>
        if settings.UseTCP then
          match ← M.lib (fun env => env.Atoi bkURL.Port) with
          | Except.error _ =>
            M.panic
              "Local registry host port was not a number when attempting to start buildkit"
          | Except.ok hostPort =>
            let portOpts := portOpts ++
              [{ IP := "127.0.0.1", HostPort := hostPort, ContainerPort := 8372,
                 Protocol := ProtocolTCP }]
            let portOpts :=
              if settings.EnableProfiler then
                -- 6060 is reserved for earthly client
                portOpts ++ [{ IP := "127.0.0.1", HostPort := 6061, ContainerPort := 6060,
                               Protocol := ProtocolTCP }]
              else portOpts
            if settings.UseTLS then
              match ← Start.tlsMounts settings volumeOpts with
              | Except.error err => return Except.error err
              | Except.ok volumeOpts => return Except.ok (volumeOpts, portOpts)
            else return Except.ok (volumeOpts, portOpts)
        else return Except.ok (volumeOpts, portOpts)

/-- The end of `Start`, from `if settings.CniMtu > 0` on: the last entries of
the environment and the `ContainerRun` call. -/
def Start.execute (ctx : Ctx) (image containerName : String) (fe : Frontend)
    (settings : Settings) (reset : Bool) (settingsHash : String) (envOpts : GoMap String)
    (volumeOpts : List Mount) (portOpts : List Port) : M (Option GoError) := do
  let labelOpts : GoMap String := [("dev.earthly.settingshash", settingsHash)]
  let envOpts := GoMap.setIf (decide (settings.CniMtu > 0)) envOpts
    "CNI_MTU" (FormatUint settings.CniMtu)
  let envOpts := GoMap.setIf (decide (settings.CacheSizeMb > 0)) envOpts
    "CACHE_SIZE_MB" (Itoa settings.CacheSizeMb)
  let envOpts := GoMap.setIf (decide (settings.CacheSizePct > 0)) envOpts
    "CACHE_SIZE_PCT" (Itoa settings.CacheSizePct)
  let envOpts := GoMap.setIf settings.EnableProfiler envOpts
    "BUILDKIT_PPROF_ENABLED" (FormatBool true)
  -- Apply reset.
  let envOpts := GoMap.setIf reset envOpts "EARTHLY_RESET_TMP_DIR" "true"
  -- Execute.
  match ← feContainerRun fe ctx
      { NameOrID := containerName, ImageRef := image, Privileged := true,
        Envs := envOpts, Labels := labelOpts, Mounts := volumeOpts, Ports := portOpts,
        AdditionalArgs := settings.AdditionalArgs } with
  | some err => return some (GoError.wrap (GoError.ext err) "could not start buildkit")
  | none => return none

/-- The function `Start`.  Its body is cut in four: the beginning below, the
`else` branch of the `EARTHLY_WITH_DOCKER` test (`Start.ports`, with
`Start.tlsMounts`), and the end (`Start.execute`). -/
def Start (ctx : Ctx) (image containerName : String) (fe : Frontend) (settings : Settings)
    (reset : Bool) : M (Option GoError) := do
  M.emit (Event.enter (Call.Start reset))
  match ← M.lib (fun env => env.Hash settings) with
  | Except.error err => return some (GoError.wrap (GoError.ext err) "settings hash")
  | Except.ok settingsHash =>
    match ← RemoveExited ctx fe containerName with
    | some err => return some err
    | none =>
      -- Pulling is not strictly needed; its error is printed and otherwise ignored.
      let _ ← MaybePull ctx image fe
      let envOpts : GoMap String :=
        [("BUILDKIT_DEBUG", FormatBool settings.Debug),
         ("BUILDKIT_TCP_TRANSPORT_ENABLED", FormatBool settings.UseTCP),
         ("BUILDKIT_TLS_ENABLED", FormatBool (settings.UseTCP && settings.UseTLS)),
         ("BUILDKIT_MAX_PARALLELISM", Itoa settings.MaxParallelism)]
      let volumeOpts : List Mount :=
        [{ Typ := MountType.MountVolume, Source := settings.VolumeName, Dest := "/tmp/earthly",
           ReadOnly := false }]
      let portOpts : List Port := []
      let envOpts := GoMap.setIf (settings.AdditionalConfig != "") envOpts
        "EARTHLY_ADDITIONAL_BUILDKIT_CONFIG" settings.AdditionalConfig
      let envOpts := GoMap.setIf (settings.IPTables != "") envOpts "IP_TABLES" settings.IPTables
      let withDocker ← M.lib (fun env => env.Getenv "EARTHLY_WITH_DOCKER")
      let net : Except GoError (List Mount × List Port) ←
        if withDocker == "1" then
          -- Add /sys/fs/cgroup if it is earthly-in-earthly.
          pure (Except.ok
            (volumeOpts ++ [{ Typ := MountType.MountBind, Source := "/sys/fs/cgroup",
                              Dest := "/sys/fs/cgroup", ReadOnly := false }], portOpts))
        else Start.ports settings volumeOpts portOpts
      match net with
      | Except.error err => return some err
      | Except.ok (volumeOpts, portOpts) =>
        Start.execute ctx image containerName fe settings reset settingsHash envOpts
          volumeOpts portOpts

/-- The `// Replace.` part of `MaybeRestart` (stop, wait until stopped, start,
wait until started), reached from both branches of the comparison. -/
def MaybeRestart.replace (fuel : Nat) (ctx : Ctx) (image containerName : String)
    (fe : Frontend) (settings : Settings) (opts : List ClientOpt) :
    M (Except GoError (Info × WorkerInfo)) := do
  match ← Stop ctx containerName fe with
  | some err => return Except.error err
  | none =>
    match ← WaitUntilStopped fuel ctx containerName settings.Timeout fe with
    | some err => return Except.error err
    | none =>
      match ← Start ctx image containerName fe settings false with
      | some err => return Except.error err
      | none =>
        match ← WaitUntilStarted fuel ctx containerName settings.VolumeName
            settings.BuildkitAddress settings.Timeout fe opts with
        | Except.error err => return Except.error err
        | Except.ok r => return Except.ok r

/-- The function `MaybeRestart` (lines 186-251). -/
def MaybeRestart (fuel : Nat) (ctx : Ctx) (image containerName : String) (fe : Frontend)
    (settings : Settings) (opts : List ClientOpt) : M (Except GoError (Info × WorkerInfo)) := do
  M.emit (Event.enter Call.MaybeRestart)
  match ← GetContainerImageID ctx containerName fe with
  | Except.error err => return Except.error err
  | Except.ok containerImageID =>
    let availableImageID : String ←
      match ← GetAvailableImageID ctx image fe with
      | Except.error _ =>
        -- Could not get available image ID.
        pure "" -- Will cause equality to fail and force a restart.
      | Except.ok id => pure id
    if containerImageID = availableImageID then
      -- Images are the same. Check settings hash.
      match ← GetSettingsHash ctx containerName fe with
      | Except.error err => return Except.error err
      | Except.ok hash =>
        match ← M.lib (fun env => env.VerifyHash settings hash) with
        | Except.error err => return Except.error (GoError.wrap (GoError.ext err) "verify hash")
        | Except.ok ok =>
          if ok then
            -- No need to replace: images are the same and settings are the same.
            match ← checkConnection ctx settings.BuildkitAddress (5 * second) opts with
            | Except.error err => return Except.error err
            | Except.ok r => return Except.ok r
          else
            MaybeRestart.replace fuel ctx image containerName fe settings opts
    else
      if settings.NoUpdate then
        match ← checkConnection ctx settings.BuildkitAddress (5 * second) opts with
        | Except.error err => return Except.error err
        | Except.ok r => return Except.ok r
      else
        MaybeRestart.replace fuel ctx image containerName fe settings opts

/-- The part of `MaybeStart` that follows the acquisition of the start-up lock. -/
def MaybeStart.body (fuel : Nat) (ctx : Ctx) (image containerName : String) (fe : Frontend)
    (settings : Settings) (opts : List ClientOpt) : M (Except GoError (Info × WorkerInfo)) := do
  match ← IsStarted ctx containerName fe with
  | Except.error err => return Except.error (GoError.wrap err "check is started buildkitd")
  | Except.ok isStarted =>
    if isStarted then
      match ← MaybeRestart fuel ctx image containerName fe settings opts with
      | Except.error err => return Except.error (GoError.wrap err "maybe restart")
      | Except.ok r => return Except.ok r
    else
      match ← Start ctx image containerName fe settings false with
      | some err => return Except.error (GoError.wrap err "start")
      | none =>
        match ← WaitUntilStarted fuel ctx containerName settings.VolumeName
            settings.BuildkitAddress settings.Timeout fe opts with
        | Except.error err => return Except.error (GoError.wrap err "wait until started")
        | Except.ok r => return Except.ok r

/-- The function `MaybeStart` (lines 138-181). -/
def MaybeStart (fuel : Nat) (ctx : Ctx) (image containerName : String) (fe : Frontend)
    (settings : Settings) (opts : List ClientOpt) : M (Except GoError (Info × WorkerInfo)) := do
  if settings.StartUpLockPath ≠ "" then
    let timeoutCtx ← WithTimeout ctx (5 * minute)
    let locked ← M.call
      (Event.TryLockContext settings.StartUpLockPath timeoutCtx (200 * millisecond))
      (fun env t =>
        env.flockTryLockContext t settings.StartUpLockPath timeoutCtx (200 * millisecond))
    match locked.2 with
    | some err =>
      if err.deadlineExceeded then
        return Except.error
          (GoError.new "timeout waiting for other process to start buildkitd")
      else
        return Except.error
          (GoError.wrap (GoError.ext err) ("try flock context " ++ settings.StartUpLockPath))
    | none =>
      -- defer startLock.Unlock()
      M.deferred (M.emit (Event.Unlock settings.StartUpLockPath))
        (MaybeStart.body fuel ctx image containerName fe settings opts)
  else
    MaybeStart.body fuel ctx image containerName fe settings opts

/-- The function `ResetCache` (lines 89-134). -/
def ResetCache (fuel : Nat) (ctx : Ctx) (image containerName : String) (fe : Frontend)
    (settings : Settings) (opts : List ClientOpt) : M (Option GoError) := do
  -- Prune by resetting container.
  let isLocal ← M.lib (fun env => env.IsLocal settings.BuildkitAddress)
  if !isLocal then
    return some (GoError.new "cannot reset cache of a provided buildkit-host setting")
  else
    match ← addRequiredOpts settings opts with
    | Except.error err => return some (GoError.wrap err "add required client opts")
    | Except.ok opts =>
      -- Use twice the restart timeout for reset operations.
      let settings := { settings with Timeout := settings.Timeout.double }
      match ← IsStarted ctx containerName fe with
      | Except.error err => return some (GoError.wrap err "check is started buildkitd")
      | Except.ok isStarted =>
        let stopped : Option GoError ←
          if isStarted then
            match ← Stop ctx containerName fe with
            | some err => pure (some err)
            | none => WaitUntilStopped fuel ctx containerName settings.Timeout fe
          else pure none
        match stopped with
        | some err => return some err
        | none =>
          match ← Start ctx image containerName fe settings true with
          | some err => return some err
          | none =>
            match ← WaitUntilStarted fuel ctx containerName settings.VolumeName
                settings.BuildkitAddress settings.Timeout fe opts with
            | Except.error err => return some err
            | Except.ok _ => return none

/-- The function `PrintSatelliteInfo` (lines 964-976), which hands a nil frontend
to `waitForConnection`. -/
def PrintSatelliteInfo (fuel : Nat) (ctx : Ctx) (settings : Settings) : M (Option GoError) := do
  match ← addRequiredOpts settings [] with
  | Except.error err => return some (GoError.wrap err "add required client opts")
  | Except.ok opts =>
    match ← waitForConnection fuel ctx "" settings.BuildkitAddress settings.Timeout
        Frontend.nil opts with
    | Except.error err => return some (GoError.wrap err "connect provided buildkit")
    | Except.ok _ => return none

/-! ## Reading a history -/

/-- The lifecycle action logged by an event, if any: entry into `Stop`,
`WaitUntilStopped`, `Start` or `WaitUntilStarted`. -/
def Event.action? : Event → Option Call
  | Event.enter (Call.Stop n) => some (Call.Stop n)
  | Event.enter (Call.WaitUntilStopped d) => some (Call.WaitUntilStopped d)
  | Event.enter (Call.Start r) => some (Call.Start r)
  | Event.enter (Call.WaitUntilStarted d) => some (Call.WaitUntilStarted d)
  | _ => none

/-- The lifecycle actions of a history, in order. -/
def lifecycle (t : Trace) : List Call := t.filterMap Event.action?

/-- The attempt timeout of a probe, when the event is the entry into
`checkConnection`. -/
def Event.attempt? : Event → Option Duration
  | Event.enter (Call.checkConnection d) => some d
  | _ => none

/-- The per-attempt timeouts of the probes of a history, in order. -/
def attempts (t : Trace) : List Duration := t.filterMap Event.attempt?

/-- Whether the event is a method call on the container frontend. -/
def Event.isFrontend : Event → Bool
  | Event.ContainerInfo _ _ => true
  | Event.ContainerStop _ _ _ => true
  | Event.ContainerRemove _ _ _ => true
  | Event.ContainerRun _ _ => true
  | Event.ImageInfo _ _ => true
  | Event.ImagePull _ _ => true
  | Event.VolumeInfo _ _ => true
  | _ => false

/-- The frontend calls of a history, in order. -/
def frontendCalls (t : Trace) : Trace := t.filter Event.isFrontend

/-- The specification handed to the frontend, when the event is a
`ContainerRun` call. -/
def Event.run? : Event → Option Buildkitd.ContainerRun
  | Event.ContainerRun _ spec => some spec
  | _ => none

/-- The name of the container stopped, when the event is a `ContainerStop`
call. -/
def Event.stop? : Event → Option String
  | Event.ContainerStop _ _ name => some name
  | _ => none

/-- The containers handed to `ContainerStop` in a history, in order. -/
def containerStops (t : Trace) : List String := t.filterMap Event.stop?

/-- The specifications handed to `ContainerRun` in a history, in order. -/
def containerRuns (t : Trace) : List ContainerRun := t.filterMap Event.run?

/-- Every event that the computation appends satisfies `P`, and the history it
starts from is kept as a prefix. -/
structure Emits {α : Type} (P : Event → Prop) (m : M α) : Prop where
  out : ∀ env t, ∃ es, (m env t).2 = t ++ es ∧ ∀ e ∈ es, P e

/-- The events of a probe besides its entry marker. -/
def Event.isProbeStep : Event → Bool
  | Event.WithTimeout _ _ => true
  | Event.clientNew _ _ _ => true
  | Event.ListWorkers _ => true
  | Event.clientInfo _ => true
  | Event.clientClose => true
  | _ => false

/-- Events that belong to no lifecycle decision: anything but a
`ContainerStop` or `ContainerRun` call and the entry markers of `Stop`,
`WaitUntilStopped`, `Start`, `WaitUntilStarted` and `MaybeRestart`. -/
def Event.quiet : Event → Bool
  | Event.enter (Call.waitForConnection _) => true
  | Event.enter (Call.checkConnection _) => true
  | Event.enter _ => false
  | Event.ContainerStop _ _ _ => false
  | Event.ContainerRun _ _ => false
  | _ => true

/-- Quiet events that are not part of a probe either: no entry marker at all,
no `ContainerStop`, no `ContainerRun` and no call on the daemon client. -/
def Event.still : Event → Bool
  | Event.enter _ => false
  | Event.ContainerStop _ _ _ => false
  | Event.ContainerRun _ _ => false
  | Event.clientNew _ _ _ => false
  | Event.ListWorkers _ => false
  | Event.clientInfo _ => false
  | Event.clientClose => false
  | _ => true

/-- What `Start` may append after its entry marker: still events, and
`ContainerRun` calls whose environment has `EARTHLY_RESET_TMP_DIR` set to
`"true"` when `reset` holds and unset otherwise. -/
def Start.footprint (reset : Bool) : Event → Prop
  | Event.ContainerRun _ spec =>
    GoMap.get? spec.Envs "EARTHLY_RESET_TMP_DIR" = (if reset then some "true" else none)
  | e => e.still = true

/-- Frontend calls that change the state of the container runtime. -/
def Event.isMutation : Event → Bool
  | Event.ContainerStop _ _ _ => true
  | Event.ContainerRemove _ _ _ => true
  | Event.ContainerRun _ _ => true
  | Event.ImagePull _ _ => true
  | _ => false

/-- Events that are neither a lifecycle action, nor the entry into a probe, nor
a mutation of the container runtime. -/
def Event.observes (e : Event) : Prop :=
  e.action? = none ∧ e.attempt? = none ∧ e.isMutation = false

/-! ## A concrete environment

A frontend that reports the container as running from image `img-1` with the
settings hash `h1`, an image store where every reference resolves to `img-1`,
and a daemon that answers every probe with one worker. -/

def demoWorker : WorkerInfo :=
  { ID := "w0", ParallelismCurrent := 0, ParallelismMax := 4, ParallelismWaiting := 0 }
def demoInfo : Info := { Package := "p", Version := "v", Revision := "r", NumSessions := 0 }
def demoError : ExtError := { msg := "boom", deadlineExceeded := false, grpcCode := none }
def demoSettings : Settings :=
  { BuildkitAddress := "docker-container://b", DebuggerAddress := "tcp://127.0.0.1:8373",
    LocalRegistryAddress := "", AdditionalArgs := [], AdditionalConfig := "", IPTables := "",
    VolumeName := "vol", StartUpLockPath := "", SatelliteName := "", SatelliteOrgID := "",
    SatelliteToken := "", TLSCA := "", ClientTLSCert := "", ClientTLSKey := "",
    ServerTLSCert := "", ServerTLSKey := "", Timeout := 60 * second, CacheSizeMb := 0,
    CacheSizePct := 0, MaxParallelism := 20, CniMtu := 0, Debug := false, UseTCP := false,
    UseTLS := false, EnableProfiler := false, NoUpdate := false }
def demoEnv : Env :=
  { IsLocal := fun a => a == "docker-container://b"
    Hash := fun _ => Except.ok "h1"
    VerifyHash := fun _ h => Except.ok (h == "h1")
    durationString := fun d => toString d ++ "ns"
    Getenv := fun _ => ""
    urlParse := fun _ => Except.ok { Port := "8373", Hostname := "127.0.0.1" }
    Atoi := fun _ => Except.ok 8373
    IsAbs := fun _ => true
    Join := fun a b => a ++ "/" ++ b
    GOOS := "linux"
    feContainerInfo := fun _ _ n =>
      Except.ok [(n, { Status := Status.running, ImageID := "img-1",
                       Labels := [("dev.earthly.settingshash", "h1")] })]
    feContainerStop := fun _ _ _ _ => none
    feContainerRemove := fun _ _ _ _ => none
    feContainerRun := fun _ _ _ => none
    feImageInfo := fun _ _ r => Except.ok [(r, { ID := "img-1" })]
    feImagePull := fun _ _ _ => none
    feVolumeInfo := fun _ _ n => Except.ok [(n, { Size := 0 })]
    bkNew := fun _ _ _ _ => some (Except.ok ())
    bkListWorkers := fun _ _ => some (Except.ok [demoWorker])
    bkInfo := fun _ _ => Except.ok demoInfo
    selectDone := fun _ _ _ => false
    flockTryLockContext := fun _ _ _ _ => (true, none)
    earthlyDir := fun _ => Except.ok "/home/.earthly"
    fileExists := fun _ _ => Except.ok true }


/-- The events by which `MaybeStart` takes the start-up lock: none when no
lock path is configured. -/
def startLockEvents (ctx : Ctx) (path : String) : Trace :=
  if path = "" then []
  else [Event.WithTimeout ctx (5 * minute),
        Event.TryLockContext path (5 * minute :: ctx) (200 * millisecond)]

/-- The events by which `MaybeStart` releases the start-up lock on its way out. -/
def startUnlockEvents (path : String) : Trace :=
  if path = "" then [] else [Event.Unlock path]

/-- No lock path is configured, or `TryLockContext` returns without error. -/
def startLockAcquired (env : Env) (t0 : Trace) (ctx : Ctx) (path : String) : Prop :=
  path = "" ∨
    (env.flockTryLockContext (t0 ++ [Event.WithTimeout ctx (5 * minute)]) path
      (5 * minute :: ctx) (200 * millisecond)).2 = none

/-- Whether the container runs after the history `t`, when it ran (`b`) before:
a `ContainerStop` stops it and a `ContainerRun` starts it. -/
def runsAfter : Trace → Bool → Bool
  | [], b => b
  | Event.ContainerStop _ _ _ :: t, _ => runsAfter t false
  | Event.ContainerRun _ _ :: t, _ => runsAfter t true
  | _ :: t, b => runsAfter t b

/-- A container runtime with a running container whose stored settings hash
is `h0` (which `demoEnv.VerifyHash` rejects); the container is reported as
exited after a `ContainerStop` and as running again after a `ContainerRun`. -/
def staleEnv : Env :=
  { demoEnv with
    feContainerInfo := fun t _ n =>
      Except.ok [(n, { Status := if runsAfter t true then Status.running else Status.other "exited",
                       ImageID := "img-1",
                       Labels := [("dev.earthly.settingshash", "h0")] })] }

/-- A container runtime without the container: `ContainerInfo` has no entry for
it until a `ContainerRun` creates it. -/
def absentEnv : Env :=
  { demoEnv with
    feContainerInfo := fun t _ n =>
      if runsAfter t false then
        Except.ok [(n, { Status := Status.running, ImageID := "img-1",
                         Labels := [("dev.earthly.settingshash", "h1")] })]
      else Except.ok [] }

/-- A frontend that reports the running container with an empty image ID and a
stored hash that verifies, and that cannot tell the ID of the desired image. -/
def emptyIdEnv : Env :=
  { demoEnv with
    feContainerInfo := fun _ _ n =>
      Except.ok [(n, { Status := Status.running, ImageID := "",
                       Labels := [("dev.earthly.settingshash", "h1")] })]
    feImageInfo := fun _ _ _ => Except.error demoError }

/-- Settings for a daemon at a provided (non-local) address. -/
def remoteSettings : Settings := { demoSettings with BuildkitAddress := "tcp://bk.example:8372" }

/-- Some `ListWorkers` call of the history `t` was answered with a list that
begins with `w`. -/
def WorkerListed (env : Env) (t : Trace) (w : WorkerInfo) : Prop :=
  ∃ tp c ws, (tp ++ [Event.ListWorkers c]) <+: t
    ∧ env.bkListWorkers tp c = some (Except.ok (w :: ws))

/-- The liveness check at the beginning of a poll of `waitForConnection`: for a
local address the answer of `isContainerRunning`, otherwise nothing. -/
def waitForConnection.check (ctxTimeout : Ctx) (containerName address : String) (fe : Frontend) :
    M (Except GoError Bool) := fun env t =>
  if env.IsLocal address then isContainerRunning ctxTimeout containerName fe env t
  else (Outcome.ret (Except.ok true), t)

/-- A local daemon that refuses every connection while its container runs. -/
def refusingEnv : Env := { demoEnv with bkNew := fun _ _ _ _ => some (Except.error demoError) }

/-- The refusing daemon at a moment when every deadline has already expired. -/
def expiredEnv : Env := { refusingEnv with selectDone := fun _ _ _ => true }

/-- A frontend whose `ContainerInfo` answers without an entry for the container. -/
def goneEnv : Env := { demoEnv with feContainerInfo := fun _ _ _ => Except.ok [] }

/-- A frontend that reports the container as exited. -/
def exitedEnv : Env :=
  { demoEnv with
    feContainerInfo := fun _ _ n =>
      Except.ok [(n, { Status := Status.other "exited", ImageID := "img-1", Labels := [] })] }

/-- The overall timeout of a readiness wait, when the event is the entry into
`waitForConnection`. -/
def Event.wait? : Event → Option Duration
  | Event.enter (Call.waitForConnection d) => some d
  | _ => none

/-- The overall timeouts of the `waitForConnection` calls of a history, in
order. -/
def waits (t : Trace) : List Duration := t.filterMap Event.wait?

/-- Whether the event is an operation on the start-up lock. -/
def Event.isLockOp : Event → Bool
  | Event.TryLockContext _ _ _ => true
  | Event.Unlock _ => true
  | _ => false

/-- What `Start` may append for a settings hash `hash`: any event, but a
`ContainerRun` call only with the labels `dev.earthly.settingshash = hash`. -/
def Start.labelled (hash : String) : Event → Prop
  | Event.ContainerRun _ spec => spec.Labels = [("dev.earthly.settingshash", hash)]
  | _ => True

/-- The computation never panics. -/
structure NoPanic {α : Type} (m : M α) : Prop where
  out : ∀ env t msg, (m env t).1 ≠ Outcome.panic msg

/-- A daemon that refuses every connection behind a running container, with a
cache volume of 40 GiB (the size is reported in KiB); the deadline of a
readiness wait has expired as soon as the wait is entered, while the container
is still being polled before. -/
def graceEnv : Env :=
  { refusingEnv with
    selectDone := fun t _ _ => !(waits t).isEmpty
    feVolumeInfo := fun _ _ n => Except.ok [(n, { Size := 40 * 1024 * 1024 })] }

/-- A daemon from before the `Info` endpoint: it lists one worker and answers
`Info` with the gRPC code `Unimplemented`. -/
def legacyEnv : Env :=
  { demoEnv with
    bkInfo := fun _ _ =>
      Except.error { msg := "unknown method Info", deadlineExceeded := false,
                     grpcCode := some codesUnimplemented } }

/-- Settings with a start-up lock. -/
def lockedSettings : Settings := { demoSettings with StartUpLockPath := "/run/earthly/start.lock" }

/-- A start-up lock that another process keeps until the five minutes are over. -/
def busyLockEnv : Env :=
  { demoEnv with
    flockTryLockContext := fun _ _ _ _ =>
      (false, some { msg := "context deadline exceeded", deadlineExceeded := true,
                     grpcCode := none }) }

/-- A frontend whose `ContainerStop` fails, in front of a running container. -/
def stopFailsEnv : Env := { demoEnv with feContainerStop := fun _ _ _ _ => some demoError }

/-- The same failing `ContainerStop` in front of a container whose stored
settings hash is stale. -/
def staleStopFailsEnv : Env := { staleEnv with feContainerStop := fun _ _ _ _ => some demoError }

/-- A container frontend whose `ContainerInfo` call fails. -/
def transportDownEnv : Env :=
  { demoEnv with feContainerInfo := fun _ _ _ => Except.error demoError }

/-! ## Basic facts about the monad -/

@[simp] theorem M.run_pure {α : Type} (a : α) (env : Env) (t : Trace) :
    (Pure.pure a : M α) env t = (Outcome.ret a, t) := rfl

@[simp] theorem M.run_bind {α β : Type} (m : M α) (f : α → M β) (env : Env) (t : Trace) :
    (m >>= f) env t =
      match m env t with
      | (Outcome.ret a, t') => f a env t'
      | (Outcome.panic msg, t') => (Outcome.panic msg, t')
      | (Outcome.outOfFuel, t') => (Outcome.outOfFuel, t') := rfl

@[simp] theorem M.run_emit (e : Event) (env : Env) (t : Trace) :
    M.emit e env t = (Outcome.ret (), t ++ [e]) := rfl

@[simp] theorem M.run_call {α : Type} (e : Event) (f : Env → Trace → α) (env : Env)
    (t : Trace) : M.call e f env t = (Outcome.ret (f env t), t ++ [e]) := rfl

@[simp] theorem M.run_lib {α : Type} (f : Env → α) (env : Env) (t : Trace) :
    M.lib f env t = (Outcome.ret (f env), t) := rfl

@[simp] theorem M.run_panic {α : Type} (msg : String) (env : Env) (t : Trace) :
    (M.panic msg : M α) env t = (Outcome.panic msg, t) := rfl

@[simp] theorem M.run_outOfFuel {α : Type} (env : Env) (t : Trace) :
    (M.outOfFuel : M α) env t = (Outcome.outOfFuel, t) := rfl

/-- Running `m` and then `f` when `m` returns `a`. -/
theorem M.bind_of_ret {α β : Type} {m : M α} {f : α → M β} {env : Env} {t t' : Trace} {a : α}
    (h : m env t = (Outcome.ret a, t')) : (m >>= f) env t = f a env t' := by
  rw [M.run_bind, h]

theorem Emits.pure {α : Type} {P : Event → Prop} (a : α) : Emits P (Pure.pure a : M α) :=
  ⟨fun _ t => ⟨[], by simp, by simp⟩⟩

theorem Emits.bind {α β : Type} {P : Event → Prop} {m : M α} {f : α → M β}
    (hm : Emits P m) (hf : ∀ a, Emits P (f a)) : Emits P (m >>= f) := by
  constructor
  intro env t
  obtain ⟨es, h1, h2⟩ := hm.out env t
  rw [M.run_bind]
  rcases hr : m env t with ⟨r, t'⟩
  rw [hr] at h1
  simp only at h1
  subst h1
  cases r with
  | ret a =>
    obtain ⟨es', h3, h4⟩ := (hf a).out env (t ++ es)
    refine ⟨es ++ es', by simp [h3], ?_⟩
    intro e he
    rcases List.mem_append.mp he with h | h
    · exact h2 e h
    · exact h4 e h
  | panic msg => exact ⟨es, rfl, h2⟩
  | outOfFuel => exact ⟨es, rfl, h2⟩

theorem Emits.emit {P : Event → Prop} {e : Event} (h : P e) : Emits P (M.emit e) :=
  ⟨fun _ t => ⟨[e], rfl, by simpa using h⟩⟩

theorem Emits.call {α : Type} {P : Event → Prop} {e : Event} {f : Env → Trace → α} (h : P e) :
    Emits P (M.call e f) :=
  ⟨fun _ t => ⟨[e], rfl, by simpa using h⟩⟩

theorem Emits.lib {α : Type} {P : Event → Prop} {f : Env → α} : Emits P (M.lib f) :=
  ⟨fun _ t => ⟨[], by simp, by simp⟩⟩

theorem Emits.panic {α : Type} {P : Event → Prop} {msg : String} :
    Emits P (M.panic msg : M α) :=
  ⟨fun _ t => ⟨[], by simp, by simp⟩⟩

theorem Emits.outOfFuel {α : Type} {P : Event → Prop} : Emits P (M.outOfFuel : M α) :=
  ⟨fun _ t => ⟨[], by simp, by simp⟩⟩

theorem Emits.feCall {α : Type} {P : Event → Prop} {fe : Frontend} {e : Event}
    {f : Env → Trace → α} (h : P e) : Emits P (feCall fe e f) := by
  cases fe
  · exact Emits.panic
  · exact Emits.call h

theorem Emits.mono {α : Type} {P Q : Event → Prop} {m : M α} (h : Emits P m)
    (hPQ : ∀ e, P e → Q e) : Emits Q m :=
  ⟨fun env t => by
    obtain ⟨es, h1, h2⟩ := h.out env t
    exact ⟨es, h1, fun e he => hPQ e (h2 e he)⟩⟩

theorem Emits.deferred {α : Type} {P : Event → Prop} {c : M Unit} {b : M α}
    (hc : Emits P c) (hb : Emits P b) : Emits P (M.deferred c b) := by
  constructor
  intro env t
  obtain ⟨es, h1, h2⟩ := hb.out env t
  unfold M.deferred
  rcases hr : b env t with ⟨r, t'⟩
  rw [hr] at h1
  simp only at h1
  subst h1
  obtain ⟨es', h3, h4⟩ := hc.out env (t ++ es)
  have hall : ∀ e ∈ es ++ es', P e := by
    intro e he
    rcases List.mem_append.mp he with h | h
    · exact h2 e h
    · exact h4 e h
  cases r with
  | ret a => exact ⟨es ++ es', by simp [h3], hall⟩
  | panic msg => exact ⟨es ++ es', by simp [h3], hall⟩
  | outOfFuel => exact ⟨es, rfl, h2⟩

/-- A computation that first logs `e` and then only appends events satisfying
`P` extends the history by `e` followed by such events. -/
theorem Emits.after_emit {α : Type} {P : Event → Prop} {e : Event} {f : Unit → M α}
    (hf : Emits P (f ())) (env : Env) (t : Trace) :
    ∃ es, ((M.emit e >>= f) env t).2 = t ++ e :: es ∧ ∀ x ∈ es, P x := by
  obtain ⟨es, h1, h2⟩ := hf.out env (t ++ [e])
  exact ⟨es, by simp [h1], h2⟩

theorem lifecycle_append (t u : Trace) : lifecycle (t ++ u) = lifecycle t ++ lifecycle u := by
  simp [lifecycle]

theorem attempts_append (t u : Trace) : attempts (t ++ u) = attempts t ++ attempts u := by
  simp [attempts]

theorem lifecycle_quiet (es : Trace) (h : ∀ e ∈ es, e.action? = none) : lifecycle es = [] := by
  induction es with
  | nil => rfl
  | cons e es ih =>
    have he := h e (by simp)
    have := ih (fun x hx => h x (by simp [hx]))
    simp [lifecycle, List.filterMap_cons, he] at this ⊢
    exact this

theorem attempts_silent (es : Trace) (h : ∀ e ∈ es, e.attempt? = none) : attempts es = [] := by
  induction es with
  | nil => rfl
  | cons e es ih =>
    have he := h e (by simp)
    have := ih (fun x hx => h x (by simp [hx]))
    simp [attempts, List.filterMap_cons, he] at this ⊢
    exact this

/-! ## The events of each function -/

theorem Emits.isContainerRunning {P : Event → Prop} (ctx : Ctx) (n : String) (fe : Frontend)
    (h : P (Event.ContainerInfo ctx n)) : Emits P (isContainerRunning ctx n fe) := by
  unfold Buildkitd.isContainerRunning feContainerInfo
  repeat' first
    | apply Emits.bind
    | apply Emits.pure
    | apply Emits.feCall
    | intro _
    | dsimp only
    | split
  exact h

theorem checkConnection_trace (ctx : Ctx) (address : String) (timeout : Duration)
    (opts : List ClientOpt) (env : Env) (t : Trace) :
    ∃ es, (checkConnection ctx address timeout opts env t).2
        = t ++ Event.enter (Call.checkConnection timeout) :: es
      ∧ ∀ e ∈ es, e.isProbeStep = true := by
  unfold checkConnection WithTimeout
  apply Emits.after_emit
  repeat' first
    | apply Emits.bind
    | apply Emits.pure
    | apply Emits.call
    | apply Emits.emit
    | intro _
    | dsimp only
    | split
  all_goals rfl

theorem Event.quiet_of_still {e : Event} (h : e.still = true) : e.quiet = true := by
  cases e <;> simp_all [Event.still, Event.quiet]

theorem Event.quiet_of_isProbeStep {e : Event} (h : e.isProbeStep = true) : e.quiet = true := by
  cases e <;> simp_all [Event.isProbeStep, Event.quiet]

theorem Event.action?_of_quiet {e : Event} (h : e.quiet = true) : e.action? = none := by
  cases e with
  | enter c => cases c <;> simp_all [Event.quiet, Event.action?]
  | _ => rfl

theorem Event.attempt?_of_still {e : Event} (h : e.still = true) : e.attempt? = none := by
  cases e <;> simp_all [Event.still, Event.attempt?]

theorem Event.attempt?_of_isProbeStep {e : Event} (h : e.isProbeStep = true) :
    e.attempt? = none := by
  cases e <;> simp_all [Event.isProbeStep, Event.attempt?]

theorem GoMap.get?_set {V : Type} (m : GoMap V) (k k' : String) (v : V) :
    GoMap.get? (GoMap.set m k v) k' = if k = k' then some v else GoMap.get? m k' := by
  induction m with
  | nil => simp [GoMap.set, GoMap.get?]
  | cons p rest ih =>
    obtain ⟨a, b⟩ := p
    by_cases hak : a = k
    · subst hak
      by_cases hk : a = k' <;> simp [GoMap.set, GoMap.get?, hk]
    · by_cases hk : k = k'
      · subst hk
        simp [GoMap.set, GoMap.get?, hak, ih]
      · simp [GoMap.set, GoMap.get?, hak, ih, hk]

theorem checkConnection_quiet (ctx : Ctx) (address : String) (timeout : Duration)
    (opts : List ClientOpt) : Emits (fun e => e.quiet = true) (checkConnection ctx address timeout opts) := by
  unfold checkConnection WithTimeout
  repeat' first
    | apply Emits.bind
    | apply Emits.pure
    | apply Emits.call
    | apply Emits.emit
    | intro _
    | dsimp only
    | split
  all_goals rfl

theorem waitForConnection_loop_quiet (ctx ctxTimeout : Ctx) (containerName address : String)
    (opTimeout retryInterval : Duration) (fe : Frontend) (opts : List ClientOpt) (fuel : Nat) :
    ∀ attemptTimeout, Emits (fun e => e.quiet = true)
      (waitForConnection.loop ctx ctxTimeout containerName address opTimeout retryInterval fe
        opts fuel attemptTimeout) := by
  induction fuel with
  | zero => intro _; exact Emits.outOfFuel
  | succ n ih =>
    intro attemptTimeout
    unfold waitForConnection.loop selectDone
    repeat' first
      | apply ih
      | apply checkConnection_quiet
      | apply Emits.isContainerRunning
      | apply Emits.bind
      | apply Emits.pure
      | apply Emits.call
      | apply Emits.lib
      | intro _
      | dsimp only
      | split
    all_goals rfl

theorem waitForConnection_quiet (fuel : Nat) (ctx : Ctx) (containerName address : String)
    (opTimeout : Duration) (fe : Frontend) (opts : List ClientOpt) :
    Emits (fun e => e.quiet = true)
      (waitForConnection fuel ctx containerName address opTimeout fe opts) := by
  unfold waitForConnection WithTimeout
  repeat' first
    | apply waitForConnection_loop_quiet
    | apply Emits.bind
    | apply Emits.pure
    | apply Emits.emit
    | apply Emits.lib
    | intro _
    | dsimp only
    | split
  all_goals rfl

theorem WaitUntilStopped_loop_still (ctxTimeout : Ctx) (containerName : String)
    (opTimeout : Duration) (fe : Frontend) (fuel : Nat) :
    Emits (fun e => e.still = true)
      (WaitUntilStopped.loop ctxTimeout containerName opTimeout fe fuel) := by
  induction fuel with
  | zero => exact Emits.outOfFuel
  | succ n ih =>
    unfold WaitUntilStopped.loop selectDone
    repeat' first
      | apply ih
      | apply Emits.isContainerRunning
      | apply Emits.bind
      | apply Emits.pure
      | apply Emits.call
      | apply Emits.lib
      | intro _
      | dsimp only
      | split
    all_goals rfl

/-- The events of `WaitUntilStopped`: its entry marker, then polls only. -/
theorem WaitUntilStopped_trace (fuel : Nat) (ctx : Ctx) (containerName : String)
    (opTimeout : Duration) (fe : Frontend) (env : Env) (t : Trace) :
    ∃ es, (WaitUntilStopped fuel ctx containerName opTimeout fe env t).2
        = t ++ Event.enter (Call.WaitUntilStopped opTimeout) :: es
      ∧ ∀ e ∈ es, e.still = true := by
  unfold WaitUntilStopped WithTimeout
  apply Emits.after_emit
  repeat' first
    | apply WaitUntilStopped_loop_still
    | apply Emits.bind
    | apply Emits.pure
    | apply Emits.emit
    | intro _
  all_goals rfl

theorem WaitUntilStarted_runningLoop_still (ctxTimeout : Ctx) (containerName : String)
    (opTimeout : Duration) (fe : Frontend) (fuel : Nat) :
    Emits (fun e => e.still = true)
      (WaitUntilStarted.runningLoop ctxTimeout containerName opTimeout fe fuel) := by
  induction fuel with
  | zero => exact Emits.outOfFuel
  | succ n ih =>
    unfold WaitUntilStarted.runningLoop selectDone
    repeat' first
      | apply ih
      | apply Emits.isContainerRunning
      | apply Emits.bind
      | apply Emits.pure
      | apply Emits.call
      | apply Emits.lib
      | intro _
      | dsimp only
      | split
    all_goals rfl

theorem getCacheSize_still (ctx : Ctx) (volumeName : String) (fe : Frontend) :
    Emits (fun e => e.still = true) (getCacheSize ctx volumeName fe) := by
  unfold getCacheSize feVolumeInfo derefEntry
  repeat' first
    | apply Emits.bind
    | apply Emits.pure
    | apply Emits.feCall
    | apply Emits.panic
    | intro _
    | dsimp only
    | split
  all_goals rfl

theorem WaitUntilStarted_trace (fuel : Nat) (ctx : Ctx) (containerName volumeName address : String)
    (opTimeout : Duration) (fe : Frontend) (opts : List ClientOpt) (env : Env) (t : Trace) :
    ∃ es, (WaitUntilStarted fuel ctx containerName volumeName address opTimeout fe opts env t).2
        = t ++ Event.enter (Call.WaitUntilStarted opTimeout) :: es
      ∧ ∀ e ∈ es, e.quiet = true := by
  unfold WaitUntilStarted WithTimeout
  apply Emits.after_emit
  repeat' first
    | apply waitForConnection_quiet
    | exact Emits.mono (WaitUntilStarted_runningLoop_still _ _ _ _ _)
        (fun _ h => Event.quiet_of_still h)
    | exact Emits.mono (getCacheSize_still _ _ _) (fun _ h => Event.quiet_of_still h)
    | apply Emits.bind
    | apply Emits.pure
    | apply Emits.emit
    | apply Emits.lib
    | intro _
    | dsimp only
    | split
  all_goals rfl

theorem RemoveExited_emits {P : Event → Prop} (ctx : Ctx) (fe : Frontend) (n : String)
    (h1 : P (Event.ContainerInfo ctx n)) (h2 : P (Event.ContainerRemove ctx false n)) :
    Emits P (RemoveExited ctx fe n) := by
  unfold RemoveExited feContainerInfo feContainerRemove
  repeat' first
    | apply Emits.bind
    | apply Emits.pure
    | apply Emits.feCall
    | intro _
    | dsimp only
    | split
  all_goals assumption

theorem MaybePull_emits {P : Event → Prop} (ctx : Ctx) (image : String) (fe : Frontend)
    (h1 : P (Event.ImageInfo ctx image)) (h2 : P (Event.ImagePull ctx image)) :
    Emits P (MaybePull ctx image fe) := by
  unfold MaybePull feImageInfo feImagePull
  repeat' first
    | apply Emits.bind
    | apply Emits.pure
    | apply Emits.feCall
    | intro _
    | dsimp only
    | split
  all_goals assumption

theorem makeTLSPath_emits {P : Event → Prop} (path : String)
    (h1 : P Event.GetOrCreateEarthlyDir) (h2 : ∀ p, P (Event.FileExists p)) :
    Emits P (makeTLSPath path) := by
  unfold makeTLSPath
  repeat' first
    | apply Emits.bind
    | apply Emits.pure
    | apply Emits.call
    | apply Emits.lib
    | intro _
    | dsimp only
    | split
  all_goals first | assumption | apply h2

theorem addRequiredOpts_emits {P : Event → Prop} (settings : Settings) (opts : List ClientOpt)
    (h1 : P Event.GetOrCreateEarthlyDir) (h2 : ∀ p, P (Event.FileExists p)) :
    Emits P (addRequiredOpts settings opts) := by
  unfold addRequiredOpts
  repeat' first
    | exact makeTLSPath_emits _ h1 h2
    | apply Emits.bind
    | apply Emits.pure
    | apply Emits.lib
    | intro _
    | dsimp only
    | split

theorem IsStarted_emits {P : Event → Prop} (ctx : Ctx) (n : String) (fe : Frontend)
    (h : P (Event.ContainerInfo ctx n)) : Emits P (IsStarted ctx n fe) := by
  unfold IsStarted feContainerInfo
  repeat' first
    | apply Emits.bind
    | apply Emits.pure
    | apply Emits.feCall
    | intro _
    | dsimp only
    | split
  exact h

theorem GetSettingsHash_emits {P : Event → Prop} (ctx : Ctx) (n : String) (fe : Frontend)
    (h : P (Event.ContainerInfo ctx n)) : Emits P (GetSettingsHash ctx n fe) := by
  unfold GetSettingsHash feContainerInfo
  repeat' first
    | apply Emits.bind
    | apply Emits.pure
    | apply Emits.feCall
    | intro _
    | dsimp only
    | split
  exact h

theorem GetContainerImageID_emits {P : Event → Prop} (ctx : Ctx) (n : String) (fe : Frontend)
    (h : P (Event.ContainerInfo ctx n)) : Emits P (GetContainerImageID ctx n fe) := by
  unfold GetContainerImageID feContainerInfo
  repeat' first
    | apply Emits.bind
    | apply Emits.pure
    | apply Emits.feCall
    | intro _
    | dsimp only
    | split
  exact h

theorem GetAvailableImageID_emits {P : Event → Prop} (ctx : Ctx) (image : String)
    (fe : Frontend) (h : P (Event.ImageInfo ctx image)) :
    Emits P (GetAvailableImageID ctx image fe) := by
  unfold GetAvailableImageID feImageInfo derefEntry
  repeat' first
    | apply Emits.bind
    | apply Emits.pure
    | apply Emits.feCall
    | apply Emits.panic
    | intro _
    | dsimp only
    | split
  exact h

/-- The history of `Stop` on a live frontend: the entry marker and one
`ContainerStop` call with a timeout of 10 seconds. -/
theorem Stop_run (ctx : Ctx) (n : String) (env : Env) (t : Trace) :
    Stop ctx n Frontend.live env t
      = (Outcome.ret ((env.feContainerStop (t ++ [Event.enter (Call.Stop n)]) ctx 10 n).map
            GoError.ext),
          t ++ [Event.enter (Call.Stop n), Event.ContainerStop ctx 10 n]) := by
  simp [Stop, feContainerStop, feCall]

theorem Emits.ite {α : Type} {P : Event → Prop} {c : Prop} [Decidable c] {a b : M α}
    (ha : Emits P a) (hb : Emits P b) : Emits P (if c then a else b) := by
  split <;> assumption

theorem GoMap.get?_setIf {V : Type} (c : Bool) (m : GoMap V) (k k' : String) (v : V) :
    GoMap.get? (GoMap.setIf c m k v) k'
      = if c = true ∧ k = k' then some v else GoMap.get? m k' := by
  cases c <;> simp [GoMap.setIf, GoMap.get?_set]

theorem Start_tlsMounts_emits {P : Event → Prop} (settings : Settings)
    (volumeOpts : List Mount) (h1 : P Event.GetOrCreateEarthlyDir)
    (h2 : ∀ p, P (Event.FileExists p)) : Emits P (Start.tlsMounts settings volumeOpts) := by
  unfold Start.tlsMounts
  repeat' first
    | exact makeTLSPath_emits _ h1 h2
    | apply Emits.bind
    | apply Emits.pure
    | apply Emits.ite
    | intro _
    | dsimp only
    | split

theorem Start_ports_emits {P : Event → Prop} (settings : Settings) (volumeOpts : List Mount)
    (portOpts : List Port) (h1 : P Event.GetOrCreateEarthlyDir)
    (h2 : ∀ p, P (Event.FileExists p)) : Emits P (Start.ports settings volumeOpts portOpts) := by
  unfold Start.ports
  repeat' first
    | exact Start_tlsMounts_emits _ _ h1 h2
    | apply Emits.bind
    | apply Emits.pure
    | apply Emits.lib
    | apply Emits.panic
    | apply Emits.ite
    | intro _
    | dsimp only
    | split

theorem Start_execute_emits (ctx : Ctx) (image containerName : String) (fe : Frontend)
    (settings : Settings) (reset : Bool) (settingsHash : String) (envOpts : GoMap String)
    (volumeOpts : List Mount) (portOpts : List Port)
    (henv : GoMap.get? envOpts "EARTHLY_RESET_TMP_DIR" = none) :
    Emits (Start.footprint reset)
      (Start.execute ctx image containerName fe settings reset settingsHash envOpts volumeOpts
        portOpts) := by
  unfold Start.execute feContainerRun
  repeat' first
    | apply Emits.bind
    | apply Emits.pure
    | apply Emits.feCall
    | intro _
    | dsimp only
    | split
  show GoMap.get? _ _ = _
  have k1 : ("BUILDKIT_PPROF_ENABLED" : String) ≠ "EARTHLY_RESET_TMP_DIR" := by decide
  have k2 : ("CACHE_SIZE_PCT" : String) ≠ "EARTHLY_RESET_TMP_DIR" := by decide
  have k3 : ("CACHE_SIZE_MB" : String) ≠ "EARTHLY_RESET_TMP_DIR" := by decide
  have k4 : ("CNI_MTU" : String) ≠ "EARTHLY_RESET_TMP_DIR" := by decide
  simp only [GoMap.get?_setIf, henv, k1, k2, k3, k4, and_false, and_true, if_false]

theorem Start_trace (ctx : Ctx) (image containerName : String) (fe : Frontend)
    (settings : Settings) (reset : Bool) (env : Env) (t : Trace) :
    ∃ es, (Start ctx image containerName fe settings reset env t).2
        = t ++ Event.enter (Call.Start reset) :: es
      ∧ ∀ e ∈ es, Start.footprint reset e := by
  have hRE : Emits (Start.footprint reset) (RemoveExited ctx fe containerName) :=
    RemoveExited_emits _ _ _ rfl rfl
  have hMP : Emits (Start.footprint reset) (MaybePull ctx image fe) :=
    MaybePull_emits _ _ _ rfl rfl
  have hP : ∀ v p, Emits (Start.footprint reset) (Start.ports settings v p) := fun v p =>
    Start_ports_emits settings v p rfl (fun _ => rfl)
  unfold Start
  apply Emits.after_emit
  repeat' first
    | exact hRE
    | exact hMP
    | apply hP
    | apply Start_execute_emits
    | apply Emits.bind
    | apply Emits.pure
    | apply Emits.lib
    | apply Emits.ite
    | intro _
    | dsimp only
    | split
  all_goals
    have k1 : ("IP_TABLES" : String) ≠ "EARTHLY_RESET_TMP_DIR" := by decide
    have k2 : ("EARTHLY_ADDITIONAL_BUILDKIT_CONFIG" : String) ≠ "EARTHLY_RESET_TMP_DIR" := by
      decide
    have k3 : ("BUILDKIT_DEBUG" : String) ≠ "EARTHLY_RESET_TMP_DIR" := by decide
    have k4 : ("BUILDKIT_TCP_TRANSPORT_ENABLED" : String) ≠ "EARTHLY_RESET_TMP_DIR" := by decide
    have k5 : ("BUILDKIT_TLS_ENABLED" : String) ≠ "EARTHLY_RESET_TMP_DIR" := by decide
    have k6 : ("BUILDKIT_MAX_PARALLELISM" : String) ≠ "EARTHLY_RESET_TMP_DIR" := by decide
    simp only [GoMap.get?_setIf, GoMap.get?, k1, k2, k3, k4, k5, k6, and_false, if_false]

theorem trace_of_emits {α : Type} {P : Event → Prop} {m : M α} (h : Emits P m) {env : Env}
    {t t' : Trace} {r : Outcome α} (hr : m env t = (r, t')) :
    ∃ es, t' = t ++ es ∧ ∀ e ∈ es, P e := by
  obtain ⟨es, h1, h2⟩ := h.out env t
  rw [hr] at h1
  exact ⟨es, h1, h2⟩

theorem checkConnection_observes (ctx : Ctx) (address : String) (timeout : Duration)
    (opts : List ClientOpt) (env : Env) (t : Trace) :
    ∃ es, (checkConnection ctx address timeout opts env t).2 = t ++ es
      ∧ lifecycle es = [] ∧ attempts es = [timeout] ∧ ∀ e ∈ es, e.isMutation = false := by
  obtain ⟨es, h1, h2⟩ := checkConnection_trace ctx address timeout opts env t
  refine ⟨Event.enter (Call.checkConnection timeout) :: es, h1, ?_, ?_, ?_⟩
  · have := lifecycle_quiet es (fun e he => Event.action?_of_quiet (Event.quiet_of_isProbeStep (h2 e he)))
    simpa [lifecycle, List.filterMap_cons, Event.action?] using this
  · have := attempts_silent es (fun e he => Event.attempt?_of_isProbeStep (h2 e he))
    simpa [attempts, List.filterMap_cons, Event.attempt?] using this
  · intro e he
    rcases List.mem_cons.mp he with h | h
    · subst h; rfl
    · have := h2 e h
      cases e <;> simp_all [Event.isProbeStep, Event.isMutation]



theorem Emits.of_extends {α : Type} {m : M α} (h : ∀ env t, ∃ es, (m env t).2 = t ++ es) :
    Emits (fun _ => True) m :=
  ⟨fun env t => by
    obtain ⟨es, h1⟩ := h env t
    exact ⟨es, h1, fun _ _ => trivial⟩⟩

theorem WaitUntilStopped_extends (fuel : Nat) (ctx : Ctx) (containerName : String)
    (opTimeout : Duration) (fe : Frontend) :
    Emits (fun _ => True) (WaitUntilStopped fuel ctx containerName opTimeout fe) :=
  Emits.of_extends (fun env t => by
    obtain ⟨es, h, _⟩ := WaitUntilStopped_trace fuel ctx containerName opTimeout fe env t
    exact ⟨_, h⟩)

theorem Start_extends (ctx : Ctx) (image containerName : String) (fe : Frontend)
    (settings : Settings) (reset : Bool) :
    Emits (fun _ => True) (Start ctx image containerName fe settings reset) :=
  Emits.of_extends (fun env t => by
    obtain ⟨es, h, _⟩ := Start_trace ctx image containerName fe settings reset env t
    exact ⟨_, h⟩)

theorem WaitUntilStarted_extends (fuel : Nat) (ctx : Ctx)
    (containerName volumeName address : String) (opTimeout : Duration) (fe : Frontend)
    (opts : List ClientOpt) :
    Emits (fun _ => True)
      (WaitUntilStarted fuel ctx containerName volumeName address opTimeout fe opts) :=
  Emits.of_extends (fun env t => by
    obtain ⟨es, h, _⟩ :=
      WaitUntilStarted_trace fuel ctx containerName volumeName address opTimeout fe opts env t
    exact ⟨_, h⟩)

theorem M.bind_extends {α β : Type} {m : M α} {f : α → M β} {env : Env} {t u : Trace}
    (hf : ∀ a, Emits (fun _ => True) (f a)) (hm : (m env t).2 = t ++ u) :
    ∃ rest, ((m >>= f) env t).2 = t ++ (u ++ rest) := by
  rw [M.run_bind]
  rcases hr : m env t with ⟨r, t'⟩
  rw [hr] at hm
  simp only at hm
  subst hm
  cases r with
  | ret a =>
    obtain ⟨es, h1, _⟩ := (hf a).out env (t ++ u)
    exact ⟨es, by simp [h1]⟩
  | panic msg => exact ⟨[], by simp⟩
  | outOfFuel => exact ⟨[], by simp⟩

/-- The restart path begins with `Stop`: the first events that
`MaybeRestart.replace` appends are the entry into `Stop` and its `ContainerStop` call. -/
theorem MaybeRestart_replace_begins (fuel : Nat) (ctx : Ctx) (image containerName : String)
    (settings : Settings) (opts : List ClientOpt) (env : Env) (t : Trace) :
    ∃ rest, (MaybeRestart.replace fuel ctx image containerName Frontend.live settings opts env t).2
      = t ++ ([Event.enter (Call.Stop containerName), Event.ContainerStop ctx 10 containerName]
          ++ rest) := by
  unfold MaybeRestart.replace
  apply M.bind_extends
  · repeat' first
      | apply WaitUntilStopped_extends
      | apply Start_extends
      | apply WaitUntilStarted_extends
      | apply Emits.bind
      | apply Emits.pure
      | intro _
      | split
  · rw [Stop_run]


theorem containerRuns_append (t u : Trace) :
    containerRuns (t ++ u) = containerRuns t ++ containerRuns u := by
  simp [containerRuns]

theorem Event.run?_of_quiet {e : Event} (h : e.quiet = true) : e.run? = none := by
  cases e <;> simp_all [Event.quiet, Event.run?]

theorem containerRuns_quiet (es : Trace) (h : ∀ e ∈ es, e.quiet = true) :
    containerRuns es = [] :=
  List.filterMap_eq_nil_iff.mpr (fun e he => Event.run?_of_quiet (h e he))

theorem Stop_step {ctx : Ctx} {n : String} {fe : Frontend} {env : Env} {t t' : Trace}
    {r : Option GoError} (h : Stop ctx n fe env t = (Outcome.ret r, t')) :
    fe = Frontend.live ∧ t' = t ++ [Event.enter (Call.Stop n), Event.ContainerStop ctx 10 n] := by
  cases fe
  · simp [Stop, feContainerStop, feCall] at h
  · rw [Stop_run] at h
    exact ⟨rfl, (Prod.mk.inj h).2.symm⟩

theorem lifecycle_cons_still {c : Call} {es : Trace} (hc : (Event.enter c).action? = some c)
    (h : ∀ e ∈ es, e.quiet = true) : lifecycle (Event.enter c :: es) = [c] := by
  have := lifecycle_quiet es (fun e he => Event.action?_of_quiet (h e he))
  simp [lifecycle, List.filterMap_cons, hc] at this ⊢
  exact this

theorem WaitUntilStopped_step {fuel : Nat} {ctx : Ctx} {n : String} {d : Duration}
    {fe : Frontend} {env : Env} {t t' : Trace} {o : Outcome (Option GoError)}
    (h : WaitUntilStopped fuel ctx n d fe env t = (o, t')) :
    ∃ es, t' = t ++ es ∧ lifecycle es = [Call.WaitUntilStopped d] ∧ attempts es = []
      ∧ containerRuns es = [] := by
  obtain ⟨es, h1, h2⟩ := WaitUntilStopped_trace fuel ctx n d fe env t
  rw [h] at h1
  refine ⟨_, h1, lifecycle_cons_still rfl (fun e he => Event.quiet_of_still (h2 e he)), ?_, ?_⟩
  · have := attempts_silent es (fun e he => Event.attempt?_of_still (h2 e he))
    simpa [attempts, List.filterMap_cons, Event.attempt?] using this
  · have := containerRuns_quiet es (fun e he => Event.quiet_of_still (h2 e he))
    simpa [containerRuns, List.filterMap_cons, Event.run?] using this

theorem Start.footprint_quiet_or_run {reset : Bool} {e : Event} (h : Start.footprint reset e) :
    e.action? = none ∧ e.attempt? = none ∧ e ≠ Event.enter Call.MaybeRestart
      ∧ ∀ c n k, e ≠ Event.ContainerStop c n k := by
  cases e <;> simp_all [Start.footprint, Event.still, Event.action?, Event.attempt?]

theorem Start_step {ctx : Ctx} {image n : String} {fe : Frontend} {settings : Settings}
    {reset : Bool} {env : Env} {t t' : Trace} {o : Outcome (Option GoError)}
    (h : Start ctx image n fe settings reset env t = (o, t')) :
    ∃ es, t' = t ++ es ∧ lifecycle es = [Call.Start reset] ∧ attempts es = []
      ∧ Event.enter Call.MaybeRestart ∉ es
      ∧ (∀ spec ∈ containerRuns es,
          GoMap.get? spec.Envs "EARTHLY_RESET_TMP_DIR" = (if reset then some "true" else none))
      ∧ ∀ c k m, Event.ContainerStop c k m ∉ es := by
  obtain ⟨es, h1, h2⟩ := Start_trace ctx image n fe settings reset env t
  rw [h] at h1
  refine ⟨_, h1, ?_, ?_, ?_, ?_, ?_⟩
  rotate_right
  · intro c k m hmem
    rcases List.mem_cons.mp hmem with h | h
    · cases h
    · exact (Start.footprint_quiet_or_run (h2 _ h)).2.2.2 c k m rfl
  · have := lifecycle_quiet es (fun e he => (Start.footprint_quiet_or_run (h2 e he)).1)
    simpa [lifecycle, List.filterMap_cons, Event.action?] using this
  · have := attempts_silent es (fun e he => (Start.footprint_quiet_or_run (h2 e he)).2.1)
    simpa [attempts, List.filterMap_cons, Event.attempt?] using this
  · intro hmem
    rcases List.mem_cons.mp hmem with h | h
    · cases h
    · exact (Start.footprint_quiet_or_run (h2 _ h)).2.2.1 rfl
  · intro spec hspec
    simp only [containerRuns, List.filterMap_cons, Event.run?, List.mem_filterMap] at hspec
    obtain ⟨e, he, hes⟩ := hspec
    cases e with
    | ContainerRun c sp =>
      simp only [Event.run?, Option.some.injEq] at hes
      subst hes
      exact h2 _ he
    | _ => simp [Event.run?] at hes

theorem WaitUntilStarted_step {fuel : Nat} {ctx : Ctx} {n v a : String} {d : Duration}
    {fe : Frontend} {opts : List ClientOpt} {env : Env} {t t' : Trace}
    {o : Outcome (Except GoError (Info × WorkerInfo))}
    (h : WaitUntilStarted fuel ctx n v a d fe opts env t = (o, t')) :
    ∃ es, t' = t ++ es ∧ lifecycle es = [Call.WaitUntilStarted d]
      ∧ Event.enter Call.MaybeRestart ∉ es ∧ containerRuns es = []
      ∧ ∀ c k m, Event.ContainerStop c k m ∉ es := by
  obtain ⟨es, h1, h2⟩ := WaitUntilStarted_trace fuel ctx n v a d fe opts env t
  rw [h] at h1
  refine ⟨_, h1, lifecycle_cons_still rfl h2, ?_, ?_, ?_⟩
  rotate_right
  · intro c k m hmem
    rcases List.mem_cons.mp hmem with h | h
    · cases h
    · have := h2 _ h
      simp [Event.quiet] at this
  · intro hmem
    rcases List.mem_cons.mp hmem with h | h
    · cases h
    · have := h2 _ h
      simp [Event.quiet] at this
  · have := containerRuns_quiet es h2
    simpa [containerRuns, List.filterMap_cons, Event.run?] using this

/-- The run of `Start.execute` on a live frontend: one `ContainerRun` call. -/
theorem Start_execute_run (ctx : Ctx) (image containerName : String) (settings : Settings)
    (reset : Bool) (settingsHash : String) (envOpts : GoMap String) (volumeOpts : List Mount)
    (portOpts : List Port) (env : Env) (t : Trace) :
    ∃ spec, (Start.execute ctx image containerName Frontend.live settings reset settingsHash
          envOpts volumeOpts portOpts env t).2 = t ++ [Event.ContainerRun ctx spec]
      ∧ spec.NameOrID = containerName ∧ spec.ImageRef = image
      ∧ spec.Labels = [("dev.earthly.settingshash", settingsHash)] := by
  unfold Start.execute feContainerRun feCall
  simp only [M.run_bind, M.run_call]
  generalize env.feContainerRun _ _ _ = r
  cases r <;> exact ⟨_, rfl, rfl, rfl, rfl⟩

/-- A successful `Start` has issued exactly one `ContainerRun`, as its last
event, for the given container name and image, labelled with the settings
hash. -/
theorem Start_success {ctx : Ctx} {image containerName : String} {fe : Frontend}
    {settings : Settings} {reset : Bool} {env : Env} {t t' : Trace}
    (h : Start ctx image containerName fe settings reset env t = (Outcome.ret none, t')) :
    ∃ es spec hash, t' = t ++ es ∧ containerRuns es = [spec]
      ∧ env.Hash settings = Except.ok hash
      ∧ spec.NameOrID = containerName ∧ spec.ImageRef = image
      ∧ spec.Labels = [("dev.earthly.settingshash", hash)] := by
  have hfe : fe = Frontend.live := by
    cases fe
    · exfalso
      unfold Start at h
      simp only [M.run_bind, M.run_emit, M.run_lib] at h
      cases hh : env.Hash settings with
      | error e => simp [hh] at h
      | ok hash =>
        simp only [hh, RemoveExited, feContainerInfo, feCall, M.run_bind, M.run_panic] at h
        simp at h
    · rfl
  subst hfe
  unfold Start at h
  simp only [M.run_bind, M.run_emit, M.run_lib] at h
  cases hh : env.Hash settings with
  | error e => simp [hh] at h
  | ok hash =>
    simp only [hh, M.run_bind] at h
    rcases hre : RemoveExited ctx Frontend.live containerName env
        (t ++ [Event.enter (Call.Start reset)]) with ⟨(_ | e) | _ | _, t1⟩ <;> rw [hre] at h
    · simp only [M.run_bind] at h
      obtain ⟨es1, rfl, hes1⟩ := trace_of_emits
        (RemoveExited_emits (P := fun e => e.still = true) ctx Frontend.live containerName rfl rfl)
        hre
      rcases hmp : MaybePull ctx image Frontend.live env
          (t ++ [Event.enter (Call.Start reset)] ++ es1) with ⟨_ | _ | _, t2⟩ <;> rw [hmp] at h
      · simp only [M.run_bind, M.run_lib] at h
        obtain ⟨es2, rfl, hes2⟩ := trace_of_emits
          (MaybePull_emits (P := fun e => e.still = true) ctx image Frontend.live rfl rfl) hmp
        have hfin : ∀ (u es3 : Trace) (envOpts : GoMap String) (v : List Mount) (p : List Port),
            u = t ++ [Event.enter (Call.Start reset)] ++ es1 ++ es2 ++ es3 →
            (∀ e ∈ es3, e.still = true) →
            Start.execute ctx image containerName Frontend.live settings reset hash envOpts v p
              env u = (Outcome.ret none, t') →
            ∃ es spec hash', t' = t ++ es ∧ containerRuns es = [spec]
              ∧ Except.ok hash = (Except.ok hash' : Except ExtError String)
              ∧ spec.NameOrID = containerName ∧ spec.ImageRef = image
              ∧ spec.Labels = [("dev.earthly.settingshash", hash')] := by
          intro u es3 envOpts v p hu hes3 hx
          obtain ⟨spec, h1, h2, h3, h4⟩ := Start_execute_run ctx image containerName settings
            reset hash envOpts v p env u
          rw [hx] at h1
          simp only at h1
          refine ⟨Event.enter (Call.Start reset) :: (es1 ++ es2 ++ es3)
            ++ [Event.ContainerRun ctx spec], spec, hash, by rw [h1, hu]; simp, ?_, rfl, h2, h3,
            h4⟩
          have hq : ∀ e ∈ es1 ++ es2 ++ es3, e.quiet = true := by
            intro e he
            simp only [List.mem_append] at he
            rcases he with (h | h) | h
            · exact Event.quiet_of_still (hes1 e h)
            · exact Event.quiet_of_still (hes2 e h)
            · exact Event.quiet_of_still (hes3 e h)
          rw [containerRuns_append]
          have := containerRuns_quiet _ hq
          simp only [containerRuns, List.filterMap_cons, Event.run?, List.filterMap_nil] at this ⊢
          rw [this]
          rfl
        split at h
        · simp only [M.run_bind, M.run_pure] at h
          exact hfin _ [] _ _ _ (by simp) (by simp) h
        · simp only [M.run_bind] at h
          rcases hp : Start.ports settings
              [{ Typ := MountType.MountVolume, Source := settings.VolumeName,
                 Dest := "/tmp/earthly", ReadOnly := false }] [] env
              (t ++ [Event.enter (Call.Start reset)] ++ es1 ++ es2)
            with ⟨(e | ⟨v, p⟩) | _ | _, t3⟩ <;> rw [hp] at h
          · simp at h
          · obtain ⟨es3, rfl, hes3⟩ := trace_of_emits
              (Start_ports_emits (P := fun e => e.still = true) settings _ _ rfl (fun _ => rfl)) hp
            exact hfin _ es3 _ _ _ rfl hes3 h
          · simp at h
          · simp at h
      · simp at h
      · simp at h
    · simp at h
    · simp at h
    · simp at h

/-- The comparison of `MaybeRestart` as one equation: after the observations
the run continues either as the 5 second probe or as the replace path. -/
theorem MaybeRestart_decide
    (fuel : Nat) (ctx : Ctx) (image containerName : String) (fe : Frontend)
    (settings : Settings) (opts : List ClientOpt) (env : Env) (t0 t1 t2 t3 : Trace)
    (containerImageID hash : String) (avail : Except GoError String)
    (imageMatches settingsMatch : Bool)
    (hcid : GetContainerImageID ctx containerName fe env (t0 ++ [Event.enter Call.MaybeRestart])
      = (Outcome.ret (Except.ok containerImageID), t1))
    (havail : GetAvailableImageID ctx image fe env t1 = (Outcome.ret avail, t2))
    (himg : imageMatches = decide (containerImageID = avail.toOption.getD ""))
    (hhash : imageMatches = true →
      GetSettingsHash ctx containerName fe env t2 = (Outcome.ret (Except.ok hash), t3)
        ∧ env.VerifyHash settings hash = Except.ok settingsMatch)
    (hskip : imageMatches = false → t3 = t2) :
    MaybeRestart fuel ctx image containerName fe settings opts env t0
      = if ((imageMatches && settingsMatch) || (!imageMatches && settings.NoUpdate)) = true then
          checkConnection ctx settings.BuildkitAddress (5 * second) opts env t3
        else MaybeRestart.replace fuel ctx image containerName fe settings opts env t3 := by
  unfold MaybeRestart
  simp only [M.run_bind, M.run_emit, hcid, havail]
  cases him : imageMatches with
  | true =>
    have heq : containerImageID = avail.toOption.getD "" := by
      simpa [him] using himg.symm
    obtain ⟨h1, h2⟩ := hhash him
    cases avail <;> cases settingsMatch <;>
      simp_all [Except.toOption, M.run_bind, M.run_lib, M.run_pure] <;>
      (generalize checkConnection _ _ _ _ _ _ = x
       rcases x with ⟨(a | _ | _), _⟩ <;> first | rfl | (cases a <;> rfl))
  | false =>
    have hne : ¬ containerImageID = avail.toOption.getD "" := by
      simpa [him] using himg.symm
    have := hskip him
    cases avail <;> cases hnu : settings.NoUpdate <;>
      simp_all [Except.toOption, M.run_bind, M.run_lib, M.run_pure] <;>
      (generalize checkConnection _ _ _ _ _ _ = x
       rcases x with ⟨(a | _ | _), _⟩ <;> first | rfl | (cases a <;> rfl))

/-- The replace path when each of its four steps succeeds. -/
theorem MaybeRestart_replace_steps
    {fuel : Nat} {ctx : Ctx} {image containerName : String} {fe : Frontend}
    {settings : Settings} {opts : List ClientOpt} {env : Env} {t4 t5 t6 t7 t8 : Trace}
    {r : Info × WorkerInfo}
    (hstop : Stop ctx containerName fe env t4 = (Outcome.ret none, t5))
    (hws : WaitUntilStopped fuel ctx containerName settings.Timeout fe env t5
      = (Outcome.ret none, t6))
    (hstart : Start ctx image containerName fe settings false env t6 = (Outcome.ret none, t7))
    (hwst : WaitUntilStarted fuel ctx containerName settings.VolumeName settings.BuildkitAddress
      settings.Timeout fe opts env t7 = (Outcome.ret (Except.ok r), t8)) :
    MaybeRestart.replace fuel ctx image containerName fe settings opts env t4
        = (Outcome.ret (Except.ok r), t8)
      ∧ ∃ es, t8 = t4 ++ es
        ∧ lifecycle es = [Call.Stop containerName, Call.WaitUntilStopped settings.Timeout,
            Call.Start false, Call.WaitUntilStarted settings.Timeout] := by
  constructor
  · unfold MaybeRestart.replace
    simp only [M.run_bind, hstop, hws, hstart, hwst, M.run_pure]
  · obtain ⟨_, rfl⟩ := Stop_step hstop
    obtain ⟨es1, rfl, h1, _⟩ := WaitUntilStopped_step hws
    obtain ⟨es2, rfl, h2, _⟩ := Start_step hstart
    obtain ⟨es3, rfl, h3, _⟩ := WaitUntilStarted_step hwst
    refine ⟨[Event.enter (Call.Stop containerName), Event.ContainerStop ctx 10 containerName]
      ++ es1 ++ es2 ++ es3, by simp, ?_⟩
    simp only [lifecycle_append, h1, h2, h3]
    rfl

theorem MaybeStart_of_body {fuel : Nat} {ctx : Ctx} {image containerName : String}
    {fe : Frontend} {settings : Settings} {opts : List ClientOpt} {env : Env} {t0 t' : Trace}
    {x : Except GoError (Info × WorkerInfo)}
    (hlock : startLockAcquired env t0 ctx settings.StartUpLockPath)
    (hbody : MaybeStart.body fuel ctx image containerName fe settings opts env
        (t0 ++ startLockEvents ctx settings.StartUpLockPath) = (Outcome.ret x, t')) :
    MaybeStart fuel ctx image containerName fe settings opts env t0
      = (Outcome.ret x, t' ++ startUnlockEvents settings.StartUpLockPath) := by
  unfold MaybeStart
  by_cases hp : settings.StartUpLockPath = ""
  · simp only [hp, startLockEvents, startUnlockEvents, if_true, List.append_nil] at hbody ⊢
    simpa using hbody
  · have hacq := hlock.resolve_left hp
    simp only [startLockEvents, startUnlockEvents, if_neg hp] at hbody ⊢
    simp only [ne_eq, hp, not_false_eq_true, if_true, M.run_bind, WithTimeout, M.run_emit,
      M.run_pure, M.run_call, hacq]
    simp only [M.deferred, List.append_assoc, List.singleton_append, hbody, M.run_emit]


theorem lifecycle_observes (es : Trace) (h : ∀ e ∈ es, Event.observes e) : lifecycle es = [] :=
  lifecycle_quiet es (fun e he => (h e he).1)

theorem lifecycle_startLockEvents (ctx : Ctx) (path : String) :
    lifecycle (startLockEvents ctx path) = [] := by
  unfold startLockEvents
  split <;> rfl

theorem lifecycle_startUnlockEvents (path : String) :
    lifecycle (startUnlockEvents path) = [] := by
  unfold startUnlockEvents
  split <;> rfl

/-- The observations at the beginning of `MaybeRestart` append no lifecycle
action, no probe and no mutation. -/
theorem MaybeRestart_observations
    {ctx : Ctx} {image containerName : String} {fe : Frontend} {env : Env}
    {t1 t2 t3 t4 : Trace} {x : Except GoError String} {avail : Except GoError String}
    {y : Outcome (Except GoError String)}
    (hcid : GetContainerImageID ctx containerName fe env (t1 ++ [Event.enter Call.MaybeRestart])
      = (Outcome.ret x, t2))
    (havail : GetAvailableImageID ctx image fe env t2 = (Outcome.ret avail, t3))
    (hhash : GetSettingsHash ctx containerName fe env t3 = (y, t4) ∨ t4 = t3) :
    ∃ es, t4 = t1 ++ es ∧ ∀ e ∈ es, Event.observes e := by
  have hobsP : ∀ c n, Event.observes (Event.ContainerInfo c n) := fun _ _ => ⟨rfl, rfl, rfl⟩
  have hobsI : ∀ c n, Event.observes (Event.ImageInfo c n) := fun _ _ => ⟨rfl, rfl, rfl⟩
  obtain ⟨es1, rfl, hes1⟩ :=
    trace_of_emits (GetContainerImageID_emits ctx containerName fe (hobsP _ _)) hcid
  obtain ⟨es2, rfl, hes2⟩ :=
    trace_of_emits (GetAvailableImageID_emits ctx image fe (hobsI _ _)) havail
  have h3 : ∃ es3, t4 = t1 ++ [Event.enter Call.MaybeRestart] ++ es1 ++ es2 ++ es3
      ∧ ∀ e ∈ es3, Event.observes e := by
    rcases hhash with h | h
    · exact trace_of_emits (GetSettingsHash_emits ctx containerName fe (hobsP _ _)) h
    · exact ⟨[], by simp [h], by simp⟩
  obtain ⟨es3, rfl, hes3⟩ := h3
  refine ⟨Event.enter Call.MaybeRestart :: (es1 ++ es2 ++ es3), by simp, ?_⟩
  intro e he
  simp only [List.mem_cons, List.mem_append] at he
  rcases he with h | (h | h) | h
  · subst h; exact ⟨rfl, rfl, rfl⟩
  · exact hes1 e h
  · exact hes2 e h
  · exact hes3 e h

theorem lifecycle_still (es : Trace) (h : ∀ e ∈ es, e.still = true) : lifecycle es = [] :=
  lifecycle_quiet es (fun e he => Event.action?_of_quiet (Event.quiet_of_still (h e he)))

theorem enter_not_mem_of_still {es : Trace} (h : ∀ e ∈ es, e.still = true) (c : Call) :
    Event.enter c ∉ es := fun hmem => by
  have := h _ hmem
  simp [Event.still] at this

theorem stop_not_mem_of_still {es : Trace} (h : ∀ e ∈ es, e.still = true) (c : Ctx) (k : Nat)
    (m : String) : Event.ContainerStop c k m ∉ es := fun hmem => by
  have := h _ hmem
  simp [Event.still] at this

theorem startLockEvents_still (ctx : Ctx) (path : String) :
    ∀ e ∈ startLockEvents ctx path, e.still = true := by
  unfold startLockEvents
  split
  · simp
  · intro e he
    simp only [List.mem_cons, List.mem_singleton, List.not_mem_nil, or_false] at he
    rcases he with h | h <;> subst h <;> rfl

theorem startUnlockEvents_still (path : String) :
    ∀ e ∈ startUnlockEvents path, e.still = true := by
  unfold startUnlockEvents
  split
  · simp
  · intro e he
    simp only [List.mem_singleton] at he
    subst he
    rfl

theorem wrap64_of_range {x : Int} (h1 : -2 ^ 63 ≤ x) (h2 : x < 2 ^ 63) : wrap64 x = x := by
  unfold wrap64
  norm_num at h1 h2 ⊢
  omega

theorem Duration.double_of_range {d : Duration} (h1 : -2 ^ 63 ≤ 2 * d) (h2 : 2 * d < 2 ^ 63) :
    Duration.double d = 2 * d := by
  unfold Duration.double
  rw [mul_comm]
  exact wrap64_of_range h1 h2

theorem WorkerListed_prefix {env : Env} {t t' : Trace} {w : WorkerInfo}
    (h : WorkerListed env t w) (hp : t <+: t') : WorkerListed env t' w := by
  obtain ⟨tp, c, ws, h1, h2⟩ := h
  exact ⟨tp, c, ws, h1.trans hp, h2⟩

/-- A successful probe: `ListWorkers` was called right after `client.New` and
answered with a non-empty list whose first element is the worker returned. -/
theorem checkConnection_ok {ctx : Ctx} {address : String} {timeout : Duration}
    {opts : List ClientOpt} {env : Env} {t t' : Trace} {info : Info} {w : WorkerInfo}
    (h : checkConnection ctx address timeout opts env t = (Outcome.ret (Except.ok (info, w)), t')) :
    ∃ ws, env.bkListWorkers
        (t ++ [Event.enter (Call.checkConnection timeout)] ++ [Event.WithTimeout ctx timeout]
          ++ [Event.clientNew (timeout :: ctx) address opts]) (timeout :: ctx)
        = some (Except.ok (w :: ws))
      ∧ (t ++ [Event.enter (Call.checkConnection timeout)] ++ [Event.WithTimeout ctx timeout]
          ++ [Event.clientNew (timeout :: ctx) address opts]
          ++ [Event.ListWorkers (timeout :: ctx)]) <+: t' := by
  unfold checkConnection WithTimeout at h
  simp only [M.run_bind, M.run_emit, M.run_pure, M.run_call] at h
  generalize hN : env.bkNew _ _ _ _ = rN at h
  rcases rN with _ | (e | u)
  · simp at h
  · simp at h
  · simp only [M.run_bind, M.run_call] at h
    generalize hL : env.bkListWorkers _ _ = rL at h
    rcases rL with _ | (e | (_ | ⟨w', ws⟩))
    · simp at h
    · simp at h
    · simp at h
    · simp only [M.run_bind, M.run_call, M.run_emit] at h
      generalize env.bkInfo _ _ = rI at h
      rcases rI with e | i
      · simp only at h
        split at h
        · simp only [M.run_pure, Prod.mk.injEq, Outcome.ret.injEq, Except.ok.injEq] at h
          obtain ⟨⟨_, rfl⟩, rfl⟩ := h
          exact ⟨ws, rfl, ⟨[Event.clientInfo (timeout :: ctx), Event.clientClose], by simp⟩⟩
        · simp at h
      · simp only [M.run_pure, Prod.mk.injEq, Outcome.ret.injEq, Except.ok.injEq] at h
        obtain ⟨⟨_, rfl⟩, rfl⟩ := h
        exact ⟨ws, rfl, ⟨[Event.clientInfo (timeout :: ctx), Event.clientClose], by simp⟩⟩

/-- A probe for which `ListWorkers` answers with the empty list fails with the
error "no workers". -/
theorem checkConnection_no_workers {ctx : Ctx} {address : String} {timeout : Duration}
    {opts : List ClientOpt} {env : Env} {t : Trace}
    (hN : env.bkNew
        (t ++ [Event.enter (Call.checkConnection timeout)] ++ [Event.WithTimeout ctx timeout])
        (timeout :: ctx) address opts = some (Except.ok ()))
    (hL : env.bkListWorkers
        (t ++ [Event.enter (Call.checkConnection timeout)] ++ [Event.WithTimeout ctx timeout]
          ++ [Event.clientNew (timeout :: ctx) address opts]) (timeout :: ctx)
        = some (Except.ok [])) :
    (checkConnection ctx address timeout opts env t).1
      = Outcome.ret (Except.error (GoError.new "no workers")) := by
  unfold checkConnection WithTimeout
  simp only [M.run_bind, M.run_emit, M.run_pure, M.run_call, hN, hL]

theorem checkConnection_listed {ctx : Ctx} {address : String} {timeout : Duration}
    {opts : List ClientOpt} {env : Env} {t t' : Trace} {info : Info} {w : WorkerInfo}
    (h : checkConnection ctx address timeout opts env t = (Outcome.ret (Except.ok (info, w)), t')) :
    WorkerListed env t' w := by
  obtain ⟨ws, h1, h2⟩ := checkConnection_ok h
  exact ⟨_, _, ws, h2, h1⟩

/-- One iteration of the loop of `waitForConnection`. -/
theorem waitForConnection.loop_succ (ctx ctxTimeout : Ctx) (containerName address : String)
    (opTimeout retryInterval : Duration) (fe : Frontend) (opts : List ClientOpt) (n : Nat)
    (a : Duration) (env : Env) (t : Trace) :
    waitForConnection.loop ctx ctxTimeout containerName address opTimeout retryInterval fe opts
        (n + 1) a env t
      = if env.selectDone t ctxTimeout retryInterval = true then
          match checkConnection ctx address a opts env (t ++ [Event.timeAfter retryInterval]) with
          | (Outcome.ret (Except.ok r), t') => (Outcome.ret (Except.ok r), t')
          | (Outcome.ret (Except.error err), t') =>
            (Outcome.ret (Except.error (GoError.wrap GoError.errBuildkitConnectionFailure
              ("timeout " ++ env.durationString opTimeout ++ ": could not connect to buildkit: "
                ++ err.Error))), t')
          | (Outcome.panic msg, t') => (Outcome.panic msg, t')
          | (Outcome.outOfFuel, t') => (Outcome.outOfFuel, t')
        else
          match waitForConnection.check ctxTimeout containerName address fe env
              (t ++ [Event.timeAfter retryInterval]) with
          | (Outcome.ret (Except.error err), t1) => (Outcome.ret (Except.error err), t1)
          | (Outcome.ret (Except.ok false), t1) =>
            (Outcome.ret (Except.error GoError.errBuildkitCrashed), t1)
          | (Outcome.ret (Except.ok true), t1) =>
            match checkConnection ctxTimeout address a opts env t1 with
            | (Outcome.ret (Except.ok r), t2) => (Outcome.ret (Except.ok r), t2)
            | (Outcome.ret (Except.error _), t2) =>
              waitForConnection.loop ctx ctxTimeout containerName address opTimeout retryInterval
                fe opts n a.double env t2
            | (Outcome.panic msg, t2) => (Outcome.panic msg, t2)
            | (Outcome.outOfFuel, t2) => (Outcome.outOfFuel, t2)
          | (Outcome.panic msg, t1) => (Outcome.panic msg, t1)
          | (Outcome.outOfFuel, t1) => (Outcome.outOfFuel, t1) := by
  conv_lhs => unfold waitForConnection.loop selectDone
  simp only [M.run_bind, M.run_call]
  cases hsel : env.selectDone t ctxTimeout retryInterval with
  | true =>
    simp only [if_true, M.run_bind]
    rcases checkConnection ctx address a opts env (t ++ [Event.timeAfter retryInterval])
      with ⟨(e | r) | _ | _, tc⟩ <;> simp
  | false =>
    simp only [Bool.false_eq_true, if_false, M.run_bind, M.run_lib, waitForConnection.check]
    cases hloc : env.IsLocal address with
    | true =>
      simp only [if_true, M.run_bind]
      rcases isContainerRunning ctxTimeout containerName fe env
        (t ++ [Event.timeAfter retryInterval]) with ⟨(e | b) | _ | _, tr⟩
      · simp
      · cases b
        · simp
        · simp only [Bool.not_true, Bool.false_eq_true, if_false, M.run_bind, M.run_pure]
          rcases checkConnection ctxTimeout address a opts env tr
            with ⟨(e | r) | _ | _, tc⟩ <;> simp
      · simp
      · simp
    | false =>
      simp only [Bool.false_eq_true, if_false, M.run_bind, M.run_pure]
      rcases checkConnection ctxTimeout address a opts env (t ++ [Event.timeAfter retryInterval])
        with ⟨(e | r) | _ | _, tc⟩ <;> simp


theorem waitForConnection_loop_listed (ctx ctxTimeout : Ctx) (containerName address : String)
    (opTimeout retryInterval : Duration) (fe : Frontend) (opts : List ClientOpt) (env : Env)
    (fuel : Nat) :
    ∀ (attemptTimeout : Duration) (t t' : Trace) (info : Info) (w : WorkerInfo),
      waitForConnection.loop ctx ctxTimeout containerName address opTimeout retryInterval fe opts
          fuel attemptTimeout env t = (Outcome.ret (Except.ok (info, w)), t') →
      WorkerListed env t' w := by
  induction fuel with
  | zero => intro a t t' info w h; simp [waitForConnection.loop] at h
  | succ n ih =>
    intro a t t' info w h
    rw [waitForConnection.loop_succ] at h
    split at h
    · rcases hc : checkConnection ctx address a opts env (t ++ [Event.timeAfter retryInterval])
        with ⟨(e | r) | _ | _, tc⟩ <;> rw [hc] at h <;> simp only [Prod.mk.injEq,
          Outcome.ret.injEq, reduceCtorEq, false_and, Except.ok.injEq] at h
      obtain ⟨rfl, rfl⟩ := h
      exact checkConnection_listed hc
    · rcases hk : waitForConnection.check ctxTimeout containerName address fe env
          (t ++ [Event.timeAfter retryInterval]) with ⟨(e | b) | _ | _, tr⟩ <;> rw [hk] at h
      · simp at h
      · cases b
        · simp at h
        · simp only at h
          rcases hc : checkConnection ctxTimeout address a opts env tr
            with ⟨(e | r) | _ | _, tc⟩ <;> rw [hc] at h <;> simp only [Prod.mk.injEq,
              Outcome.ret.injEq, reduceCtorEq, false_and, Except.ok.injEq] at h
          · exact ih _ _ _ _ _ h
          · obtain ⟨rfl, rfl⟩ := h
            exact checkConnection_listed hc
      · simp at h
      · simp at h

theorem waitForConnection_listed {fuel : Nat} {ctx : Ctx} {containerName address : String}
    {opTimeout : Duration} {fe : Frontend} {opts : List ClientOpt} {env : Env} {t t' : Trace}
    {info : Info} {w : WorkerInfo}
    (h : waitForConnection fuel ctx containerName address opTimeout fe opts env t
      = (Outcome.ret (Except.ok (info, w)), t')) : WorkerListed env t' w := by
  unfold waitForConnection WithTimeout at h
  simp only [M.run_bind, M.run_emit, M.run_lib, M.run_pure] at h
  exact waitForConnection_loop_listed _ _ _ _ _ _ _ _ _ _ _ _ _ _ _ h

theorem WaitUntilStarted_listed {fuel : Nat} {ctx : Ctx} {containerName volumeName address : String}
    {opTimeout : Duration} {fe : Frontend} {opts : List ClientOpt} {env : Env} {t t' : Trace}
    {info : Info} {w : WorkerInfo}
    (h : WaitUntilStarted fuel ctx containerName volumeName address opTimeout fe opts env t
      = (Outcome.ret (Except.ok (info, w)), t')) : WorkerListed env t' w := by
  unfold WaitUntilStarted WithTimeout at h
  simp only [M.run_bind, M.run_emit, M.run_pure] at h
  rcases hl : WaitUntilStarted.runningLoop (opTimeout :: ctx) containerName opTimeout fe fuel env
      (t ++ [Event.enter (Call.WaitUntilStarted opTimeout)] ++ [Event.WithTimeout ctx opTimeout])
    with ⟨(_ | e) | _ | _, tl⟩ <;> rw [hl] at h
  · simp only [M.run_bind] at h
    rcases hw : waitForConnection fuel ctx containerName address opTimeout fe opts env tl
      with ⟨(e | r) | _ | _, tw⟩ <;> rw [hw] at h
    · simp only at h
      split at h
      · simp at h
      · simp only [M.run_bind] at h
        rcases hg : getCacheSize ctx volumeName fe env tw with ⟨(e | sz) | _ | _, tg⟩ <;>
          rw [hg] at h
        · simp at h
        · simp only [M.run_bind, M.run_lib] at h
          split at h
          · simp only [M.run_bind] at h
            rcases hw2 : waitForConnection fuel ctx containerName address opTimeout fe opts env tg
              with ⟨(e | r) | _ | _, tw2⟩ <;> rw [hw2] at h
            · simp at h
            · simp only [M.run_pure, Prod.mk.injEq, Outcome.ret.injEq, Except.ok.injEq] at h
              obtain ⟨rfl, rfl⟩ := h
              exact waitForConnection_listed hw2
            · simp at h
            · simp at h
          · simp at h
        · simp at h
        · simp at h
    · simp only [M.run_pure, Prod.mk.injEq, Outcome.ret.injEq, Except.ok.injEq] at h
      obtain ⟨rfl, rfl⟩ := h
      exact waitForConnection_listed hw
    · simp at h
    · simp at h
  · simp at h
  · simp at h
  · simp at h

/-- The error of the liveness check of a poll is never
`ErrBuildkitConnectionFailure`. -/
theorem waitForConnection.check_error {ctxTimeout : Ctx} {containerName address : String}
    {fe : Frontend} {env : Env} {t t1 : Trace} {err : GoError}
    (h : waitForConnection.check ctxTimeout containerName address fe env t
      = (Outcome.ret (Except.error err), t1)) :
    err.is GoError.errBuildkitConnectionFailure = false := by
  unfold waitForConnection.check at h
  split at h
  · unfold isContainerRunning feContainerInfo at h
    cases fe with
    | nil => simp [feCall] at h
    | live =>
      simp only [feCall, M.run_bind, M.run_call] at h
      generalize env.feContainerInfo _ _ _ = r at h
      rcases r with e | infos
      · simp only [M.run_pure, Prod.mk.injEq, Outcome.ret.injEq, Except.error.injEq] at h
        obtain ⟨rfl, _⟩ := h
        rfl
      · simp only at h
        generalize GoMap.get? infos containerName = g at h
        rcases g with _ | ci
        · simp only [M.run_pure, Prod.mk.injEq, Outcome.ret.injEq, Except.error.injEq] at h
          obtain ⟨rfl, _⟩ := h
          rfl
        · simp at h
  · simp at h

/-- Whichever way the loop of `waitForConnection` returns an error that is
`ErrBuildkitConnectionFailure`, it does so in an iteration whose `select` took
the `ctxTimeout.Done()` case, after a final probe that failed. -/
theorem waitForConnection_loop_failure_origin (ctx ctxTimeout : Ctx)
    (containerName address : String) (opTimeout retryInterval : Duration) (fe : Frontend)
    (opts : List ClientOpt) (env : Env) (fuel : Nat) :
    ∀ (a : Duration) (t t' : Trace) (e : GoError),
      waitForConnection.loop ctx ctxTimeout containerName address opTimeout retryInterval fe opts
          fuel a env t = (Outcome.ret (Except.error e), t') →
      e.is GoError.errBuildkitConnectionFailure = true →
      ∃ tl a' err, env.selectDone tl ctxTimeout retryInterval = true
        ∧ checkConnection ctx address a' opts env (tl ++ [Event.timeAfter retryInterval])
          = (Outcome.ret (Except.error err), t')
        ∧ e = GoError.wrap GoError.errBuildkitConnectionFailure
            ("timeout " ++ env.durationString opTimeout ++ ": could not connect to buildkit: "
              ++ err.Error) := by
  induction fuel with
  | zero => intro a t t' e h; simp [waitForConnection.loop] at h
  | succ n ih =>
    intro a t t' e h he
    rw [waitForConnection.loop_succ] at h
    split at h
    · rename_i hsel
      rcases hc : checkConnection ctx address a opts env (t ++ [Event.timeAfter retryInterval])
        with ⟨(err | r) | _ | _, tc⟩ <;> rw [hc] at h <;> simp only [Prod.mk.injEq,
          Outcome.ret.injEq, reduceCtorEq, false_and, Except.error.injEq] at h
      obtain ⟨rfl, rfl⟩ := h
      exact ⟨t, a, err, hsel, hc, rfl⟩
    · rcases hk : waitForConnection.check ctxTimeout containerName address fe env
          (t ++ [Event.timeAfter retryInterval]) with ⟨(err | b) | _ | _, tr⟩ <;> rw [hk] at h
      · simp only [Prod.mk.injEq, Outcome.ret.injEq, Except.error.injEq] at h
        obtain ⟨rfl, rfl⟩ := h
        rw [waitForConnection.check_error hk] at he
        cases he
      · cases b
        · simp only [Prod.mk.injEq, Outcome.ret.injEq, Except.error.injEq] at h
          obtain ⟨rfl, rfl⟩ := h
          cases he
        · simp only at h
          rcases hc : checkConnection ctxTimeout address a opts env tr
            with ⟨(err | r) | _ | _, tc⟩ <;> rw [hc] at h <;> simp only [Prod.mk.injEq,
              Outcome.ret.injEq, reduceCtorEq, false_and, Except.error.injEq] at h
          exact ih _ _ _ _ h he
      · simp at h
      · simp at h

/-- A probe always returns: it neither panics nor loops. -/
theorem checkConnection_returns (ctx : Ctx) (address : String) (timeout : Duration)
    (opts : List ClientOpt) (env : Env) (t : Trace) :
    ∃ res t', checkConnection ctx address timeout opts env t = (Outcome.ret res, t') := by
  unfold checkConnection WithTimeout
  simp only [M.run_bind, M.run_emit, M.run_pure, M.run_call]
  generalize env.bkNew _ _ _ _ = rN
  rcases rN with _ | (e | u)
  · exact ⟨_, _, rfl⟩
  · exact ⟨_, _, rfl⟩
  · simp only [M.run_bind, M.run_call]
    generalize env.bkListWorkers _ _ = rL
    rcases rL with _ | (e | (_ | ⟨w', ws⟩))
    · exact ⟨_, _, rfl⟩
    · exact ⟨_, _, rfl⟩
    · exact ⟨_, _, rfl⟩
    · simp only [M.run_bind, M.run_call, M.run_emit]
      generalize env.bkInfo _ _ = rI
      rcases rI with e | i
      · simp only
        split
        · exact ⟨_, _, rfl⟩
        · exact ⟨_, _, rfl⟩
      · exact ⟨_, _, rfl⟩

theorem waitForConnection.check_still (ctxTimeout : Ctx) (containerName address : String)
    (fe : Frontend) : Emits (fun e => e.still = true)
      (waitForConnection.check ctxTimeout containerName address fe) := by
  constructor
  intro env t
  unfold waitForConnection.check
  split
  · exact (Emits.isContainerRunning (P := fun e => e.still = true) ctxTimeout containerName fe
      rfl).out env t
  · exact ⟨[], by simp, by simp⟩

theorem attempts_still (es : Trace) (h : ∀ e ∈ es, e.still = true) : attempts es = [] :=
  attempts_silent es (fun e he => Event.attempt?_of_still (h e he))

/-- Within one run of the loop of `waitForConnection`, the attempt timeouts of
the probes are the starting timeout and its successive doublings. -/
theorem waitForConnection_loop_attempts (ctx ctxTimeout : Ctx) (containerName address : String)
    (opTimeout retryInterval : Duration) (fe : Frontend) (opts : List ClientOpt) (env : Env)
    (fuel : Nat) :
    ∀ (a : Duration) (t : Trace), ∃ k,
      attempts (waitForConnection.loop ctx ctxTimeout containerName address opTimeout
          retryInterval fe opts fuel a env t).2
        = attempts t ++ List.iterate Duration.double a k := by
  induction fuel with
  | zero => intro a t; exact ⟨0, by simp [waitForConnection.loop]⟩
  | succ n ih =>
    intro a t
    rw [waitForConnection.loop_succ]
    have hprobe : ∀ (c : Ctx) (u : Trace), attempts u = attempts t →
        attempts (checkConnection c address a opts env u).2 = attempts t ++ [a] := by
      intro c u hu
      obtain ⟨es, h1, _, h3, _⟩ := checkConnection_observes c address a opts env u
      rw [h1, attempts_append, h3, hu]
    have htimer : attempts (t ++ [Event.timeAfter retryInterval]) = attempts t := by
      simp [attempts, Event.attempt?]
    split
    · have := hprobe ctx _ htimer
      rcases hc : checkConnection ctx address a opts env (t ++ [Event.timeAfter retryInterval])
        with ⟨(err | r) | _ | _, tc⟩ <;> rw [hc] at this <;> exact ⟨1, by simpa using this⟩
    · obtain ⟨es, h1, h2⟩ := (waitForConnection.check_still ctxTimeout containerName address fe).out
        env (t ++ [Event.timeAfter retryInterval])
      rcases hk : waitForConnection.check ctxTimeout containerName address fe env
          (t ++ [Event.timeAfter retryInterval]) with ⟨(err | b) | _ | _, tr⟩ <;> rw [hk] at h1 <;>
        simp only at h1 <;>
        have htr : attempts tr = attempts t := by
          rw [h1, attempts_append, attempts_still es h2, htimer, List.append_nil]
      · exact ⟨0, by simpa using htr⟩
      · cases b
        · exact ⟨0, by simpa using htr⟩
        · simp only
          have := hprobe ctxTimeout _ htr
          rcases hc : checkConnection ctxTimeout address a opts env tr
            with ⟨(err | r) | _ | _, tc⟩ <;> rw [hc] at this <;> simp only at this ⊢
          · obtain ⟨k, hk'⟩ := ih a.double tc
            exact ⟨k + 1, by rw [hk', this]; simp [List.iterate]⟩
          · exact ⟨1, by simpa using this⟩
          · exact ⟨1, by simpa using this⟩
          · exact ⟨1, by simpa using this⟩
      · exact ⟨0, by simpa using htr⟩
      · exact ⟨0, by simpa using htr⟩

theorem containerStops_append (t u : Trace) :
    containerStops (t ++ u) = containerStops t ++ containerStops u := by
  simp [containerStops]

theorem Event.stop?_of_quiet {e : Event} (h : e.quiet = true) : e.stop? = none := by
  cases e <;> simp_all [Event.quiet, Event.stop?]

theorem containerStops_quiet (es : Trace) (h : ∀ e ∈ es, e.quiet = true) :
    containerStops es = [] :=
  List.filterMap_eq_nil_iff.mpr (fun e he => Event.stop?_of_quiet (h e he))

/-- Events that are quiet leave the stops and runs of a history as they are. -/
theorem steady_of_quiet {t t' es : Trace} (h : t' = t ++ es) (hq : ∀ e ∈ es, e.quiet = true) :
    containerStops t' = containerStops t ∧ containerRuns t' = containerRuns t := by
  subst h
  rw [containerStops_append, containerRuns_append, containerStops_quiet es hq,
    containerRuns_quiet es hq]
  simp

theorem Event.quiet_of_observes {e : Event} (h : Event.observes e)
    (hm : e ≠ Event.enter Call.MaybeRestart) : e.quiet = true := by
  obtain ⟨h1, _, h3⟩ := h
  cases e with
  | enter c => cases c <;> simp_all [Event.quiet, Event.action?]
  | _ => simp_all [Event.quiet, Event.isMutation]

theorem steady_of_observes {t t' es : Trace} (h : t' = t ++ es) (hq : ∀ e ∈ es, Event.observes e) :
    containerStops t' = containerStops t ∧ containerRuns t' = containerRuns t := by
  subst h
  have h1 : containerStops es = [] :=
    List.filterMap_eq_nil_iff.mpr (fun e he => by
      have := (hq e he).2.2
      cases e <;> simp_all [Event.isMutation, Event.stop?])
  have h2 : containerRuns es = [] :=
    List.filterMap_eq_nil_iff.mpr (fun e he => by
      have := (hq e he).2.2
      cases e <;> simp_all [Event.isMutation, Event.run?])
  rw [containerStops_append, containerRuns_append, h1, h2]
  simp

theorem Stop_steady {ctx : Ctx} {n : String} {fe : Frontend} {env : Env} {t t' : Trace}
    {r : Option GoError} (h : Stop ctx n fe env t = (Outcome.ret r, t')) :
    containerStops t' = containerStops t ++ [n] ∧ containerRuns t' = containerRuns t := by
  obtain ⟨_, rfl⟩ := Stop_step h
  simp [containerStops, containerRuns, Event.stop?, Event.run?]

theorem WaitUntilStopped_steady {fuel : Nat} {ctx : Ctx} {n : String} {d : Duration}
    {fe : Frontend} {env : Env} {t t' : Trace} {o : Outcome (Option GoError)}
    (h : WaitUntilStopped fuel ctx n d fe env t = (o, t')) :
    containerStops t' = containerStops t ∧ containerRuns t' = containerRuns t := by
  obtain ⟨es, h1, h2⟩ := WaitUntilStopped_trace fuel ctx n d fe env t
  rw [h] at h1
  have hq : ∀ e ∈ Event.enter (Call.WaitUntilStopped d) :: es, e.stop? = none ∧ e.run? = none := by
    intro e he
    rcases List.mem_cons.mp he with rfl | h
    · exact ⟨rfl, rfl⟩
    · exact ⟨Event.stop?_of_quiet (Event.quiet_of_still (h2 e h)),
        Event.run?_of_quiet (Event.quiet_of_still (h2 e h))⟩
  simp only at h1
  subst h1
  have hs : containerStops (Event.enter (Call.WaitUntilStopped d) :: es) = [] :=
    List.filterMap_eq_nil_iff.mpr (fun e he => (hq e he).1)
  have hr : containerRuns (Event.enter (Call.WaitUntilStopped d) :: es) = [] :=
    List.filterMap_eq_nil_iff.mpr (fun e he => (hq e he).2)
  rw [containerStops_append, containerRuns_append, hs, hr]
  simp

theorem WaitUntilStarted_steady {fuel : Nat} {ctx : Ctx} {n v a : String} {d : Duration}
    {fe : Frontend} {opts : List ClientOpt} {env : Env} {t t' : Trace}
    {o : Outcome (Except GoError (Info × WorkerInfo))}
    (h : WaitUntilStarted fuel ctx n v a d fe opts env t = (o, t')) :
    containerStops t' = containerStops t ∧ containerRuns t' = containerRuns t := by
  obtain ⟨es, h1, h2⟩ := WaitUntilStarted_trace fuel ctx n v a d fe opts env t
  rw [h] at h1
  have hq : ∀ e ∈ Event.enter (Call.WaitUntilStarted d) :: es, e.stop? = none ∧ e.run? = none := by
    intro e he
    rcases List.mem_cons.mp he with rfl | h
    · exact ⟨rfl, rfl⟩
    · exact ⟨Event.stop?_of_quiet (h2 e h), Event.run?_of_quiet (h2 e h)⟩
  simp only at h1
  subst h1
  have hs : containerStops (Event.enter (Call.WaitUntilStarted d) :: es) = [] :=
    List.filterMap_eq_nil_iff.mpr (fun e he => (hq e he).1)
  have hr : containerRuns (Event.enter (Call.WaitUntilStarted d) :: es) = [] :=
    List.filterMap_eq_nil_iff.mpr (fun e he => (hq e he).2)
  rw [containerStops_append, containerRuns_append, hs, hr]
  simp

/-- Whatever its outcome, `Start` stops no container. -/
theorem Start_steady {ctx : Ctx} {image n : String} {fe : Frontend} {settings : Settings}
    {reset : Bool} {env : Env} {t t' : Trace} {o : Outcome (Option GoError)}
    (h : Start ctx image n fe settings reset env t = (o, t')) :
    containerStops t' = containerStops t := by
  obtain ⟨es, rfl, _, _, _, _, hs⟩ := Start_step h
  rw [containerStops_append]
  have : containerStops es = [] :=
    List.filterMap_eq_nil_iff.mpr (fun e he => by
      cases e with
      | ContainerStop c k m => exact absurd he (hs c k m)
      | _ => rfl)
  rw [this]
  simp

/-- A `Start` that succeeds runs exactly one container: the one asked for, from
the image asked for, labelled with the settings hash, and with
`EARTHLY_RESET_TMP_DIR` set exactly when `reset` holds. -/
theorem Start_runs_once {ctx : Ctx} {image n : String} {fe : Frontend} {settings : Settings}
    {reset : Bool} {env : Env} {t t' : Trace}
    (h : Start ctx image n fe settings reset env t = (Outcome.ret none, t')) :
    ∃ spec hash, containerRuns t' = containerRuns t ++ [spec]
      ∧ env.Hash settings = Except.ok hash
      ∧ spec.NameOrID = n ∧ spec.ImageRef = image
      ∧ spec.Labels = [("dev.earthly.settingshash", hash)]
      ∧ GoMap.get? spec.Envs "EARTHLY_RESET_TMP_DIR" = (if reset then some "true" else none) := by
  obtain ⟨es, spec, hash, h1, h2, h3, h4, h5, h6⟩ := Start_success h
  obtain ⟨es', h1', _, _, _, hr, _⟩ := Start_step h
  have : es' = es := List.append_cancel_left (h1'.symm.trans h1)
  subst this
  refine ⟨spec, hash, by rw [h1, containerRuns_append, h2], h3, h4, h5, h6, ?_⟩
  exact hr spec (by rw [h2]; simp)

theorem startLockEvents_steady (ctx : Ctx) (path : String) (t : Trace) :
    containerStops (t ++ startLockEvents ctx path) = containerStops t
      ∧ containerRuns (t ++ startLockEvents ctx path) = containerRuns t :=
  steady_of_quiet rfl (fun e he => Event.quiet_of_still (startLockEvents_still ctx path e he))

theorem startUnlockEvents_steady (path : String) (t : Trace) :
    containerStops (t ++ startUnlockEvents path) = containerStops t
      ∧ containerRuns (t ++ startUnlockEvents path) = containerRuns t :=
  steady_of_quiet rfl (fun e he => Event.quiet_of_still (startUnlockEvents_still path e he))

/-- What a history gained, read through stops and runs. -/
theorem gained_of_append {t t' es : Trace} (stops : List String) (runs : List ContainerRun)
    (h : t' = t ++ es) (hs : containerStops t' = containerStops t ++ stops)
    (hr : containerRuns t' = containerRuns t ++ runs) :
    containerStops es = stops ∧ containerRuns es = runs := by
  subst h
  rw [containerStops_append] at hs
  rw [containerRuns_append] at hr
  exact ⟨List.append_cancel_left hs, List.append_cancel_left hr⟩

theorem stops_of_append {t t' es : Trace} (h : t' = t ++ es)
    (hs : containerStops t' = containerStops t) : containerStops es = [] := by
  subst h
  rw [containerStops_append] at hs
  exact List.append_cancel_left (hs.trans (List.append_nil _).symm)

/-- When the available image ID cannot be determined and the container reports
a non-empty image ID, `MaybeRestart` does not read the stored settings hash: it
goes on from the failed `ImageInfo` call, to the 5 second probe when
`NoUpdate` is set and to the replace path otherwise. -/
theorem MaybeRestart_unknown_image
    (fuel : Nat) (ctx : Ctx) (image containerName : String) (fe : Frontend)
    (settings : Settings) (opts : List ClientOpt) (env : Env) (t0 t1 t2 : Trace)
    (containerImageID : String) (err : GoError)
    (hcid : GetContainerImageID ctx containerName fe env (t0 ++ [Event.enter Call.MaybeRestart])
      = (Outcome.ret (Except.ok containerImageID), t1))
    (hne : containerImageID ≠ "")
    (havail : GetAvailableImageID ctx image fe env t1 = (Outcome.ret (Except.error err), t2)) :
    MaybeRestart fuel ctx image containerName fe settings opts env t0
      = if settings.NoUpdate = true then
          checkConnection ctx settings.BuildkitAddress (5 * second) opts env t2
        else MaybeRestart.replace fuel ctx image containerName fe settings opts env t2 := by
  have h := MaybeRestart_decide fuel ctx image containerName fe settings opts env t0 t1 t2 t2
    containerImageID "" (Except.error err) false false hcid havail
    (by simpa [Except.toOption] using hne) (fun h => by cases h) (fun _ => rfl)
  simpa using h

/-! ## Readiness waits, the start-up lock and the frontend -/

theorem waits_append (t u : Trace) : waits (t ++ u) = waits t ++ waits u := by
  simp [waits]

theorem Event.wait?_of_still {e : Event} (h : e.still = true) : e.wait? = none := by
  cases e <;> simp_all [Event.still, Event.wait?]

theorem waits_still (es : Trace) (h : ∀ e ∈ es, e.still = true) : waits es = [] :=
  List.filterMap_eq_nil_iff.mpr (fun e he => Event.wait?_of_still (h e he))

theorem checkConnection_no_wait (ctx : Ctx) (address : String) (timeout : Duration)
    (opts : List ClientOpt) :
    Emits (fun e => e.wait? = none) (checkConnection ctx address timeout opts) := by
  unfold checkConnection WithTimeout
  repeat' first
    | apply Emits.bind
    | apply Emits.pure
    | apply Emits.call
    | apply Emits.emit
    | intro _
    | dsimp only
    | split
  all_goals rfl

theorem waitForConnection_loop_no_wait (ctx ctxTimeout : Ctx) (containerName address : String)
    (opTimeout retryInterval : Duration) (fe : Frontend) (opts : List ClientOpt) (fuel : Nat) :
    ∀ attemptTimeout, Emits (fun e => e.wait? = none)
      (waitForConnection.loop ctx ctxTimeout containerName address opTimeout retryInterval fe
        opts fuel attemptTimeout) := by
  induction fuel with
  | zero => intro _; exact Emits.outOfFuel
  | succ n ih =>
    intro attemptTimeout
    unfold waitForConnection.loop selectDone
    repeat' first
      | apply ih
      | apply checkConnection_no_wait
      | apply Emits.isContainerRunning
      | apply Emits.bind
      | apply Emits.pure
      | apply Emits.call
      | apply Emits.lib
      | intro _
      | dsimp only
      | split
    all_goals rfl

/-- A run of `waitForConnection` logs exactly one entry into
`waitForConnection`, its own. -/
theorem waitForConnection_waits {fuel : Nat} {ctx : Ctx} {containerName address : String}
    {opTimeout : Duration} {fe : Frontend} {opts : List ClientOpt} {env : Env} {t t' : Trace}
    {o : Outcome (Except GoError (Info × WorkerInfo))}
    (h : waitForConnection fuel ctx containerName address opTimeout fe opts env t = (o, t')) :
    waits t' = waits t ++ [opTimeout] := by
  have key : ∃ es, (waitForConnection fuel ctx containerName address opTimeout fe opts env t).2
      = t ++ Event.enter (Call.waitForConnection opTimeout) :: es
      ∧ ∀ e ∈ es, e.wait? = none := by
    unfold waitForConnection WithTimeout
    apply Emits.after_emit
    repeat' first
      | apply waitForConnection_loop_no_wait
      | apply Emits.bind
      | apply Emits.pure
      | apply Emits.emit
      | apply Emits.lib
      | intro _
      | dsimp only
      | split
    all_goals rfl
  obtain ⟨es, h1, h2⟩ := key
  rw [h] at h1
  simp only at h1
  have h3 : waits es = [] := List.filterMap_eq_nil_iff.mpr h2
  rw [h1, waits_append]
  simp [waits, List.filterMap_cons, Event.wait?] at h3 ⊢
  exact h3

theorem WaitUntilStarted_runningLoop_waits {ctxTimeout : Ctx} {containerName : String}
    {opTimeout : Duration} {fe : Frontend} {fuel : Nat} {env : Env} {t t' : Trace}
    {o : Outcome (Option GoError)}
    (h : WaitUntilStarted.runningLoop ctxTimeout containerName opTimeout fe fuel env t = (o, t')) :
    waits t' = waits t := by
  obtain ⟨es, rfl, h2⟩ :=
    trace_of_emits (WaitUntilStarted_runningLoop_still ctxTimeout containerName opTimeout fe fuel) h
  rw [waits_append, waits_still es h2, List.append_nil]

theorem getCacheSize_waits {ctx : Ctx} {volumeName : String} {fe : Frontend} {env : Env}
    {t t' : Trace} {o : Outcome (Except GoError Int)}
    (h : getCacheSize ctx volumeName fe env t = (o, t')) : waits t' = waits t := by
  obtain ⟨es, rfl, h2⟩ := trace_of_emits (getCacheSize_still ctx volumeName fe) h
  rw [waits_append, waits_still es h2, List.append_nil]

/-- The part of `WaitUntilStarted` that follows the first `waitForConnection`,
as an equation. -/
theorem WaitUntilStarted_after_first
    {fuel : Nat} {ctx : Ctx} {containerName : String} (volumeName : String) {address : String}
    {opTimeout : Duration}
    {fe : Frontend} {opts : List ClientOpt} {env : Env} {t tl tw : Trace}
    {first : Except GoError (Info × WorkerInfo)}
    (hrun : WaitUntilStarted.runningLoop (opTimeout :: ctx) containerName opTimeout fe fuel env
        (t ++ [Event.enter (Call.WaitUntilStarted opTimeout), Event.WithTimeout ctx opTimeout])
      = (Outcome.ret none, tl))
    (hfirst : waitForConnection fuel ctx containerName address opTimeout fe opts env tl
      = (Outcome.ret first, tw)) :
    WaitUntilStarted fuel ctx containerName volumeName address opTimeout fe opts env t
      = match first with
        | Except.ok r => (Outcome.ret (Except.ok r), tw)
        | Except.error err =>
          if err.is GoError.errBuildkitConnectionFailure = false then
            (Outcome.ret (Except.error err), tw)
          else
            match getCacheSize ctx volumeName fe env tw with
            | (Outcome.ret (Except.error _), tg) => (Outcome.ret (Except.error err), tg)
            | (Outcome.ret (Except.ok s), tg) =>
              if (decide (Int.tdiv (Int.tdiv s 1024) 1024 ≥ 30)
                  || (decide (Int.tdiv (Int.tdiv s 1024) 1024 ≥ 10) && env.GOOS == "darwin")) = true
              then waitForConnection fuel ctx containerName address opTimeout fe opts env tg
              else (Outcome.ret (Except.error err), tg)
            | (Outcome.panic msg, tg) => (Outcome.panic msg, tg)
            | (Outcome.outOfFuel, tg) => (Outcome.outOfFuel, tg) := by
  unfold WaitUntilStarted WithTimeout
  simp only [M.run_bind, M.run_emit, M.run_pure, List.append_assoc, List.singleton_append,
    List.cons_append, List.nil_append] at hrun ⊢
  rw [hrun]
  simp only [M.run_bind, hfirst]
  cases first with
  | ok r => rfl
  | error err =>
    simp only
    cases hcf : err.is GoError.errBuildkitConnectionFailure with
    | false => simp
    | true =>
      simp only [Bool.not_true, Bool.false_eq_true, if_false, M.run_bind]
      rcases hg : getCacheSize ctx volumeName fe env tw with ⟨(e | s) | _ | _, tg⟩
      · simp
      · simp only [M.run_bind, M.run_lib]
        split
        · simp only [M.run_bind]
          rcases waitForConnection fuel ctx containerName address opTimeout fe opts env tg
            with ⟨(e | r) | _ | _, tw2⟩ <;> simp
        · simp
      · simp
      · simp


theorem checkConnection_leaves_lock (ctx : Ctx) (address : String) (timeout : Duration)
    (opts : List ClientOpt) :
    Emits (fun e => e.isLockOp = false) (checkConnection ctx address timeout opts) := by
  unfold checkConnection WithTimeout
  repeat' first
    | apply Emits.bind
    | apply Emits.pure
    | apply Emits.call
    | apply Emits.emit
    | intro _
    | dsimp only
    | split
  all_goals rfl

theorem waitForConnection_loop_leaves_lock (ctx ctxTimeout : Ctx)
    (containerName address : String) (opTimeout retryInterval : Duration) (fe : Frontend)
    (opts : List ClientOpt) (fuel : Nat) :
    ∀ attemptTimeout, Emits (fun e => e.isLockOp = false)
      (waitForConnection.loop ctx ctxTimeout containerName address opTimeout retryInterval fe
        opts fuel attemptTimeout) := by
  induction fuel with
  | zero => intro _; exact Emits.outOfFuel
  | succ n ih =>
    intro attemptTimeout
    unfold waitForConnection.loop selectDone
    repeat' first
      | apply ih
      | apply checkConnection_leaves_lock
      | apply Emits.isContainerRunning
      | apply Emits.bind
      | apply Emits.pure
      | apply Emits.call
      | apply Emits.lib
      | intro _
      | dsimp only
      | split
    all_goals rfl

theorem waitForConnection_leaves_lock (fuel : Nat) (ctx : Ctx) (containerName address : String)
    (opTimeout : Duration) (fe : Frontend) (opts : List ClientOpt) :
    Emits (fun e => e.isLockOp = false)
      (waitForConnection fuel ctx containerName address opTimeout fe opts) := by
  unfold waitForConnection WithTimeout
  repeat' first
    | apply waitForConnection_loop_leaves_lock
    | apply Emits.bind
    | apply Emits.pure
    | apply Emits.emit
    | apply Emits.lib
    | intro _
    | dsimp only
    | split
  all_goals rfl

theorem WaitUntilStopped_leaves_lock (fuel : Nat) (ctx : Ctx) (containerName : String)
    (opTimeout : Duration) (fe : Frontend) :
    Emits (fun e => e.isLockOp = false) (WaitUntilStopped fuel ctx containerName opTimeout fe) := by
  have hloop : ∀ c, Emits (fun e => e.isLockOp = false)
      (WaitUntilStopped.loop c containerName opTimeout fe fuel) := by
    intro c
    induction fuel with
    | zero => exact Emits.outOfFuel
    | succ n ih =>
      unfold WaitUntilStopped.loop selectDone
      repeat' first
        | apply ih
        | apply Emits.isContainerRunning
        | apply Emits.bind
        | apply Emits.pure
        | apply Emits.call
        | apply Emits.lib
        | intro _
        | dsimp only
        | split
      all_goals rfl
  unfold WaitUntilStopped WithTimeout
  repeat' first
    | apply hloop
    | apply Emits.bind
    | apply Emits.pure
    | apply Emits.emit
    | intro _
  all_goals rfl

theorem WaitUntilStarted_leaves_lock (fuel : Nat) (ctx : Ctx)
    (containerName volumeName address : String) (opTimeout : Duration) (fe : Frontend)
    (opts : List ClientOpt) :
    Emits (fun e => e.isLockOp = false)
      (WaitUntilStarted fuel ctx containerName volumeName address opTimeout fe opts) := by
  have hloop : ∀ c, Emits (fun e => e.isLockOp = false)
      (WaitUntilStarted.runningLoop c containerName opTimeout fe fuel) := by
    intro c
    induction fuel with
    | zero => exact Emits.outOfFuel
    | succ n ih =>
      unfold WaitUntilStarted.runningLoop selectDone
      repeat' first
        | apply ih
        | apply Emits.isContainerRunning
        | apply Emits.bind
        | apply Emits.pure
        | apply Emits.call
        | apply Emits.lib
        | intro _
        | dsimp only
        | split
      all_goals rfl
  have hcache : Emits (fun e => e.isLockOp = false) (getCacheSize ctx volumeName fe) := by
    unfold getCacheSize feVolumeInfo derefEntry
    repeat' first
      | apply Emits.bind
      | apply Emits.pure
      | apply Emits.feCall
      | apply Emits.panic
      | intro _
      | dsimp only
      | split
    all_goals rfl
  unfold WaitUntilStarted WithTimeout
  repeat' first
    | apply waitForConnection_leaves_lock
    | apply hloop
    | exact hcache
    | apply Emits.bind
    | apply Emits.pure
    | apply Emits.emit
    | apply Emits.lib
    | intro _
    | dsimp only
    | split
  all_goals rfl

theorem Stop_leaves_lock (ctx : Ctx) (containerName : String) (fe : Frontend) :
    Emits (fun e => e.isLockOp = false) (Stop ctx containerName fe) := by
  unfold Stop feContainerStop
  repeat' first
    | apply Emits.bind
    | apply Emits.pure
    | apply Emits.emit
    | apply Emits.feCall
    | intro _
  all_goals rfl

theorem Start_leaves_lock (ctx : Ctx) (image containerName : String) (fe : Frontend)
    (settings : Settings) (reset : Bool) :
    Emits (fun e => e.isLockOp = false) (Start ctx image containerName fe settings reset) := by
  have hRE : Emits (fun e => e.isLockOp = false) (RemoveExited ctx fe containerName) :=
    RemoveExited_emits _ _ _ rfl rfl
  have hMP : Emits (fun e => e.isLockOp = false) (MaybePull ctx image fe) :=
    MaybePull_emits _ _ _ rfl rfl
  have hP : ∀ v p, Emits (fun e => e.isLockOp = false) (Start.ports settings v p) := fun v p =>
    Start_ports_emits settings v p rfl (fun _ => rfl)
  have hX : ∀ h e v p, Emits (fun e => e.isLockOp = false)
      (Start.execute ctx image containerName fe settings reset h e v p) := by
    intro h e v p
    unfold Start.execute feContainerRun
    repeat' first
      | apply Emits.bind
      | apply Emits.pure
      | apply Emits.feCall
      | intro _
      | dsimp only
      | split
    all_goals rfl
  unfold Start
  repeat' first
    | exact hRE
    | exact hMP
    | apply hP
    | apply hX
    | apply Emits.bind
    | apply Emits.pure
    | apply Emits.emit
    | apply Emits.lib
    | apply Emits.ite
    | intro _
    | dsimp only
    | split
  all_goals rfl

theorem MaybeRestart_leaves_lock (fuel : Nat) (ctx : Ctx) (image containerName : String)
    (fe : Frontend) (settings : Settings) (opts : List ClientOpt) :
    Emits (fun e => e.isLockOp = false)
      (MaybeRestart fuel ctx image containerName fe settings opts) := by
  have hR : Emits (fun e => e.isLockOp = false)
      (MaybeRestart.replace fuel ctx image containerName fe settings opts) := by
    unfold MaybeRestart.replace
    repeat' first
      | apply Stop_leaves_lock
      | apply WaitUntilStopped_leaves_lock
      | apply Start_leaves_lock
      | apply WaitUntilStarted_leaves_lock
      | apply Emits.bind
      | apply Emits.pure
      | intro _
      | dsimp only
      | split
  unfold MaybeRestart
  repeat' first
    | exact hR
    | apply checkConnection_leaves_lock
    | exact GetContainerImageID_emits _ _ _ rfl
    | exact GetAvailableImageID_emits _ _ _ rfl
    | exact GetSettingsHash_emits _ _ _ rfl
    | apply Emits.bind
    | apply Emits.pure
    | apply Emits.emit
    | apply Emits.lib
    | apply Emits.ite
    | intro _
    | dsimp only
    | split
  all_goals rfl

/-- Between the acquisition of the start-up lock and its release, `MaybeStart`
issues no operation on the lock. -/
theorem MaybeStart_body_leaves_lock (fuel : Nat) (ctx : Ctx) (image containerName : String)
    (fe : Frontend) (settings : Settings) (opts : List ClientOpt) :
    Emits (fun e => e.isLockOp = false)
      (MaybeStart.body fuel ctx image containerName fe settings opts) := by
  unfold MaybeStart.body
  repeat' first
    | apply MaybeRestart_leaves_lock
    | apply Start_leaves_lock
    | apply WaitUntilStarted_leaves_lock
    | exact IsStarted_emits _ _ _ rfl
    | apply Emits.bind
    | apply Emits.pure
    | intro _
    | dsimp only
    | split


/-- With the start-up lock acquired, `MaybeStart` is its body followed by the
deferred `Unlock`, whether the body returns or panics. -/
theorem MaybeStart_locked {fuel : Nat} {ctx : Ctx} {image containerName : String}
    {fe : Frontend} {settings : Settings} {opts : List ClientOpt} {env : Env} {t0 t' : Trace}
    {o : Outcome (Except GoError (Info × WorkerInfo))}
    (hpath : settings.StartUpLockPath ≠ "")
    (hacq : (env.flockTryLockContext (t0 ++ [Event.WithTimeout ctx (5 * minute)])
        settings.StartUpLockPath (5 * minute :: ctx) (200 * millisecond)).2 = none)
    (hbody : MaybeStart.body fuel ctx image containerName fe settings opts env
        (t0 ++ [Event.WithTimeout ctx (5 * minute),
                Event.TryLockContext settings.StartUpLockPath (5 * minute :: ctx)
                  (200 * millisecond)]) = (o, t'))
    (ho : o ≠ Outcome.outOfFuel) :
    MaybeStart fuel ctx image containerName fe settings opts env t0
      = (o, t' ++ [Event.Unlock settings.StartUpLockPath]) := by
  unfold MaybeStart
  simp only [ne_eq, hpath, not_false_eq_true, if_true, M.run_bind, WithTimeout, M.run_emit,
    M.run_pure, M.run_call, hacq]
  simp only [M.deferred, List.append_assoc, List.singleton_append, List.cons_append,
    List.nil_append] at hbody ⊢
  rw [hbody]
  cases o with
  | ret a => rfl
  | panic msg => rfl
  | outOfFuel => exact absurd rfl ho

/-- The replace path stops at its first failing step and returns the error of
that step as it is. -/
theorem MaybeRestart_replace_failure
    (fuel : Nat) (ctx : Ctx) (image containerName : String) (fe : Frontend)
    (settings : Settings) (opts : List ClientOpt) (env : Env) (t : Trace) (err : GoError) :
    (∀ t1, Stop ctx containerName fe env t = (Outcome.ret (some err), t1) →
        MaybeRestart.replace fuel ctx image containerName fe settings opts env t
          = (Outcome.ret (Except.error err), t1))
    ∧ (∀ t1 t2, Stop ctx containerName fe env t = (Outcome.ret none, t1) →
        WaitUntilStopped fuel ctx containerName settings.Timeout fe env t1
          = (Outcome.ret (some err), t2) →
        MaybeRestart.replace fuel ctx image containerName fe settings opts env t
          = (Outcome.ret (Except.error err), t2))
    ∧ (∀ t1 t2 t3, Stop ctx containerName fe env t = (Outcome.ret none, t1) →
        WaitUntilStopped fuel ctx containerName settings.Timeout fe env t1
          = (Outcome.ret none, t2) →
        Start ctx image containerName fe settings false env t2 = (Outcome.ret (some err), t3) →
        MaybeRestart.replace fuel ctx image containerName fe settings opts env t
          = (Outcome.ret (Except.error err), t3))
    ∧ (∀ t1 t2 t3 t4, Stop ctx containerName fe env t = (Outcome.ret none, t1) →
        WaitUntilStopped fuel ctx containerName settings.Timeout fe env t1
          = (Outcome.ret none, t2) →
        Start ctx image containerName fe settings false env t2 = (Outcome.ret none, t3) →
        WaitUntilStarted fuel ctx containerName settings.VolumeName settings.BuildkitAddress
          settings.Timeout fe opts env t3 = (Outcome.ret (Except.error err), t4) →
        MaybeRestart.replace fuel ctx image containerName fe settings opts env t
          = (Outcome.ret (Except.error err), t4)) := by
  refine ⟨?_, ?_, ?_, ?_⟩
  · intro t1 h1
    unfold MaybeRestart.replace
    simp only [M.run_bind, h1, M.run_pure]
  · intro t1 t2 h1 h2
    unfold MaybeRestart.replace
    simp only [M.run_bind, h1, h2, M.run_pure]
  · intro t1 t2 t3 h1 h2 h3
    unfold MaybeRestart.replace
    simp only [M.run_bind, h1, h2, h3, M.run_pure]
  · intro t1 t2 t3 t4 h1 h2 h3 h4
    unfold MaybeRestart.replace
    simp only [M.run_bind, h1, h2, h3, h4, M.run_pure]

/-- From the `IsStarted` call on, `ResetCache` stops at its first failing step
and returns the error of that step as it is. -/
theorem ResetCache_failure
    (fuel : Nat) (ctx : Ctx) (image containerName : String) (fe : Frontend)
    (settings : Settings) (opts opts' : List ClientOpt) (env : Env) (t0 t1 t2 : Trace)
    (wasRunning : Bool) (err : GoError)
    (hlocal : env.IsLocal settings.BuildkitAddress = true)
    (hopts : addRequiredOpts settings opts env t0 = (Outcome.ret (Except.ok opts'), t1))
    (his : IsStarted ctx containerName fe env t1 = (Outcome.ret (Except.ok wasRunning), t2)) :
    (∀ t3, wasRunning = true →
        Stop ctx containerName fe env t2 = (Outcome.ret (some err), t3) →
        ResetCache fuel ctx image containerName fe settings opts env t0
          = (Outcome.ret (some err), t3))
    ∧ (∀ t3 t4, wasRunning = true →
        Stop ctx containerName fe env t2 = (Outcome.ret none, t3) →
        WaitUntilStopped fuel ctx containerName settings.Timeout.double fe env t3
          = (Outcome.ret (some err), t4) →
        ResetCache fuel ctx image containerName fe settings opts env t0
          = (Outcome.ret (some err), t4))
    ∧ (∀ t4 t5,
        (wasRunning = true → ∃ t3, Stop ctx containerName fe env t2 = (Outcome.ret none, t3)
          ∧ WaitUntilStopped fuel ctx containerName settings.Timeout.double fe env t3
            = (Outcome.ret none, t4)) →
        (wasRunning = false → t4 = t2) →
        Start ctx image containerName fe { settings with Timeout := settings.Timeout.double }
          true env t4 = (Outcome.ret (some err), t5) →
        ResetCache fuel ctx image containerName fe settings opts env t0
          = (Outcome.ret (some err), t5))
    ∧ (∀ t4 t5 t6,
        (wasRunning = true → ∃ t3, Stop ctx containerName fe env t2 = (Outcome.ret none, t3)
          ∧ WaitUntilStopped fuel ctx containerName settings.Timeout.double fe env t3
            = (Outcome.ret none, t4)) →
        (wasRunning = false → t4 = t2) →
        Start ctx image containerName fe { settings with Timeout := settings.Timeout.double }
          true env t4 = (Outcome.ret none, t5) →
        WaitUntilStarted fuel ctx containerName settings.VolumeName settings.BuildkitAddress
          settings.Timeout.double fe opts' env t5 = (Outcome.ret (Except.error err), t6) →
        ResetCache fuel ctx image containerName fe settings opts env t0
          = (Outcome.ret (some err), t6)) := by
  refine ⟨?_, ?_, ?_, ?_⟩
  · intro t3 hw h1
    subst hw
    unfold ResetCache
    simp only [M.run_bind, M.run_lib, hlocal, Bool.not_true, Bool.false_eq_true, if_false, hopts,
      his, if_true, h1, M.run_pure]
  · intro t3 t4 hw h1 h2
    subst hw
    unfold ResetCache
    simp only [M.run_bind, M.run_lib, hlocal, Bool.not_true, Bool.false_eq_true, if_false, hopts,
      his, if_true, h1, h2, M.run_pure]
  · intro t4 t5 hstop hskip h3
    unfold ResetCache
    simp only [M.run_bind, M.run_lib, hlocal, Bool.not_true, Bool.false_eq_true, if_false, hopts,
      his]
    cases wasRunning with
    | true =>
      obtain ⟨t3, h1, h2⟩ := hstop rfl
      simp only [if_true, M.run_bind, h1, h2, M.run_pure, h3]
    | false =>
      have := hskip rfl
      subst this
      simp only [Bool.false_eq_true, if_false, M.run_bind, M.run_pure, h3]
  · intro t4 t5 t6 hstop hskip h3 h4
    unfold ResetCache
    simp only [M.run_bind, M.run_lib, hlocal, Bool.not_true, Bool.false_eq_true, if_false, hopts,
      his]
    cases wasRunning with
    | true =>
      obtain ⟨t3, h1, h2⟩ := hstop rfl
      simp only [if_true, M.run_bind, h1, h2, M.run_pure, h3, h4]
    | false =>
      have := hskip rfl
      subst this
      simp only [Bool.false_eq_true, if_false, M.run_bind, M.run_pure, h3, h4]

/-- The errors of the body of `MaybeStart`: each failing step ends the body, and
its error is returned under the context of the step. -/
theorem MaybeStart_body_failure
    (fuel : Nat) (ctx : Ctx) (image containerName : String) (fe : Frontend)
    (settings : Settings) (opts : List ClientOpt) (env : Env) (t : Trace) (err : GoError) :
    (∀ t1, IsStarted ctx containerName fe env t = (Outcome.ret (Except.error err), t1) →
        MaybeStart.body fuel ctx image containerName fe settings opts env t
          = (Outcome.ret (Except.error (GoError.wrap err "check is started buildkitd")), t1))
    ∧ (∀ t1 t2, IsStarted ctx containerName fe env t = (Outcome.ret (Except.ok true), t1) →
        MaybeRestart fuel ctx image containerName fe settings opts env t1
          = (Outcome.ret (Except.error err), t2) →
        MaybeStart.body fuel ctx image containerName fe settings opts env t
          = (Outcome.ret (Except.error (GoError.wrap err "maybe restart")), t2))
    ∧ (∀ t1 t2, IsStarted ctx containerName fe env t = (Outcome.ret (Except.ok false), t1) →
        Start ctx image containerName fe settings false env t1 = (Outcome.ret (some err), t2) →
        MaybeStart.body fuel ctx image containerName fe settings opts env t
          = (Outcome.ret (Except.error (GoError.wrap err "start")), t2))
    ∧ (∀ t1 t2 t3, IsStarted ctx containerName fe env t = (Outcome.ret (Except.ok false), t1) →
        Start ctx image containerName fe settings false env t1 = (Outcome.ret none, t2) →
        WaitUntilStarted fuel ctx containerName settings.VolumeName settings.BuildkitAddress
          settings.Timeout fe opts env t2 = (Outcome.ret (Except.error err), t3) →
        MaybeStart.body fuel ctx image containerName fe settings opts env t
          = (Outcome.ret (Except.error (GoError.wrap err "wait until started")), t3)) := by
  refine ⟨?_, ?_, ?_, ?_⟩
  · intro t1 h1
    unfold MaybeStart.body
    simp only [M.run_bind, h1, M.run_pure]
  · intro t1 t2 h1 h2
    unfold MaybeStart.body
    simp only [M.run_bind, h1, h2, M.run_pure, if_true]
  · intro t1 t2 h1 h2
    unfold MaybeStart.body
    simp only [M.run_bind, h1, h2, M.run_pure, Bool.false_eq_true, if_false]
  · intro t1 t2 t3 h1 h2 h3
    unfold MaybeStart.body
    simp only [M.run_bind, h1, h2, h3, M.run_pure, Bool.false_eq_true, if_false]


theorem Start_execute_labelled (ctx : Ctx) (image containerName : String) (fe : Frontend)
    (settings : Settings) (reset : Bool) (hash : String) (envOpts : GoMap String)
    (volumeOpts : List Mount) (portOpts : List Port) :
    Emits (Start.labelled hash)
      (Start.execute ctx image containerName fe settings reset hash envOpts volumeOpts
        portOpts) := by
  unfold Start.execute feContainerRun
  repeat' first
    | apply Emits.bind
    | apply Emits.pure
    | apply Emits.feCall
    | intro _
    | dsimp only
    | split
  rfl

/-- Whatever its outcome, every `ContainerRun` that `Start` issues carries the
hash of the settings as its only label. -/
theorem Start_labelled (ctx : Ctx) (image containerName : String) (fe : Frontend)
    {settings : Settings} (reset : Bool) {env : Env} (t : Trace) {hash : String}
    (hh : env.Hash settings = Except.ok hash) :
    ∃ es, (Start ctx image containerName fe settings reset env t).2 = t ++ es
      ∧ ∀ e ∈ es, Start.labelled hash e := by
  have hRE : Emits (Start.labelled hash) (RemoveExited ctx fe containerName) :=
    RemoveExited_emits _ _ _ trivial trivial
  have hMP : Emits (Start.labelled hash) (MaybePull ctx image fe) :=
    MaybePull_emits _ _ _ trivial trivial
  have hP : ∀ v p, Emits (Start.labelled hash) (Start.ports settings v p) := fun v p =>
    Start_ports_emits settings v p trivial (fun _ => trivial)
  suffices h : ∃ es, (Start ctx image containerName fe settings reset env t).2
      = (t ++ [Event.enter (Call.Start reset)]) ++ es ∧ ∀ e ∈ es, Start.labelled hash e by
    obtain ⟨es, h1, h2⟩ := h
    refine ⟨Event.enter (Call.Start reset) :: es, by simp [h1], ?_⟩
    intro e he
    rcases List.mem_cons.mp he with rfl | h
    · trivial
    · exact h2 e h
  unfold Start
  rw [M.bind_of_ret (M.run_emit _ env t), M.bind_of_ret (M.run_lib _ env _)]
  simp only [hh]
  refine Emits.out (P := Start.labelled hash) ?_ env _
  repeat' first
    | exact hRE
    | exact hMP
    | apply hP
    | apply Start_execute_labelled
    | apply Emits.bind
    | apply Emits.pure
    | apply Emits.lib
    | apply Emits.ite
    | intro _
    | dsimp only
    | split


theorem mem_containerRuns {es : Trace} {spec : ContainerRun} (h : spec ∈ containerRuns es) :
    ∃ c, Event.ContainerRun c spec ∈ es := by
  simp only [containerRuns, List.mem_filterMap] at h
  obtain ⟨e, he, hes⟩ := h
  cases e with
  | ContainerRun c sp =>
    simp only [Event.run?, Option.some.injEq] at hes
    subst hes
    exact ⟨c, he⟩
  | _ => simp [Event.run?] at hes

/-- `GetSettingsHash` on a live frontend that reports the container: the value
of the label `dev.earthly.settingshash`. -/
theorem GetSettingsHash_label {ctx : Ctx} {containerName : String} {env : Env} {t : Trace}
    {infos : GoMap ContainerInfo} {ci : ContainerInfo}
    (hinfo : env.feContainerInfo t ctx containerName = Except.ok infos)
    (hci : GoMap.get? infos containerName = some ci) :
    GetSettingsHash ctx containerName Frontend.live env t
      = (Outcome.ret (Except.ok (GoMap.getD ci.Labels "dev.earthly.settingshash")),
         t ++ [Event.ContainerInfo ctx containerName]) := by
  simp [GetSettingsHash, feContainerInfo, feCall, hinfo, hci]

theorem noPanic_pure {α : Type} (a : α) : NoPanic (Pure.pure a : M α) :=
  ⟨fun _ _ _ h => by simp at h⟩

theorem noPanic_bind {α β : Type} {m : M α} {f : α → M β} (hm : NoPanic m)
    (hf : ∀ a, NoPanic (f a)) : NoPanic (m >>= f) := by
  constructor
  intro env t msg
  rw [M.run_bind]
  rcases hr : m env t with ⟨r, t'⟩
  cases r with
  | ret a => exact (hf a).out env t' msg
  | panic msg' => exact absurd (by rw [hr]) (hm.out env t msg')
  | outOfFuel => simp

theorem noPanic_lib {α : Type} {f : Env → α} : NoPanic (M.lib f) :=
  ⟨fun _ _ _ h => by simp at h⟩

theorem noPanic_call {α : Type} {e : Event} {f : Env → Trace → α} : NoPanic (M.call e f) :=
  ⟨fun _ _ _ h => by simp at h⟩

theorem noPanic_emit {e : Event} : NoPanic (M.emit e) :=
  ⟨fun _ _ _ h => by simp at h⟩

theorem noPanic_ite {α : Type} {c : Prop} [Decidable c] {a b : M α}
    (ha : NoPanic a) (hb : NoPanic b) : NoPanic (if c then a else b) := by
  split <;> assumption

theorem makeTLSPath_noPanic (path : String) : NoPanic (makeTLSPath path) := by
  unfold makeTLSPath
  repeat' first
    | apply noPanic_bind
    | apply noPanic_pure
    | apply noPanic_call
    | apply noPanic_lib
    | intro _
    | dsimp only
    | split

theorem addRequiredOpts_noPanic (settings : Settings) (opts : List ClientOpt) :
    NoPanic (addRequiredOpts settings opts) := by
  unfold addRequiredOpts
  repeat' first
    | exact makeTLSPath_noPanic _
    | apply noPanic_bind
    | apply noPanic_pure
    | apply noPanic_lib
    | intro _
    | dsimp only
    | split

theorem Event.isFrontend_of_isProbeStep {e : Event} (h : e.isProbeStep = true) :
    e.isFrontend = false := by
  cases e <;> simp_all [Event.isProbeStep, Event.isFrontend]

theorem frontendCalls_append (t u : Trace) :
    frontendCalls (t ++ u) = frontendCalls t ++ frontendCalls u := by
  simp [frontendCalls]

theorem frontendCalls_none (es : Trace) (h : ∀ e ∈ es, e.isFrontend = false) :
    frontendCalls es = [] := by
  simp only [frontendCalls, List.filter_eq_nil_iff]
  intro e he
  simp [h e he]

/-- A probe makes no call on the container frontend. -/
theorem checkConnection_frontendCalls (ctx : Ctx) (address : String) (timeout : Duration)
    (opts : List ClientOpt) (env : Env) (t : Trace) :
    frontendCalls (checkConnection ctx address timeout opts env t).2 = frontendCalls t := by
  obtain ⟨es, h1, h2⟩ := checkConnection_trace ctx address timeout opts env t
  rw [h1, frontendCalls_append]
  have : frontendCalls (Event.enter (Call.checkConnection timeout) :: es) = [] := by
    apply frontendCalls_none
    intro e he
    rcases List.mem_cons.mp he with rfl | h
    · rfl
    · exact Event.isFrontend_of_isProbeStep (h2 e h)
  rw [this, List.append_nil]

/-- For a non-local address, the loop of `waitForConnection` does not depend on
the frontend, makes no call on it and does not panic. -/
theorem waitForConnection_loop_remote (ctx ctxTimeout : Ctx) (containerName address : String)
    (opTimeout retryInterval : Duration) (opts : List ClientOpt) (env : Env)
    (hremote : env.IsLocal address = false) (fe : Frontend) (fuel : Nat) :
    ∀ (a : Duration) (t : Trace),
      waitForConnection.loop ctx ctxTimeout containerName address opTimeout retryInterval fe opts
          fuel a env t
        = waitForConnection.loop ctx ctxTimeout containerName address opTimeout retryInterval
          Frontend.nil opts fuel a env t
      ∧ (∀ msg, (waitForConnection.loop ctx ctxTimeout containerName address opTimeout
          retryInterval fe opts fuel a env t).1 ≠ Outcome.panic msg)
      ∧ frontendCalls (waitForConnection.loop ctx ctxTimeout containerName address opTimeout
          retryInterval fe opts fuel a env t).2 = frontendCalls t := by
  induction fuel with
  | zero => intro a t; simp [waitForConnection.loop]
  | succ n ih =>
    intro a t
    have hcheck : ∀ (f : Frontend) (u : Trace),
        waitForConnection.check ctxTimeout containerName address f env u
          = (Outcome.ret (Except.ok true), u) := by
      intro f u
      simp [waitForConnection.check, hremote]
    have htimer : frontendCalls (t ++ [Event.timeAfter retryInterval]) = frontendCalls t := by
      simp [frontendCalls, Event.isFrontend]
    rw [waitForConnection.loop_succ, waitForConnection.loop_succ, hcheck, hcheck]
    split
    · obtain ⟨res, t', hc⟩ :=
        checkConnection_returns ctx address a opts env (t ++ [Event.timeAfter retryInterval])
      have hf := checkConnection_frontendCalls ctx address a opts env
        (t ++ [Event.timeAfter retryInterval])
      rw [hc] at hf ⊢
      cases res <;> exact ⟨rfl, fun msg h => by simp at h, by simpa [htimer] using hf⟩
    · simp only
      obtain ⟨res, t', hc⟩ :=
        checkConnection_returns ctxTimeout address a opts env
          (t ++ [Event.timeAfter retryInterval])
      have hf := checkConnection_frontendCalls ctxTimeout address a opts env
        (t ++ [Event.timeAfter retryInterval])
      rw [hc] at hf ⊢
      cases res with
      | ok r => exact ⟨rfl, fun msg h => by simp at h, by simpa [htimer] using hf⟩
      | error e =>
        simp only at hf ⊢
        obtain ⟨h1, h2, h3⟩ := ih a.double t'
        exact ⟨h1, h2, by rw [h3, hf, htimer]⟩

theorem waitForConnection_remote (fuel : Nat) (ctx : Ctx) (containerName address : String)
    (opTimeout : Duration) (opts : List ClientOpt) (env : Env) (t : Trace)
    (hremote : env.IsLocal address = false) (fe : Frontend) :
    waitForConnection fuel ctx containerName address opTimeout fe opts env t
        = waitForConnection fuel ctx containerName address opTimeout Frontend.nil opts env t
      ∧ (∀ msg, (waitForConnection fuel ctx containerName address opTimeout fe opts env t).1
          ≠ Outcome.panic msg)
      ∧ frontendCalls (waitForConnection fuel ctx containerName address opTimeout fe opts env t).2
          = frontendCalls t := by
  unfold waitForConnection WithTimeout
  simp only [M.run_bind, M.run_emit, M.run_lib, M.run_pure]
  obtain ⟨h1, h2, h3⟩ := waitForConnection_loop_remote ctx (opTimeout :: ctx) containerName
    address opTimeout (if (!env.IsLocal address) = true then 1 * second else 200 * millisecond)
    opts env hremote fe fuel
    (if (!env.IsLocal address) = true then 1 * second else 500 * millisecond)
    (t ++ [Event.enter (Call.waitForConnection opTimeout)] ++ [Event.WithTimeout ctx opTimeout])
  refine ⟨h1, h2, ?_⟩
  rw [h3]
  simp [frontendCalls, Event.isFrontend]

theorem addRequiredOpts_frontendCalls (settings : Settings) (opts : List ClientOpt) (env : Env)
    (t : Trace) : frontendCalls (addRequiredOpts settings opts env t).2 = frontendCalls t := by
  obtain ⟨es, h1, h2⟩ :=
    (addRequiredOpts_emits (P := fun e => e.isFrontend = false) settings opts rfl
      (fun _ => rfl)).out env t
  rw [h1, frontendCalls_append, frontendCalls_none es h2, List.append_nil]

/-- On a local address the nil frontend of `PrintSatelliteInfo` is dereferenced
at the first poll. -/
theorem PrintSatelliteInfo_local_panics :
    (PrintSatelliteInfo 1 [] demoSettings demoEnv []).1
      = Outcome.panic "invalid memory address or nil pointer dereference" := rfl


/-! ## The claims -/

/-- C1: the decision table of `MaybeRestart`.  Let the container be observable
(`GetContainerImageID` returns `containerImageID`), let `imageMatches` say that
this ID equals the available image ID (the empty string when
`GetAvailableImageID` failed), and, when the images match, let `settingsMatch`
be the answer of `settings.VerifyHash` on the stored label.  If
`(imageMatches ∧ settingsMatch) ∨ (¬imageMatches ∧ NoUpdate)` then `MaybeRestart`
is exactly one probe `checkConnection … 5s` whose result it returns, with no
lifecycle action and no mutation of the runtime; otherwise it is the restart
path, whose first events after the observations are the entry into `Stop` and
its `ContainerStop` call. -/
theorem MaybeRestart_decision_table
    (fuel : Nat) (ctx : Ctx) (image containerName : String) (fe : Frontend)
    (settings : Settings) (opts : List ClientOpt) (env : Env) (t0 t1 t2 t3 : Trace)
    (containerImageID hash : String) (avail : Except GoError String)
    (imageMatches settingsMatch : Bool)
    (hcid : GetContainerImageID ctx containerName fe env (t0 ++ [Event.enter Call.MaybeRestart])
      = (Outcome.ret (Except.ok containerImageID), t1))
    (havail : GetAvailableImageID ctx image fe env t1 = (Outcome.ret avail, t2))
    (himg : imageMatches = decide (containerImageID = avail.toOption.getD ""))
    (hhash : imageMatches = true →
      GetSettingsHash ctx containerName fe env t2 = (Outcome.ret (Except.ok hash), t3)
        ∧ env.VerifyHash settings hash = Except.ok settingsMatch)
    (hskip : imageMatches = false → t3 = t2) :
    (((imageMatches && settingsMatch) || (!imageMatches && settings.NoUpdate)) = true →
        MaybeRestart fuel ctx image containerName fe settings opts env t0
          = checkConnection ctx settings.BuildkitAddress (5 * second) opts env t3
        ∧ ∃ es, (MaybeRestart fuel ctx image containerName fe settings opts env t0).2 = t0 ++ es
            ∧ lifecycle es = [] ∧ attempts es = [5 * second]
            ∧ ∀ e ∈ es, e.isMutation = false)
    ∧ (((imageMatches && settingsMatch) || (!imageMatches && settings.NoUpdate)) = false →
        MaybeRestart fuel ctx image containerName fe settings opts env t0
          = MaybeRestart.replace fuel ctx image containerName fe settings opts env t3
        ∧ ∃ es rest, (MaybeRestart fuel ctx image containerName fe settings opts env t0).2
              = t0 ++ es ++ Event.enter (Call.Stop containerName)
                  :: Event.ContainerStop ctx 10 containerName :: rest
            ∧ lifecycle es = [] ∧ attempts es = []
            ∧ ∀ e ∈ es, e.isMutation = false) := by
  -- the frontend is live, since an observation returned
  have hfe : fe = Frontend.live := by
    cases fe
    · simp [GetContainerImageID, feContainerInfo, feCall] at hcid
    · rfl
  subst hfe
  -- the observation phase only appends observations
  have hobsP : ∀ c n, Event.observes (Event.ContainerInfo c n) := fun _ _ => ⟨rfl, rfl, rfl⟩
  have hobsI : ∀ c n, Event.observes (Event.ImageInfo c n) := fun _ _ => ⟨rfl, rfl, rfl⟩
  obtain ⟨es1, rfl, hes1⟩ :=
    trace_of_emits (GetContainerImageID_emits ctx containerName Frontend.live (hobsP _ _)) hcid
  obtain ⟨es2, rfl, hes2⟩ :=
    trace_of_emits (GetAvailableImageID_emits ctx image Frontend.live (hobsI _ _)) havail
  have ht3 : ∃ es3, t3 = t0 ++ [Event.enter Call.MaybeRestart] ++ es1 ++ es2 ++ es3
      ∧ ∀ e ∈ es3, Event.observes e := by
    cases him : imageMatches with
    | false => exact ⟨[], by simp [hskip him], by simp⟩
    | true =>
      exact trace_of_emits (GetSettingsHash_emits ctx containerName Frontend.live (hobsP _ _))
        (hhash him).1
  obtain ⟨es3, ht3, hes3⟩ := ht3
  have hall : ∀ e ∈ Event.enter Call.MaybeRestart :: (es1 ++ es2 ++ es3), Event.observes e := by
    intro e he
    simp only [List.mem_cons, List.mem_append] at he
    rcases he with h | (h | h) | h
    · subst h; exact ⟨rfl, rfl, rfl⟩
    · exact hes1 e h
    · exact hes2 e h
    · exact hes3 e h
  have hlife : lifecycle (Event.enter Call.MaybeRestart :: (es1 ++ es2 ++ es3)) = [] :=
    lifecycle_quiet _ (fun e he => (hall e he).1)
  have hatt : attempts (Event.enter Call.MaybeRestart :: (es1 ++ es2 ++ es3)) = [] :=
    attempts_silent _ (fun e he => (hall e he).2.1)
  have ht3' : t3 = t0 ++ Event.enter Call.MaybeRestart :: (es1 ++ es2 ++ es3) := by
    simp [ht3]
  -- the decision
  have hrun := MaybeRestart_decide fuel ctx image containerName Frontend.live settings opts env
    t0 _ _ t3 containerImageID hash avail imageMatches settingsMatch hcid havail himg hhash hskip
  constructor
  · intro hre
    rw [hrun, if_pos hre]
    refine ⟨rfl, ?_⟩
    obtain ⟨es, h1, h2, h3, h4⟩ :=
      checkConnection_observes ctx settings.BuildkitAddress (5 * second) opts env t3
    refine ⟨Event.enter Call.MaybeRestart :: (es1 ++ es2 ++ es3) ++ es, ?_, ?_, ?_, ?_⟩
    · rw [h1, ht3']; simp
    · rw [lifecycle_append, hlife, h2]; rfl
    · rw [attempts_append, hatt, h3]; rfl
    · intro e he
      rcases List.mem_append.mp he with h | h
      · exact (hall e h).2.2
      · exact h4 e h
  · intro hre
    rw [hrun, if_neg (by simp [hre])]
    refine ⟨rfl, ?_⟩
    obtain ⟨rest, h⟩ :=
      MaybeRestart_replace_begins fuel ctx image containerName settings opts env t3
    refine ⟨Event.enter Call.MaybeRestart :: (es1 ++ es2 ++ es3), rest, ?_, hlife, hatt,
      fun e he => (hall e he).2.2⟩
    rw [h, ht3']
    simp


theorem MaybeRestart_decision_table_witness :
    MaybeRestart 1 [] "img" "bk" Frontend.live demoSettings [] demoEnv []
      = checkConnection [] "docker-container://b" (5 * second) [] demoEnv
          [Event.enter Call.MaybeRestart, Event.ContainerInfo [] "bk",
           Event.ImageInfo [] "img", Event.ContainerInfo [] "bk"] :=
  ((MaybeRestart_decision_table 1 [] "img" "bk" Frontend.live demoSettings [] demoEnv []
      [Event.enter Call.MaybeRestart, Event.ContainerInfo [] "bk"]
      [Event.enter Call.MaybeRestart, Event.ContainerInfo [] "bk", Event.ImageInfo [] "img"]
      [Event.enter Call.MaybeRestart, Event.ContainerInfo [] "bk", Event.ImageInfo [] "img",
       Event.ContainerInfo [] "bk"]
      "img-1" "h1" (Except.ok "img-1") true true rfl rfl rfl (fun _ => ⟨rfl, rfl⟩)
      (fun h => by cases h)).1 rfl).1

/-- C2 (evaluation at the failing input): the container reports an empty image
ID, `GetAvailableImageID` fails and `NoUpdate` is unset; `MaybeRestart` then
compares `""` with `""`, reads the stored hash and, as it verifies, keeps the
running container after one probe: no `Stop` and no `Start` is issued. -/
theorem MaybeRestart_unknown_image_empty_id :
    GetAvailableImageID [] "img" Frontend.live emptyIdEnv
        [Event.enter Call.MaybeRestart, Event.ContainerInfo [] "bk"]
      = (Outcome.ret (Except.error
          (GoError.wrap (GoError.ext demoError) "get output for available image ID")),
         [Event.enter Call.MaybeRestart, Event.ContainerInfo [] "bk", Event.ImageInfo [] "img"])
    ∧ demoSettings.NoUpdate = false
    ∧ MaybeRestart 1 [] "img" "bk" Frontend.live demoSettings [] emptyIdEnv []
      = (Outcome.ret (Except.ok (demoInfo, demoWorker)),
         [Event.enter Call.MaybeRestart, Event.ContainerInfo [] "bk", Event.ImageInfo [] "img",
          Event.ContainerInfo [] "bk", Event.enter (Call.checkConnection (5 * second)),
          Event.WithTimeout [] (5 * second),
          Event.clientNew [5 * second] "docker-container://b" [],
          Event.ListWorkers [5 * second], Event.clientInfo [5 * second], Event.clientClose]) :=
  ⟨rfl, rfl, rfl⟩

/-- C3: a run of `MaybeStart` that finds the container running, with a stored
settings hash that does not verify (read when the images match) and `NoUpdate`
unset, and in which `Stop`, `WaitUntilStopped`, `Start` and `WaitUntilStarted`
all succeed, returns the result of `WaitUntilStarted`; its lifecycle actions
are exactly `Stop`, `WaitUntilStopped settings.Timeout`, `Start` with
`reset = false`, `WaitUntilStarted settings.Timeout`, in this order; on the
frontend it issues exactly one `ContainerStop`, for the container, and exactly
one `ContainerRun`, for the container and the image, without
`EARTHLY_RESET_TMP_DIR`. -/
theorem MaybeStart_restart_sequence
    (fuel : Nat) (ctx : Ctx) (image containerName : String) (fe : Frontend)
    (settings : Settings) (opts : List ClientOpt) (env : Env)
    (t0 t1 t2 t3 t4 t5 t6 t7 t8 : Trace)
    (containerImageID hash : String) (avail : Except GoError String) (r : Info × WorkerInfo)
    (hlock : startLockAcquired env t0 ctx settings.StartUpLockPath)
    (hrunning : IsStarted ctx containerName fe env
        (t0 ++ startLockEvents ctx settings.StartUpLockPath) = (Outcome.ret (Except.ok true), t1))
    (hcid : GetContainerImageID ctx containerName fe env (t1 ++ [Event.enter Call.MaybeRestart])
      = (Outcome.ret (Except.ok containerImageID), t2))
    (havail : GetAvailableImageID ctx image fe env t2 = (Outcome.ret avail, t3))
    (hhash : containerImageID = avail.toOption.getD "" →
      GetSettingsHash ctx containerName fe env t3 = (Outcome.ret (Except.ok hash), t4)
        ∧ env.VerifyHash settings hash = Except.ok false)
    (hskip : containerImageID ≠ avail.toOption.getD "" → t4 = t3)
    (hupdate : settings.NoUpdate = false)
    (hstop : Stop ctx containerName fe env t4 = (Outcome.ret none, t5))
    (hws : WaitUntilStopped fuel ctx containerName settings.Timeout fe env t5
      = (Outcome.ret none, t6))
    (hstart : Start ctx image containerName fe settings false env t6 = (Outcome.ret none, t7))
    (hwst : WaitUntilStarted fuel ctx containerName settings.VolumeName settings.BuildkitAddress
      settings.Timeout fe opts env t7 = (Outcome.ret (Except.ok r), t8)) :
    MaybeStart fuel ctx image containerName fe settings opts env t0
        = (Outcome.ret (Except.ok r), t8 ++ startUnlockEvents settings.StartUpLockPath)
      ∧ ∃ es, t8 ++ startUnlockEvents settings.StartUpLockPath = t0 ++ es
        ∧ lifecycle es = [Call.Stop containerName, Call.WaitUntilStopped settings.Timeout,
            Call.Start false, Call.WaitUntilStarted settings.Timeout]
        ∧ containerStops es = [containerName]
        ∧ ∃ spec, containerRuns es = [spec]
          ∧ spec.NameOrID = containerName ∧ spec.ImageRef = image
          ∧ GoMap.get? spec.Envs "EARTHLY_RESET_TMP_DIR" = none := by
  have hdec := MaybeRestart_decide fuel ctx image containerName fe settings opts env
    t1 t2 t3 t4 containerImageID hash avail (decide (containerImageID = avail.toOption.getD ""))
    false hcid havail rfl (fun h => hhash (of_decide_eq_true h))
    (fun h => hskip (of_decide_eq_false h))
  obtain ⟨hrep, es, hes, hlife⟩ := MaybeRestart_replace_steps hstop hws hstart hwst
  have hmr : MaybeRestart fuel ctx image containerName fe settings opts env t1
      = (Outcome.ret (Except.ok r), t8) := by
    rw [hdec, if_neg (by simp [hupdate]), hrep]
  have hbody : MaybeStart.body fuel ctx image containerName fe settings opts env
      (t0 ++ startLockEvents ctx settings.StartUpLockPath) = (Outcome.ret (Except.ok r), t8) := by
    unfold MaybeStart.body
    simp only [M.run_bind, hrunning, if_true, hmr, M.run_pure]
  refine ⟨MaybeStart_of_body hlock hbody, ?_⟩
  obtain ⟨es0, ht1, hes0⟩ := trace_of_emits
    (IsStarted_emits (P := Event.observes) ctx containerName fe ⟨rfl, rfl, rfl⟩) hrunning
  obtain ⟨es1, ht4, hes1⟩ := MaybeRestart_observations hcid havail
    (by
      by_cases h : containerImageID = avail.toOption.getD ""
      · exact Or.inl (hhash h).1
      · exact Or.inr (hskip h))
  -- stops and runs along the run
  have s0 := startLockEvents_steady ctx settings.StartUpLockPath t0
  have s1 := steady_of_observes ht1 hes0
  have s4 := steady_of_observes ht4 hes1
  have s5 := Stop_steady hstop
  have s6 := WaitUntilStopped_steady hws
  have s7 := Start_steady hstart
  obtain ⟨spec, _, r7, _, hn, hi, _, hreset⟩ := Start_runs_once hstart
  have s8 := WaitUntilStarted_steady hwst
  have s9 := startUnlockEvents_steady settings.StartUpLockPath t8
  have htot : t8 ++ startUnlockEvents settings.StartUpLockPath
      = t0 ++ (startLockEvents ctx settings.StartUpLockPath ++ es0 ++ es1 ++ es
        ++ startUnlockEvents settings.StartUpLockPath) := by
    rw [hes, ht4, ht1]
    simp
  obtain ⟨g1, g2⟩ := gained_of_append [containerName] [spec] htot
    (by rw [s9.1, s8.1, s7, s6.1, s5.1, s4.1, s1.1, s0.1])
    (by rw [s9.2, s8.2, r7, s6.2, s5.2, s4.2, s1.2, s0.2])
  refine ⟨_, htot, ?_, g1, spec, g2, hn, hi, by simpa using hreset⟩
  simp only [lifecycle_append, lifecycle_startLockEvents, lifecycle_startUnlockEvents,
    lifecycle_observes es0 hes0, lifecycle_observes es1 hes1, hlife, List.nil_append,
    List.append_nil]

theorem MaybeStart_restart_sequence_witness :
    (MaybeStart 1 [] "img" "bk" Frontend.live demoSettings [] staleEnv []).1
        = Outcome.ret (Except.ok (demoInfo, demoWorker))
      ∧ lifecycle (MaybeStart 1 [] "img" "bk" Frontend.live demoSettings [] staleEnv []).2
        = [Call.Stop "bk", Call.WaitUntilStopped (60 * second), Call.Start false,
           Call.WaitUntilStarted (60 * second)] := by
  obtain ⟨h1, es, h2, h3, _⟩ :=
    MaybeStart_restart_sequence 1 [] "img" "bk" Frontend.live demoSettings [] staleEnv
      [] _ _ _ _ _ _ _ _ "img-1" "h0" (Except.ok "img-1") (demoInfo, demoWorker)
      (Or.inl rfl) rfl rfl rfl (fun _ => ⟨rfl, rfl⟩) (fun h => absurd rfl h) rfl rfl rfl rfl rfl
  rw [h1]
  exact ⟨rfl, by rw [h2]; exact h3⟩

/-- C4: when `IsStarted` reports no instance, `MaybeStart` goes to `Start` with
`reset = false`: `MaybeRestart` is never entered, `Stop` is never issued and no
container is stopped.  If `Start` fails, its error is returned (wrapped) and
`Start` is the only lifecycle action; if it succeeds, the lifecycle actions
are exactly `Start false` then `WaitUntilStarted settings.Timeout`, exactly one
`ContainerRun` is issued (for the container and the image, without
`EARTHLY_RESET_TMP_DIR`), and the result of `WaitUntilStarted` is returned
(its error wrapped). -/
theorem MaybeStart_fresh_start
    (fuel : Nat) (ctx : Ctx) (image containerName : String) (fe : Frontend)
    (settings : Settings) (opts : List ClientOpt) (env : Env) (t0 t1 : Trace)
    (hlock : startLockAcquired env t0 ctx settings.StartUpLockPath)
    (habsent : IsStarted ctx containerName fe env
        (t0 ++ startLockEvents ctx settings.StartUpLockPath)
      = (Outcome.ret (Except.ok false), t1)) :
    (∀ err t2, Start ctx image containerName fe settings false env t1
          = (Outcome.ret (some err), t2) →
        MaybeStart fuel ctx image containerName fe settings opts env t0
            = (Outcome.ret (Except.error (GoError.wrap err "start")),
                t2 ++ startUnlockEvents settings.StartUpLockPath)
          ∧ ∃ es, t2 ++ startUnlockEvents settings.StartUpLockPath = t0 ++ es
            ∧ lifecycle es = [Call.Start false]
            ∧ Event.enter Call.MaybeRestart ∉ es
            ∧ containerStops es = [])
    ∧ (∀ t2 x t3, Start ctx image containerName fe settings false env t1
          = (Outcome.ret none, t2) →
        WaitUntilStarted fuel ctx containerName settings.VolumeName settings.BuildkitAddress
          settings.Timeout fe opts env t2 = (Outcome.ret x, t3) →
        MaybeStart fuel ctx image containerName fe settings opts env t0
            = (Outcome.ret (x.mapError (fun err => GoError.wrap err "wait until started")),
                t3 ++ startUnlockEvents settings.StartUpLockPath)
          ∧ ∃ es, t3 ++ startUnlockEvents settings.StartUpLockPath = t0 ++ es
            ∧ lifecycle es = [Call.Start false, Call.WaitUntilStarted settings.Timeout]
            ∧ Event.enter Call.MaybeRestart ∉ es
            ∧ containerStops es = []
            ∧ ∃ spec, containerRuns es = [spec]
              ∧ spec.NameOrID = containerName ∧ spec.ImageRef = image
              ∧ GoMap.get? spec.Envs "EARTHLY_RESET_TMP_DIR" = none) := by
  obtain ⟨es0, ht1, hes0⟩ := trace_of_emits
    (IsStarted_emits (P := fun e => e.still = true) ctx containerName fe rfl) habsent
  have hpre : ∀ e ∈ startLockEvents ctx settings.StartUpLockPath ++ es0, e.still = true := by
    intro e he
    rcases List.mem_append.mp he with h | h
    · exact startLockEvents_still _ _ e h
    · exact hes0 e h
  have s0 := startLockEvents_steady ctx settings.StartUpLockPath t0
  have s1 := steady_of_quiet ht1 (fun e he => Event.quiet_of_still (hes0 e he))
  constructor
  · intro err t2 hstart
    have hbody : MaybeStart.body fuel ctx image containerName fe settings opts env
        (t0 ++ startLockEvents ctx settings.StartUpLockPath)
        = (Outcome.ret (Except.error (GoError.wrap err "start")), t2) := by
      unfold MaybeStart.body
      simp only [M.run_bind, habsent, hstart, M.run_pure, Bool.false_eq_true, if_false]
    refine ⟨MaybeStart_of_body hlock hbody, ?_⟩
    obtain ⟨es1, ht2, h1, _, hn1, _, _⟩ := Start_step hstart
    have s2 := Start_steady hstart
    have s9 := startUnlockEvents_steady settings.StartUpLockPath t2
    have htot : t2 ++ startUnlockEvents settings.StartUpLockPath
        = t0 ++ (startLockEvents ctx settings.StartUpLockPath ++ es0 ++ es1
          ++ startUnlockEvents settings.StartUpLockPath) := by
      rw [ht2, ht1]
      simp
    refine ⟨_, htot, ?_, ?_, stops_of_append htot (by rw [s9.1, s2, s1.1, s0.1])⟩
    · simp only [lifecycle_append, lifecycle_still _ hpre, h1,
        lifecycle_still _ (startUnlockEvents_still _), List.nil_append, List.append_nil]
    · intro hmem
      simp only [List.mem_append] at hmem
      rcases hmem with ((h | h) | h) | h
      · exact enter_not_mem_of_still (startLockEvents_still _ _) _ h
      · exact enter_not_mem_of_still hes0 _ h
      · exact hn1 h
      · exact enter_not_mem_of_still (startUnlockEvents_still _) _ h
  · intro t2 x t3 hstart hwst
    have hbody : MaybeStart.body fuel ctx image containerName fe settings opts env
        (t0 ++ startLockEvents ctx settings.StartUpLockPath)
        = (Outcome.ret (x.mapError (fun err => GoError.wrap err "wait until started")), t3) := by
      unfold MaybeStart.body
      simp only [M.run_bind, habsent, hstart, hwst, M.run_pure, Bool.false_eq_true, if_false]
      cases x <;> rfl
    refine ⟨MaybeStart_of_body hlock hbody, ?_⟩
    obtain ⟨es1, ht2, h1, _, hn1, _, _⟩ := Start_step hstart
    obtain ⟨es2, ht3, h2, hn2, _, _⟩ := WaitUntilStarted_step hwst
    have s2 := Start_steady hstart
    obtain ⟨spec, _, r2, _, hn, hi, _, hreset⟩ := Start_runs_once hstart
    have s3 := WaitUntilStarted_steady hwst
    have s9 := startUnlockEvents_steady settings.StartUpLockPath t3
    have htot : t3 ++ startUnlockEvents settings.StartUpLockPath
        = t0 ++ (startLockEvents ctx settings.StartUpLockPath ++ es0 ++ es1 ++ es2
          ++ startUnlockEvents settings.StartUpLockPath) := by
      rw [ht3, ht2, ht1]
      simp
    obtain ⟨g1, g2⟩ := gained_of_append [] [spec] htot
      (by rw [s9.1, s3.1, s2, s1.1, s0.1, List.append_nil])
      (by rw [s9.2, s3.2, r2, s1.2, s0.2])
    refine ⟨_, htot, ?_, ?_, g1, spec, g2, hn, hi, by simpa using hreset⟩
    · simp only [lifecycle_append, lifecycle_still _ hpre, h1, h2,
        lifecycle_still _ (startUnlockEvents_still _), List.nil_append, List.append_nil]
      rfl
    · intro hmem
      simp only [List.mem_append] at hmem
      rcases hmem with (((h | h) | h) | h) | h
      · exact enter_not_mem_of_still (startLockEvents_still _ _) _ h
      · exact enter_not_mem_of_still hes0 _ h
      · exact hn1 h
      · exact hn2 h
      · exact enter_not_mem_of_still (startUnlockEvents_still _) _ h

theorem MaybeStart_fresh_start_witness :
    (MaybeStart 1 [] "img" "bk" Frontend.live demoSettings [] absentEnv []).1
        = Outcome.ret (Except.ok (demoInfo, demoWorker))
      ∧ lifecycle (MaybeStart 1 [] "img" "bk" Frontend.live demoSettings [] absentEnv []).2
        = [Call.Start false, Call.WaitUntilStarted (60 * second)] := by
  obtain ⟨h1, es, h2, h3, _⟩ :=
    (MaybeStart_fresh_start 1 [] "img" "bk" Frontend.live demoSettings [] absentEnv [] _
      (Or.inl rfl) rfl).2 _ (Except.ok (demoInfo, demoWorker)) _ rfl rfl
  rw [h1]
  exact ⟨rfl, by rw [h2]; exact h3⟩

/-- C5: for a non-local `BuildkitAddress`, `ResetCache` returns the error
"cannot reset cache of a provided buildkit-host setting" and appends nothing
to the history: it makes no call on the container frontend (nor any other
call), whatever the frontend would answer. -/
theorem ResetCache_remote_rejected
    (fuel : Nat) (ctx : Ctx) (image containerName : String) (fe : Frontend)
    (settings : Settings) (opts : List ClientOpt) (env : Env) (t : Trace)
    (hremote : env.IsLocal settings.BuildkitAddress = false) :
    ResetCache fuel ctx image containerName fe settings opts env t
        = (Outcome.ret
            (some (GoError.new "cannot reset cache of a provided buildkit-host setting")), t)
      ∧ frontendCalls (ResetCache fuel ctx image containerName fe settings opts env t).2
        = frontendCalls t := by
  have h : ResetCache fuel ctx image containerName fe settings opts env t
      = (Outcome.ret
          (some (GoError.new "cannot reset cache of a provided buildkit-host setting")), t) := by
    unfold ResetCache
    simp only [M.run_bind, M.run_lib, hremote, Bool.not_false, if_true, M.run_pure]
  exact ⟨h, by rw [h]⟩

theorem ResetCache_remote_rejected_witness :
    ResetCache 1 [] "img" "bk" Frontend.live remoteSettings [] demoEnv []
      = (Outcome.ret
          (some (GoError.new "cannot reset cache of a provided buildkit-host setting")), []) :=
  (ResetCache_remote_rejected 1 [] "img" "bk" Frontend.live remoteSettings [] demoEnv [] rfl).1

/-- C6: a `ResetCache` run on a local address whose steps all succeed, for a
timeout `T` with `2 * T` in the `int64` range: `Stop` and `WaitUntilStopped`
bounded by `2 * T` are issued exactly when the container was running (and then
the container is stopped exactly once), then `Start` with `reset = true`, then
`WaitUntilStarted` bounded by `2 * T`; exactly one `ContainerRun` is issued and
its environment has `EARTHLY_RESET_TMP_DIR = "true"`.  No `ContainerRun` issued
by `Start` with `reset = false` has that variable. -/
theorem ResetCache_sequence
    (fuel : Nat) (ctx : Ctx) (image containerName : String) (fe : Frontend)
    (settings : Settings) (opts opts' : List ClientOpt) (env : Env)
    (t0 t1 t2 t3 t4 t5 t6 : Trace) (wasRunning : Bool) (r : Info × WorkerInfo)
    (hlocal : env.IsLocal settings.BuildkitAddress = true)
    (hT : -2 ^ 63 ≤ 2 * settings.Timeout ∧ 2 * settings.Timeout < 2 ^ 63)
    (hopts : addRequiredOpts settings opts env t0 = (Outcome.ret (Except.ok opts'), t1))
    (his : IsStarted ctx containerName fe env t1 = (Outcome.ret (Except.ok wasRunning), t2))
    (hstop : wasRunning = true →
      Stop ctx containerName fe env t2 = (Outcome.ret none, t3)
        ∧ WaitUntilStopped fuel ctx containerName (2 * settings.Timeout) fe env t3
          = (Outcome.ret none, t4))
    (hskip : wasRunning = false → t4 = t2)
    (hstart : Start ctx image containerName fe { settings with Timeout := 2 * settings.Timeout }
      true env t4 = (Outcome.ret none, t5))
    (hwst : WaitUntilStarted fuel ctx containerName settings.VolumeName settings.BuildkitAddress
      (2 * settings.Timeout) fe opts' env t5 = (Outcome.ret (Except.ok r), t6)) :
    (ResetCache fuel ctx image containerName fe settings opts env t0 = (Outcome.ret none, t6)
      ∧ ∃ es, t6 = t0 ++ es
        ∧ lifecycle es
          = (if wasRunning then
              [Call.Stop containerName, Call.WaitUntilStopped (2 * settings.Timeout)]
             else [])
            ++ [Call.Start true, Call.WaitUntilStarted (2 * settings.Timeout)]
        ∧ containerStops es = (if wasRunning then [containerName] else [])
        ∧ ∃ spec, containerRuns es = [spec]
          ∧ spec.NameOrID = containerName ∧ spec.ImageRef = image
          ∧ GoMap.get? spec.Envs "EARTHLY_RESET_TMP_DIR" = some "true")
    ∧ ∀ (c : Ctx) (i n : String) (f : Frontend) (s : Settings) (e : Env) (t : Trace),
        ∃ es, (Start c i n f s false e t).2 = t ++ es
          ∧ ∀ spec ∈ containerRuns es, GoMap.get? spec.Envs "EARTHLY_RESET_TMP_DIR" = none := by
  have hdouble : settings.Timeout.double = 2 * settings.Timeout :=
    Duration.double_of_range hT.1 hT.2
  refine ⟨⟨?_, ?_⟩, ?_⟩
  · unfold ResetCache
    simp only [M.run_bind, M.run_lib, hlocal, Bool.not_true, Bool.false_eq_true, if_false, hopts,
      hdouble, his]
    cases wasRunning with
    | true =>
      obtain ⟨h1, h2⟩ := hstop rfl
      simp only [if_true, M.run_bind, h1, h2, M.run_pure, hstart, hwst]
    | false =>
      have := hskip rfl
      subst this
      simp only [Bool.false_eq_true, if_false, M.run_bind, M.run_pure, hstart, hwst]
  · obtain ⟨es0, ht1, hes0⟩ := trace_of_emits
      (addRequiredOpts_emits (P := fun e => e.still = true) settings opts rfl (fun _ => rfl)) hopts
    obtain ⟨es1, ht2, hes1⟩ := trace_of_emits
      (IsStarted_emits (P := fun e => e.still = true) ctx containerName fe rfl) his
    have s1 := steady_of_quiet ht1 (fun e he => Event.quiet_of_still (hes0 e he))
    have s2 := steady_of_quiet ht2 (fun e he => Event.quiet_of_still (hes1 e he))
    have hstopped : ∃ es2, t4 = t2 ++ es2
        ∧ lifecycle es2 = (if wasRunning then
            [Call.Stop containerName, Call.WaitUntilStopped (2 * settings.Timeout)] else [])
        ∧ containerStops t4
            = containerStops t2 ++ (if wasRunning then [containerName] else [])
        ∧ containerRuns t4 = containerRuns t2 := by
      cases wasRunning with
      | true =>
        obtain ⟨h1, h2⟩ := hstop rfl
        have a1 := Stop_steady h1
        have a2 := WaitUntilStopped_steady h2
        obtain ⟨_, rfl⟩ := Stop_step h1
        obtain ⟨es, rfl, hl, _, _⟩ := WaitUntilStopped_step h2
        refine ⟨[Event.enter (Call.Stop containerName), Event.ContainerStop ctx 10 containerName]
          ++ es, by simp, ?_, ?_, ?_⟩
        · rw [lifecycle_append, hl]; rfl
        · rw [a2.1, a1.1]; rfl
        · rw [a2.2, a1.2]
      | false => exact ⟨[], by simp [hskip rfl], rfl, by simp [hskip rfl], by rw [hskip rfl]⟩
    obtain ⟨es2, ht4, hl2, s4s, s4r⟩ := hstopped
    obtain ⟨es3, ht5, hl3, _⟩ := Start_step hstart
    obtain ⟨es4, ht6, hl4, _⟩ := WaitUntilStarted_step hwst
    have s5 := Start_steady hstart
    obtain ⟨spec, _, r5, _, hn, hi, _, hreset⟩ := Start_runs_once hstart
    have s6 := WaitUntilStarted_steady hwst
    have htot : t6 = t0 ++ (es0 ++ es1 ++ es2 ++ es3 ++ es4) := by
      rw [ht6, ht5, ht4, ht2, ht1]
      simp
    obtain ⟨g1, g2⟩ := gained_of_append
      (if wasRunning then [containerName] else []) [spec] htot
      (by rw [s6.1, s5, s4s, s2.1, s1.1])
      (by rw [s6.2, r5, s4r, s2.2, s1.2])
    refine ⟨_, htot, ?_, g1, spec, g2, hn, hi, by simpa using hreset⟩
    simp only [lifecycle_append, lifecycle_still _ hes0, lifecycle_still _ hes1, hl2, hl3, hl4,
      List.nil_append, List.append_assoc]
    rfl
  · intro c i n f s e t
    rcases hr : Start c i n f s false e t with ⟨o, t'⟩
    obtain ⟨es, rfl, _, _, _, h, _⟩ := Start_step hr
    exact ⟨es, rfl, fun spec hspec => by simpa using h spec hspec⟩

theorem ResetCache_sequence_witness :
    (ResetCache 1 [] "img" "bk" Frontend.live demoSettings [] staleEnv []).1 = Outcome.ret none
      ∧ lifecycle (ResetCache 1 [] "img" "bk" Frontend.live demoSettings [] staleEnv []).2
        = [Call.Stop "bk", Call.WaitUntilStopped (120 * second), Call.Start true,
           Call.WaitUntilStarted (120 * second)]
      ∧ (containerRuns (ResetCache 1 [] "img" "bk" Frontend.live demoSettings [] staleEnv []).2).map
          (fun spec => GoMap.get? spec.Envs "EARTHLY_RESET_TMP_DIR") = [some "true"] := by
  obtain ⟨⟨h1, es, h2, h3, _⟩, _⟩ :=
    ResetCache_sequence 1 [] "img" "bk" Frontend.live demoSettings [] [] staleEnv
      [] _ _ _ _ _ _ true (demoInfo, demoWorker) rfl (by decide) rfl rfl (fun _ => ⟨rfl, rfl⟩)
      (fun h => by cases h) rfl rfl
  rw [h1]
  exact ⟨rfl, by rw [h2]; exact h3, rfl⟩

/-- C7: a probe never succeeds without a worker.  If `checkConnection` returns
without error, `ListWorkers` answered with a non-empty list and the worker
returned is its first element; if `ListWorkers` answers with the empty list,
the probe fails with the error "no workers"; and a successful
`waitForConnection` or `WaitUntilStarted` returns the first element of a
non-empty list that some `ListWorkers` call of the run was answered with. -/
theorem probe_success_has_worker :
    (∀ (ctx : Ctx) (address : String) (timeout : Duration) (opts : List ClientOpt) (env : Env)
        (t t' : Trace) (info : Info) (w : WorkerInfo),
        checkConnection ctx address timeout opts env t
          = (Outcome.ret (Except.ok (info, w)), t') →
        ∃ ws, env.bkListWorkers
            (t ++ [Event.enter (Call.checkConnection timeout)] ++ [Event.WithTimeout ctx timeout]
              ++ [Event.clientNew (timeout :: ctx) address opts]) (timeout :: ctx)
          = some (Except.ok (w :: ws)))
    ∧ (∀ (ctx : Ctx) (address : String) (timeout : Duration) (opts : List ClientOpt) (env : Env)
        (t : Trace),
        env.bkNew
            (t ++ [Event.enter (Call.checkConnection timeout)] ++ [Event.WithTimeout ctx timeout])
            (timeout :: ctx) address opts = some (Except.ok ()) →
        env.bkListWorkers
            (t ++ [Event.enter (Call.checkConnection timeout)] ++ [Event.WithTimeout ctx timeout]
              ++ [Event.clientNew (timeout :: ctx) address opts]) (timeout :: ctx)
          = some (Except.ok []) →
        (checkConnection ctx address timeout opts env t).1
          = Outcome.ret (Except.error (GoError.new "no workers")))
    ∧ (∀ (fuel : Nat) (ctx : Ctx) (containerName address : String) (opTimeout : Duration)
        (fe : Frontend) (opts : List ClientOpt) (env : Env) (t t' : Trace) (info : Info)
        (w : WorkerInfo),
        waitForConnection fuel ctx containerName address opTimeout fe opts env t
          = (Outcome.ret (Except.ok (info, w)), t') →
        WorkerListed env t' w)
    ∧ (∀ (fuel : Nat) (ctx : Ctx) (containerName volumeName address : String)
        (opTimeout : Duration) (fe : Frontend) (opts : List ClientOpt) (env : Env)
        (t t' : Trace) (info : Info) (w : WorkerInfo),
        WaitUntilStarted fuel ctx containerName volumeName address opTimeout fe opts env t
          = (Outcome.ret (Except.ok (info, w)), t') →
        WorkerListed env t' w) :=
  ⟨fun _ _ _ _ _ _ _ _ _ h => (checkConnection_ok h).imp (fun _ hw => hw.1),
   fun _ _ _ _ _ _ hN hL => checkConnection_no_workers hN hL,
   fun _ _ _ _ _ _ _ _ _ _ _ _ h => waitForConnection_listed h,
   fun _ _ _ _ _ _ _ _ _ _ _ _ _ h => WaitUntilStarted_listed h⟩

theorem probe_success_has_worker_witness :
    ∃ ws, demoEnv.bkListWorkers
        ([] ++ [Event.enter (Call.checkConnection (5 * second))]
          ++ [Event.WithTimeout [] (5 * second)]
          ++ [Event.clientNew [5 * second] "docker-container://b" []]) [5 * second]
      = some (Except.ok (demoWorker :: ws)) :=
  probe_success_has_worker.1 [] "docker-container://b" (5 * second) [] demoEnv [] _ demoInfo
    demoWorker rfl

/-- C8 (as stated, refuted): on a local address, when the `ContainerInfo`
answer has no entry for the container, the waiter returns the error
"status for container bk was not found", which is not `ErrBuildkitCrashed`. -/
theorem waitForConnection_missing_entry_not_crashed :
    goneEnv.IsLocal "docker-container://b" = true
    ∧ goneEnv.feContainerInfo
        [Event.enter (Call.waitForConnection (60 * second)), Event.WithTimeout [] (60 * second),
         Event.timeAfter (200 * millisecond)] [60 * second] "bk" = Except.ok []
    ∧ (waitForConnection 1 [] "bk" "docker-container://b" (60 * second) Frontend.live [] goneEnv
        []).1 = Outcome.ret (Except.error (GoError.new "status for container bk was not found"))
    ∧ (GoError.new "status for container bk was not found").is GoError.errBuildkitCrashed
        = false :=
  ⟨rfl, rfl, rfl, rfl⟩

/-- C8 (amended): on a local address, at a poll at which the frontend answers
`ContainerInfo`: if the container has an entry whose status is not running, the
waiter returns `ErrBuildkitCrashed` at that poll; if there is no entry for it,
the waiter returns at that poll the error "status for container … was not
found".  In both cases the poll consists of the timer and the `ContainerInfo`
call only: no probe is made and the loop does not go on to the deadline. -/
theorem waitForConnection_poll_not_running
    (ctx ctxTimeout : Ctx) (containerName address : String) (opTimeout retryInterval : Duration)
    (opts : List ClientOpt) (n : Nat) (a : Duration) (env : Env) (t : Trace)
    (infos : GoMap ContainerInfo)
    (hlocal : env.IsLocal address = true)
    (hpoll : env.selectDone t ctxTimeout retryInterval = false)
    (hinfo : env.feContainerInfo (t ++ [Event.timeAfter retryInterval]) ctxTimeout containerName
      = Except.ok infos) :
    (∀ ci, GoMap.get? infos containerName = some ci → ci.Status ≠ Status.running →
        waitForConnection.loop ctx ctxTimeout containerName address opTimeout retryInterval
            Frontend.live opts (n + 1) a env t
          = (Outcome.ret (Except.error GoError.errBuildkitCrashed),
              t ++ [Event.timeAfter retryInterval, Event.ContainerInfo ctxTimeout containerName]))
    ∧ (GoMap.get? infos containerName = none →
        waitForConnection.loop ctx ctxTimeout containerName address opTimeout retryInterval
            Frontend.live opts (n + 1) a env t
          = (Outcome.ret (Except.error
                (GoError.new ("status for container " ++ containerName ++ " was not found"))),
              t ++ [Event.timeAfter retryInterval,
                    Event.ContainerInfo ctxTimeout containerName])) := by
  constructor
  · intro ci hci hst
    rw [waitForConnection.loop_succ, if_neg (by simp [hpoll])]
    have hb : (ci.Status == Status.running) = false := by simpa using hst
    simp [waitForConnection.check, hlocal, isContainerRunning, feContainerInfo, feCall, hinfo,
      hci, hb]
  · intro hnone
    rw [waitForConnection.loop_succ, if_neg (by simp [hpoll])]
    simp [waitForConnection.check, hlocal, isContainerRunning, feContainerInfo, feCall, hinfo,
      hnone]

theorem waitForConnection_poll_not_running_witness :
    waitForConnection.loop [] [60 * second] "bk" "docker-container://b" (60 * second)
        (200 * millisecond) Frontend.live [] 1 (500 * millisecond) exitedEnv []
      = (Outcome.ret (Except.error GoError.errBuildkitCrashed),
         [] ++ [Event.timeAfter (200 * millisecond), Event.ContainerInfo [60 * second] "bk"]) :=
  (waitForConnection_poll_not_running [] [60 * second] "bk" "docker-container://b" (60 * second)
    (200 * millisecond) [] 0 (500 * millisecond) exitedEnv [] _ rfl rfl rfl).1 _ rfl (by decide)

set_option maxRecDepth 1000000 in
/-- C9 (evaluation at the failing input): a local daemon refuses 36 probes in a
row; the attempt timeout doubles from 500ms up to 8589934592s at the 35th
probe, and the next doubling wraps around in `int64`: the 36th probe gets the
negative timeout -1266874889709551616ns, smaller than the one before. -/
theorem waitForConnection_attempt_timeout_wraps :
    (attempts (waitForConnection 36 [] "bk" "docker-container://b" (60 * second) Frontend.live []
        refusingEnv []).2).length = 36
    ∧ (attempts (waitForConnection 36 [] "bk" "docker-container://b" (60 * second) Frontend.live
        [] refusingEnv []).2).drop 34 = [8589934592000000000, -1266874889709551616]
    ∧ Duration.double 8589934592000000000 = -1266874889709551616 := by
  refine ⟨?_, ?_, ?_⟩
  · rfl
  · rfl
  · decide

/-- C10 (as stated, refuted): the deadline has expired and the final probe
fails with the collaborator error `demoError`; the error returned by
`waitForConnection` has `ErrBuildkitConnectionFailure` as its cause, not the
error of the final attempt, which `errors.Is` does not find in it. -/
theorem waitForConnection_final_error_not_cause :
    checkConnection [] "docker-container://b" (500 * millisecond) [] expiredEnv
        [Event.enter (Call.waitForConnection (60 * second)), Event.WithTimeout [] (60 * second),
         Event.timeAfter (200 * millisecond)]
      = (Outcome.ret (Except.error (GoError.ext demoError)),
         [Event.enter (Call.waitForConnection (60 * second)), Event.WithTimeout [] (60 * second),
          Event.timeAfter (200 * millisecond),
          Event.enter (Call.checkConnection (500 * millisecond)),
          Event.WithTimeout [] (500 * millisecond),
          Event.clientNew [500 * millisecond] "docker-container://b" []])
    ∧ ∃ e, (waitForConnection 1 [] "bk" "docker-container://b" (60 * second) Frontend.live []
          expiredEnv []).1 = Outcome.ret (Except.error e)
        ∧ e.cause = GoError.errBuildkitConnectionFailure
        ∧ e.cause ≠ GoError.ext demoError
        ∧ e.is (GoError.ext demoError) = false :=
  ⟨rfl, GoError.wrap GoError.errBuildkitConnectionFailure
      "timeout 60000000000ns: could not connect to buildkit: boom",
    rfl, rfl, by decide, rfl⟩

/-- C10 (amended): in an iteration whose `select` takes the `ctxTimeout.Done()`
case, exactly one further probe is made, on the caller's context and with the
current attempt timeout; its result is returned when it succeeds, and when it
fails with `err` the error returned wraps `ErrBuildkitConnectionFailure`
(`errors.Is` holds and it is the cause) with a message that quotes the text of
`err`.  No other path of the loop returns an error that is
`ErrBuildkitConnectionFailure`. -/
theorem waitForConnection_deadline
    (ctx ctxTimeout : Ctx) (containerName address : String) (opTimeout retryInterval : Duration)
    (fe : Frontend) (opts : List ClientOpt) (n : Nat) (a : Duration) (env : Env) (t : Trace)
    (hdone : env.selectDone t ctxTimeout retryInterval = true) :
    (∃ res t', checkConnection ctx address a opts env (t ++ [Event.timeAfter retryInterval])
          = (Outcome.ret res, t')
        ∧ attempts t' = attempts t ++ [a]
        ∧ waitForConnection.loop ctx ctxTimeout containerName address opTimeout retryInterval
              fe opts (n + 1) a env t
            = (Outcome.ret (res.mapError (fun err =>
                GoError.wrap GoError.errBuildkitConnectionFailure
                  ("timeout " ++ env.durationString opTimeout
                    ++ ": could not connect to buildkit: " ++ err.Error))), t'))
    ∧ (∀ (msg : String),
        (GoError.wrap GoError.errBuildkitConnectionFailure msg).is
            GoError.errBuildkitConnectionFailure = true
          ∧ (GoError.wrap GoError.errBuildkitConnectionFailure msg).cause
            = GoError.errBuildkitConnectionFailure)
    ∧ (∀ (fuel : Nat) (a0 : Duration) (t0 t' : Trace) (e : GoError),
        waitForConnection.loop ctx ctxTimeout containerName address opTimeout retryInterval
            fe opts fuel a0 env t0 = (Outcome.ret (Except.error e), t') →
        e.is GoError.errBuildkitConnectionFailure = true →
        ∃ tl a' err, env.selectDone tl ctxTimeout retryInterval = true
          ∧ checkConnection ctx address a' opts env (tl ++ [Event.timeAfter retryInterval])
            = (Outcome.ret (Except.error err), t')
          ∧ e = GoError.wrap GoError.errBuildkitConnectionFailure
              ("timeout " ++ env.durationString opTimeout
                ++ ": could not connect to buildkit: " ++ err.Error)) := by
  refine ⟨?_, fun msg => ⟨by simp [GoError.is], rfl⟩,
    fun fuel a0 t0 t' e h he =>
      waitForConnection_loop_failure_origin ctx ctxTimeout containerName address opTimeout
        retryInterval fe opts env fuel a0 t0 t' e h he⟩
  obtain ⟨res, t', hc⟩ :=
    checkConnection_returns ctx address a opts env (t ++ [Event.timeAfter retryInterval])
  refine ⟨res, t', hc, ?_, ?_⟩
  · obtain ⟨es, h1, _, h3, _⟩ :=
      checkConnection_observes ctx address a opts env (t ++ [Event.timeAfter retryInterval])
    rw [hc] at h1
    simp only at h1
    rw [h1, attempts_append, attempts_append, h3]
    simp [attempts, Event.attempt?]
  · rw [waitForConnection.loop_succ, if_pos hdone, hc]
    cases res <;> rfl

theorem waitForConnection_deadline_witness :
    waitForConnection.loop [] [60 * second] "bk" "docker-container://b" (60 * second)
        (200 * millisecond) Frontend.live [] 1 (500 * millisecond) expiredEnv []
      = (Outcome.ret (Except.error (GoError.wrap GoError.errBuildkitConnectionFailure
          "timeout 60000000000ns: could not connect to buildkit: boom")),
         [Event.timeAfter (200 * millisecond),
          Event.enter (Call.checkConnection (500 * millisecond)),
          Event.WithTimeout [] (500 * millisecond),
          Event.clientNew [500 * millisecond] "docker-container://b" []]) := by
  obtain ⟨res, t', h1, _, h2⟩ :=
    (waitForConnection_deadline [] [60 * second] "bk" "docker-container://b" (60 * second)
      (200 * millisecond) Frontend.live [] 0 (500 * millisecond) expiredEnv [] rfl).1
  rw [h2]
  have h3 : checkConnection [] "docker-container://b" (500 * millisecond) [] expiredEnv
      ([] ++ [Event.timeAfter (200 * millisecond)])
      = (Outcome.ret (Except.error (GoError.ext demoError)),
         [Event.timeAfter (200 * millisecond),
          Event.enter (Call.checkConnection (500 * millisecond)),
          Event.WithTimeout [] (500 * millisecond),
          Event.clientNew [500 * millisecond] "docker-container://b" []]) := rfl
  rw [h3] at h1
  simp only [Prod.mk.injEq, Outcome.ret.injEq] at h1
  obtain ⟨rfl, rfl⟩ := h1
  rfl

/-- C11 (as stated, refuted): `WaitUntilStarted` does not test whether the
address is local.  For the non-local address `tcp://bk.example:8372`, a running
container, a first wait that fails with `ErrBuildkitConnectionFailure` and a
cache of 40 GiB, a second `waitForConnection` with the same overall timeout is
made. -/
theorem WaitUntilStarted_grace_not_local :
    graceEnv.IsLocal "tcp://bk.example:8372" = false
    ∧ waits (WaitUntilStarted 1 [] "bk" "vol" "tcp://bk.example:8372" (60 * second)
        Frontend.live [] graceEnv []).2 = [60 * second, 60 * second] :=
  ⟨rfl, rfl⟩

/-- C11 (amended): the grace extension of `WaitUntilStarted`, whatever the
address.  If the container never gets marked as running, no `waitForConnection`
is made.  Otherwise a first `waitForConnection` is made; its success and any
error of it that is not `ErrBuildkitConnectionFailure` are returned as they
are.  When it fails with `ErrBuildkitConnectionFailure` and `getCacheSize`
returns: on an error of `getCacheSize`, and on a size `s` (in KiB) for which
`s/1024/1024 >= 30 || (s/1024/1024 >= 10 && GOOS == "darwin")` is false, the
first error is returned unchanged and no further wait is made; on a size for
which it is true, exactly one more `waitForConnection` with the same overall
timeout is made and its outcome is the outcome of `WaitUntilStarted`. -/
theorem WaitUntilStarted_grace_extension
    (fuel : Nat) (ctx : Ctx) (containerName volumeName address : String) (opTimeout : Duration)
    (fe : Frontend) (opts : List ClientOpt) (env : Env) (t : Trace) :
    (∀ err tl,
        WaitUntilStarted.runningLoop (opTimeout :: ctx) containerName opTimeout fe fuel env
            (t ++ [Event.enter (Call.WaitUntilStarted opTimeout), Event.WithTimeout ctx opTimeout])
          = (Outcome.ret (some err), tl) →
        WaitUntilStarted fuel ctx containerName volumeName address opTimeout fe opts env t
            = (Outcome.ret (Except.error err), tl)
          ∧ waits tl = waits t)
    ∧ ∀ tl tw first,
        WaitUntilStarted.runningLoop (opTimeout :: ctx) containerName opTimeout fe fuel env
            (t ++ [Event.enter (Call.WaitUntilStarted opTimeout), Event.WithTimeout ctx opTimeout])
          = (Outcome.ret none, tl) →
        waitForConnection fuel ctx containerName address opTimeout fe opts env tl
          = (Outcome.ret first, tw) →
        (∀ r, first = Except.ok r →
          WaitUntilStarted fuel ctx containerName volumeName address opTimeout fe opts env t
              = (Outcome.ret (Except.ok r), tw)
            ∧ waits tw = waits t ++ [opTimeout])
        ∧ (∀ err, first = Except.error err →
            err.is GoError.errBuildkitConnectionFailure = false →
          WaitUntilStarted fuel ctx containerName volumeName address opTimeout fe opts env t
              = (Outcome.ret (Except.error err), tw)
            ∧ waits tw = waits t ++ [opTimeout])
        ∧ ∀ err cs tg, first = Except.error err →
            err.is GoError.errBuildkitConnectionFailure = true →
            getCacheSize ctx volumeName fe env tw = (Outcome.ret cs, tg) →
            (∀ e, cs = Except.error e →
              WaitUntilStarted fuel ctx containerName volumeName address opTimeout fe opts env t
                  = (Outcome.ret (Except.error err), tg)
                ∧ waits tg = waits t ++ [opTimeout])
            ∧ (∀ s, cs = Except.ok s →
                ¬ (30 ≤ Int.tdiv (Int.tdiv s 1024) 1024
                    ∨ (10 ≤ Int.tdiv (Int.tdiv s 1024) 1024 ∧ env.GOOS = "darwin")) →
              WaitUntilStarted fuel ctx containerName volumeName address opTimeout fe opts env t
                  = (Outcome.ret (Except.error err), tg)
                ∧ waits tg = waits t ++ [opTimeout])
            ∧ ∀ s o tw2, cs = Except.ok s →
                (30 ≤ Int.tdiv (Int.tdiv s 1024) 1024
                    ∨ (10 ≤ Int.tdiv (Int.tdiv s 1024) 1024 ∧ env.GOOS = "darwin")) →
                waitForConnection fuel ctx containerName address opTimeout fe opts env tg
                  = (o, tw2) →
                WaitUntilStarted fuel ctx containerName volumeName address opTimeout fe opts env t
                    = (o, tw2)
                  ∧ waits tw2 = waits t ++ [opTimeout, opTimeout] := by
  constructor
  · intro err tl hrun
    have hw : waits tl = waits t := by
      rw [WaitUntilStarted_runningLoop_waits hrun, waits_append]
      simp [waits, Event.wait?]
    refine ⟨?_, hw⟩
    unfold WaitUntilStarted WithTimeout
    simp only [M.run_bind, M.run_emit, M.run_pure, List.append_assoc, List.singleton_append,
      List.cons_append, List.nil_append] at hrun ⊢
    rw [hrun]
    rfl
  · intro tl tw first hrun hfirst
    have hw0 : waits tl = waits t := by
      rw [WaitUntilStarted_runningLoop_waits hrun, waits_append]
      simp [waits, Event.wait?]
    have hw1 : waits tw = waits t ++ [opTimeout] := by
      rw [waitForConnection_waits hfirst, hw0]
    have heq := WaitUntilStarted_after_first volumeName hrun hfirst
    refine ⟨?_, ?_, ?_⟩
    · intro r hr
      subst hr
      exact ⟨heq, hw1⟩
    · intro err hr hcf
      subst hr
      simp only [hcf, if_true] at heq
      exact ⟨heq, hw1⟩
    · intro err cs tg hr hcf hg
      subst hr
      simp only [hcf, Bool.true_eq_false, if_false, hg] at heq
      have hw2 : waits tg = waits t ++ [opTimeout] := by
        rw [getCacheSize_waits hg, hw1]
      refine ⟨?_, ?_, ?_⟩
      · intro e he
        subst he
        exact ⟨heq, hw2⟩
      · intro s hs hsmall
        subst hs
        simp only at heq
        rw [if_neg (by simpa using hsmall)] at heq
        exact ⟨heq, hw2⟩
      · intro s o tw2 hs hlarge hsecond
        subst hs
        simp only at heq
        rw [if_pos (by simpa using hlarge), hsecond] at heq
        refine ⟨heq, ?_⟩
        rw [waitForConnection_waits hsecond, hw2]
        simp

theorem WaitUntilStarted_grace_extension_witness :
    (WaitUntilStarted 1 [] "bk" "vol" "docker-container://b" (60 * second) Frontend.live []
        graceEnv []).1
      = Outcome.ret (Except.error (GoError.wrap GoError.errBuildkitConnectionFailure
          "timeout 60000000000ns: could not connect to buildkit: boom"))
    ∧ waits (WaitUntilStarted 1 [] "bk" "vol" "docker-container://b" (60 * second) Frontend.live
        [] graceEnv []).2 = [60 * second, 60 * second] := by
  obtain ⟨_, _, h2⟩ :=
    ((WaitUntilStarted_grace_extension 1 [] "bk" "vol" "docker-container://b" (60 * second)
        Frontend.live [] graceEnv []).2 _ _ _ rfl rfl).2.2 _ _ _ rfl rfl rfl
  obtain ⟨h3, h4⟩ := h2 _ _ _ rfl (Or.inl (by decide)) rfl
  rw [h3]
  exact ⟨rfl, h4⟩

/-- C12: a probe in which `client.New` succeeds, `ListWorkers` answers with the
non-empty list `w :: ws` and `Info` fails with `err`.  If the status of `err`
has the code `Unimplemented`, `checkConnection` returns without error the
snapshot whose `Version`, `Package` and `Revision` are `"unknown"` together with
the first worker `w`; otherwise it fails with `err` itself.  In both cases the
probe consists of the calls `client.New`, `ListWorkers`, `Info` and `Close`. -/
theorem checkConnection_info_failure
    (ctx : Ctx) (address : String) (timeout : Duration) (opts : List ClientOpt) (env : Env)
    (t : Trace) (w : WorkerInfo) (ws : List WorkerInfo) (err : ExtError)
    (hN : env.bkNew
        (t ++ [Event.enter (Call.checkConnection timeout), Event.WithTimeout ctx timeout])
        (timeout :: ctx) address opts = some (Except.ok ()))
    (hL : env.bkListWorkers
        (t ++ [Event.enter (Call.checkConnection timeout), Event.WithTimeout ctx timeout,
               Event.clientNew (timeout :: ctx) address opts])
        (timeout :: ctx) = some (Except.ok (w :: ws)))
    (hI : env.bkInfo
        (t ++ [Event.enter (Call.checkConnection timeout), Event.WithTimeout ctx timeout,
               Event.clientNew (timeout :: ctx) address opts, Event.ListWorkers (timeout :: ctx)])
        (timeout :: ctx) = Except.error err) :
    (err.grpcCode = some codesUnimplemented →
        checkConnection ctx address timeout opts env t
          = (Outcome.ret (Except.ok
              ({ Package := "unknown", Version := "unknown", Revision := "unknown",
                 NumSessions := 0 }, w)),
             t ++ [Event.enter (Call.checkConnection timeout), Event.WithTimeout ctx timeout,
                   Event.clientNew (timeout :: ctx) address opts,
                   Event.ListWorkers (timeout :: ctx), Event.clientInfo (timeout :: ctx),
                   Event.clientClose]))
    ∧ (err.grpcCode ≠ some codesUnimplemented →
        checkConnection ctx address timeout opts env t
          = (Outcome.ret (Except.error (GoError.ext err)),
             t ++ [Event.enter (Call.checkConnection timeout), Event.WithTimeout ctx timeout,
                   Event.clientNew (timeout :: ctx) address opts,
                   Event.ListWorkers (timeout :: ctx), Event.clientInfo (timeout :: ctx),
                   Event.clientClose])) := by
  constructor
  · intro hcode
    unfold checkConnection WithTimeout
    simp only [M.run_bind, M.run_emit, M.run_pure, M.run_call, List.append_assoc,
      List.singleton_append, List.cons_append, List.nil_append, hN, hL, hI, hcode, if_true]
  · intro hcode
    unfold checkConnection WithTimeout
    simp only [M.run_bind, M.run_emit, M.run_pure, M.run_call, List.append_assoc,
      List.singleton_append, List.cons_append, List.nil_append, hN, hL, hI, hcode, if_false]

theorem checkConnection_info_failure_witness :
    (checkConnection [] "docker-container://b" (5 * second) [] legacyEnv []).1
      = Outcome.ret (Except.ok
          ({ Package := "unknown", Version := "unknown", Revision := "unknown",
             NumSessions := 0 }, demoWorker)) := by
  rw [(checkConnection_info_failure [] "docker-container://b" (5 * second) [] legacyEnv []
    demoWorker [] _ rfl rfl rfl).1 rfl]

/-- C13: runs of `MaybeStart` with a start-up lock path.  When `TryLockContext`
returns without error, the deferred `Unlock` of the same path is the last event
of the run, whatever the body does: return a result, return the (wrapped) error
of `IsStarted`, `MaybeRestart`, `Start` or `WaitUntilStarted`, or panic; in
between, no operation on the lock is issued.  When `TryLockContext` fails,
`MaybeStart` returns an error right away: the run consists of the creation of
the five minute context and the `TryLockContext` call, without any `Stop`,
`Start`, wait, probe or frontend call.  (The code drops the result of
`Unlock`.) -/
theorem MaybeStart_lock_released
    (fuel : Nat) (ctx : Ctx) (image containerName : String) (fe : Frontend)
    (settings : Settings) (opts : List ClientOpt) (env : Env) (t0 : Trace)
    (hpath : settings.StartUpLockPath ≠ "") :
    ((env.flockTryLockContext (t0 ++ [Event.WithTimeout ctx (5 * minute)])
          settings.StartUpLockPath (5 * minute :: ctx) (200 * millisecond)).2 = none →
      ∀ o t', MaybeStart.body fuel ctx image containerName fe settings opts env
          (t0 ++ [Event.WithTimeout ctx (5 * minute),
                  Event.TryLockContext settings.StartUpLockPath (5 * minute :: ctx)
                    (200 * millisecond)]) = (o, t') →
        o ≠ Outcome.outOfFuel →
        ∃ es, MaybeStart fuel ctx image containerName fe settings opts env t0
            = (o, t0 ++ [Event.WithTimeout ctx (5 * minute),
                  Event.TryLockContext settings.StartUpLockPath (5 * minute :: ctx)
                    (200 * millisecond)] ++ es ++ [Event.Unlock settings.StartUpLockPath])
          ∧ ∀ e ∈ es, e.isLockOp = false)
    ∧ (∀ err, (env.flockTryLockContext (t0 ++ [Event.WithTimeout ctx (5 * minute)])
          settings.StartUpLockPath (5 * minute :: ctx) (200 * millisecond)).2 = some err →
      MaybeStart fuel ctx image containerName fe settings opts env t0
          = (Outcome.ret (Except.error
              (if err.deadlineExceeded = true then
                GoError.new "timeout waiting for other process to start buildkitd"
               else GoError.wrap (GoError.ext err)
                ("try flock context " ++ settings.StartUpLockPath))),
             t0 ++ [Event.WithTimeout ctx (5 * minute),
                    Event.TryLockContext settings.StartUpLockPath (5 * minute :: ctx)
                      (200 * millisecond)])
        ∧ lifecycle [Event.WithTimeout ctx (5 * minute),
                    Event.TryLockContext settings.StartUpLockPath (5 * minute :: ctx)
                      (200 * millisecond)] = []
        ∧ attempts [Event.WithTimeout ctx (5 * minute),
                    Event.TryLockContext settings.StartUpLockPath (5 * minute :: ctx)
                      (200 * millisecond)] = []
        ∧ frontendCalls [Event.WithTimeout ctx (5 * minute),
                    Event.TryLockContext settings.StartUpLockPath (5 * minute :: ctx)
                      (200 * millisecond)] = []) := by
  constructor
  · intro hacq o t' hbody ho
    obtain ⟨es, rfl, hes⟩ := trace_of_emits
      (MaybeStart_body_leaves_lock fuel ctx image containerName fe settings opts) hbody
    exact ⟨es, MaybeStart_locked hpath hacq hbody ho, hes⟩
  · intro err hfail
    refine ⟨?_, rfl, rfl, rfl⟩
    unfold MaybeStart
    simp only [ne_eq, hpath, not_false_eq_true, if_true, M.run_bind, WithTimeout, M.run_emit,
      M.run_pure, M.run_call, hfail, List.append_assoc, List.singleton_append, List.cons_append,
      List.nil_append]
    split <;> rfl

theorem MaybeStart_lock_released_witness :
    (∃ es, MaybeStart 1 [] "img" "bk" Frontend.live lockedSettings [] absentEnv []
        = (Outcome.ret (Except.ok (demoInfo, demoWorker)),
           [] ++ [Event.WithTimeout [] (5 * minute),
                  Event.TryLockContext "/run/earthly/start.lock" [5 * minute]
                    (200 * millisecond)] ++ es ++ [Event.Unlock "/run/earthly/start.lock"])
      ∧ ∀ e ∈ es, e.isLockOp = false)
    ∧ MaybeStart 1 [] "img" "bk" Frontend.live lockedSettings [] busyLockEnv []
        = (Outcome.ret (Except.error
            (GoError.new "timeout waiting for other process to start buildkitd")),
           [Event.WithTimeout [] (5 * minute),
            Event.TryLockContext "/run/earthly/start.lock" [5 * minute] (200 * millisecond)]) :=
  ⟨(MaybeStart_lock_released 1 [] "img" "bk" Frontend.live lockedSettings [] absentEnv []
      (by decide)).1 rfl _ _ rfl (by simp),
   ((MaybeStart_lock_released 1 [] "img" "bk" Frontend.live lockedSettings [] busyLockEnv []
      (by decide)).2 _ rfl).1⟩

/-- C14 (as stated, refuted): a fresh start under the start-up lock.  The lock
is acquired, `Start` and `WaitUntilStarted` run, the readiness wait makes its
probe, and only then is `Unlock` issued: the wait and the probe are made while
the lock is held. -/
theorem MaybeStart_polls_under_lock :
    absentEnv.flockTryLockContext [Event.WithTimeout [] (5 * minute)] "/run/earthly/start.lock"
        [5 * minute] (200 * millisecond) = (true, none)
    ∧ ∃ es, (MaybeStart 1 [] "img" "bk" Frontend.live lockedSettings [] absentEnv []).2
        = [Event.WithTimeout [] (5 * minute),
           Event.TryLockContext "/run/earthly/start.lock" [5 * minute] (200 * millisecond)]
          ++ es ++ [Event.Unlock "/run/earthly/start.lock"]
      ∧ es.all (fun e => !e.isLockOp) = true
      ∧ lifecycle es = [Call.Start false, Call.WaitUntilStarted (60 * second)]
      ∧ waits es = [60 * second]
      ∧ attempts es = [500 * millisecond] :=
  ⟨rfl, ((MaybeStart 1 [] "img" "bk" Frontend.live lockedSettings [] absentEnv []).2.drop 2).dropLast,
    rfl, rfl, rfl, rfl, rfl⟩


/-- C14 (amended): in a run of `MaybeStart` with a start-up lock path in which
`TryLockContext` returns without error, the lock is held from there to the end
of the run: the only `Unlock` is the deferred one, issued as the last event
when the body has returned (or panicked).  Every lifecycle action, every
readiness wait and every probe of the run is therefore made between the
acquisition and the release, while the lock is held. -/
theorem MaybeStart_lock_spans_polling
    (fuel : Nat) (ctx : Ctx) (image containerName : String) (fe : Frontend)
    (settings : Settings) (opts : List ClientOpt) (env : Env) (t0 t' : Trace)
    (o : Outcome (Except GoError (Info × WorkerInfo)))
    (hpath : settings.StartUpLockPath ≠ "")
    (hacq : (env.flockTryLockContext (t0 ++ [Event.WithTimeout ctx (5 * minute)])
        settings.StartUpLockPath (5 * minute :: ctx) (200 * millisecond)).2 = none)
    (hbody : MaybeStart.body fuel ctx image containerName fe settings opts env
        (t0 ++ [Event.WithTimeout ctx (5 * minute),
                Event.TryLockContext settings.StartUpLockPath (5 * minute :: ctx)
                  (200 * millisecond)]) = (o, t'))
    (ho : o ≠ Outcome.outOfFuel) :
    ∃ es, MaybeStart fuel ctx image containerName fe settings opts env t0
        = (o, t0 ++ ([Event.WithTimeout ctx (5 * minute),
              Event.TryLockContext settings.StartUpLockPath (5 * minute :: ctx)
                (200 * millisecond)] ++ es ++ [Event.Unlock settings.StartUpLockPath]))
      ∧ (∀ e ∈ es, e.isLockOp = false)
      ∧ lifecycle ([Event.WithTimeout ctx (5 * minute),
              Event.TryLockContext settings.StartUpLockPath (5 * minute :: ctx)
                (200 * millisecond)] ++ es ++ [Event.Unlock settings.StartUpLockPath])
          = lifecycle es
      ∧ waits ([Event.WithTimeout ctx (5 * minute),
              Event.TryLockContext settings.StartUpLockPath (5 * minute :: ctx)
                (200 * millisecond)] ++ es ++ [Event.Unlock settings.StartUpLockPath])
          = waits es
      ∧ attempts ([Event.WithTimeout ctx (5 * minute),
              Event.TryLockContext settings.StartUpLockPath (5 * minute :: ctx)
                (200 * millisecond)] ++ es ++ [Event.Unlock settings.StartUpLockPath])
          = attempts es := by
  obtain ⟨es, rfl, hes⟩ := trace_of_emits
    (MaybeStart_body_leaves_lock fuel ctx image containerName fe settings opts) hbody
  refine ⟨es, ?_, hes, ?_, ?_, ?_⟩
  · rw [MaybeStart_locked hpath hacq hbody ho]
    simp
  · simp [lifecycle, Event.action?]
  · simp [waits, Event.wait?]
  · simp [attempts, Event.attempt?]

theorem MaybeStart_lock_spans_polling_witness :
    ∃ es, MaybeStart 1 [] "img" "bk" Frontend.live lockedSettings [] demoEnv []
        = (Outcome.ret (Except.ok (demoInfo, demoWorker)),
           [] ++ ([Event.WithTimeout [] (5 * minute),
              Event.TryLockContext "/run/earthly/start.lock" [5 * minute] (200 * millisecond)]
            ++ es ++ [Event.Unlock "/run/earthly/start.lock"]))
      ∧ attempts ([Event.WithTimeout [] (5 * minute),
              Event.TryLockContext "/run/earthly/start.lock" [5 * minute] (200 * millisecond)]
            ++ es ++ [Event.Unlock "/run/earthly/start.lock"]) = attempts es := by
  obtain ⟨es, h1, _, _, _, h2⟩ :=
    MaybeStart_lock_spans_polling 1 [] "img" "bk" Frontend.live lockedSettings [] demoEnv [] _ _
      (by decide) rfl rfl (by simp)
  exact ⟨es, h1, h2⟩

/-- C15 (as stated, refuted): the frontend fails `ContainerStop` with the error
"boom".  `ResetCache` and `MaybeRestart` return that very error, with no
context added; `MaybeStart` returns it under the context "maybe restart", which
is the context of every failure inside `MaybeRestart`. -/
theorem ResetCache_stop_error_verbatim :
    (ResetCache 1 [] "img" "bk" Frontend.live demoSettings [] stopFailsEnv []).1
        = Outcome.ret (some (GoError.ext demoError))
    ∧ (MaybeRestart 1 [] "img" "bk" Frontend.live demoSettings [] staleStopFailsEnv []).1
        = Outcome.ret (Except.error (GoError.ext demoError))
    ∧ (MaybeStart 1 [] "img" "bk" Frontend.live demoSettings [] staleStopFailsEnv []).1
        = Outcome.ret (Except.error (GoError.wrap (GoError.ext demoError) "maybe restart"))
    ∧ (GoError.ext demoError).Error = "boom" :=
  ⟨rfl, rfl, rfl, rfl⟩

/-- C15 (amended): in `ResetCache`, `MaybeRestart` and `MaybeStart` the first
failing step ends the run: the history returned is the history at the end of
that step (followed, in `MaybeStart`, by the release of the start-up lock), so
no later step is executed.  `ResetCache` and `MaybeRestart` return the error of
the failing step (`Stop`, `WaitUntilStopped`, `Start`, `WaitUntilStarted`, and
in `MaybeRestart` the reuse probe) as it is, without adding context.
`MaybeStart` adds the context of its own step: "check is started buildkitd",
"maybe restart" (for any failure inside `MaybeRestart`), "start" or "wait until
started". -/
theorem failing_step_propagation
    (fuel : Nat) (ctx : Ctx) (image containerName : String) (fe : Frontend)
    (settings : Settings) (opts : List ClientOpt) (env : Env) (t0 : Trace) (err : GoError) :
    (∀ opts' t1 t2 wasRunning,
      env.IsLocal settings.BuildkitAddress = true →
      addRequiredOpts settings opts env t0 = (Outcome.ret (Except.ok opts'), t1) →
      IsStarted ctx containerName fe env t1 = (Outcome.ret (Except.ok wasRunning), t2) →
      (∀ t3, wasRunning = true →
          Stop ctx containerName fe env t2 = (Outcome.ret (some err), t3) →
          ResetCache fuel ctx image containerName fe settings opts env t0
            = (Outcome.ret (some err), t3))
      ∧ (∀ t3 t4, wasRunning = true →
          Stop ctx containerName fe env t2 = (Outcome.ret none, t3) →
          WaitUntilStopped fuel ctx containerName settings.Timeout.double fe env t3
            = (Outcome.ret (some err), t4) →
          ResetCache fuel ctx image containerName fe settings opts env t0
            = (Outcome.ret (some err), t4))
      ∧ (∀ t4 t5,
          (wasRunning = true → ∃ t3, Stop ctx containerName fe env t2 = (Outcome.ret none, t3)
            ∧ WaitUntilStopped fuel ctx containerName settings.Timeout.double fe env t3
              = (Outcome.ret none, t4)) →
          (wasRunning = false → t4 = t2) →
          Start ctx image containerName fe { settings with Timeout := settings.Timeout.double }
            true env t4 = (Outcome.ret (some err), t5) →
          ResetCache fuel ctx image containerName fe settings opts env t0
            = (Outcome.ret (some err), t5))
      ∧ (∀ t4 t5 t6,
          (wasRunning = true → ∃ t3, Stop ctx containerName fe env t2 = (Outcome.ret none, t3)
            ∧ WaitUntilStopped fuel ctx containerName settings.Timeout.double fe env t3
              = (Outcome.ret none, t4)) →
          (wasRunning = false → t4 = t2) →
          Start ctx image containerName fe { settings with Timeout := settings.Timeout.double }
            true env t4 = (Outcome.ret none, t5) →
          WaitUntilStarted fuel ctx containerName settings.VolumeName settings.BuildkitAddress
            settings.Timeout.double fe opts' env t5 = (Outcome.ret (Except.error err), t6) →
          ResetCache fuel ctx image containerName fe settings opts env t0
            = (Outcome.ret (some err), t6)))
    ∧ (∀ t1 t2 t3 containerImageID hash avail imageMatches settingsMatch,
      GetContainerImageID ctx containerName fe env (t0 ++ [Event.enter Call.MaybeRestart])
        = (Outcome.ret (Except.ok containerImageID), t1) →
      GetAvailableImageID ctx image fe env t1 = (Outcome.ret avail, t2) →
      imageMatches = decide (containerImageID = avail.toOption.getD "") →
      (imageMatches = true →
        GetSettingsHash ctx containerName fe env t2 = (Outcome.ret (Except.ok hash), t3)
          ∧ env.VerifyHash settings hash = Except.ok settingsMatch) →
      (imageMatches = false → t3 = t2) →
      (((imageMatches && settingsMatch) || (!imageMatches && settings.NoUpdate)) = true →
        ∀ t4, checkConnection ctx settings.BuildkitAddress (5 * second) opts env t3
            = (Outcome.ret (Except.error err), t4) →
          MaybeRestart fuel ctx image containerName fe settings opts env t0
            = (Outcome.ret (Except.error err), t4))
      ∧ (((imageMatches && settingsMatch) || (!imageMatches && settings.NoUpdate)) = false →
        (∀ t4, Stop ctx containerName fe env t3 = (Outcome.ret (some err), t4) →
          MaybeRestart fuel ctx image containerName fe settings opts env t0
            = (Outcome.ret (Except.error err), t4))
        ∧ (∀ t4 t5, Stop ctx containerName fe env t3 = (Outcome.ret none, t4) →
          WaitUntilStopped fuel ctx containerName settings.Timeout fe env t4
            = (Outcome.ret (some err), t5) →
          MaybeRestart fuel ctx image containerName fe settings opts env t0
            = (Outcome.ret (Except.error err), t5))
        ∧ (∀ t4 t5 t6, Stop ctx containerName fe env t3 = (Outcome.ret none, t4) →
          WaitUntilStopped fuel ctx containerName settings.Timeout fe env t4
            = (Outcome.ret none, t5) →
          Start ctx image containerName fe settings false env t5
            = (Outcome.ret (some err), t6) →
          MaybeRestart fuel ctx image containerName fe settings opts env t0
            = (Outcome.ret (Except.error err), t6))
        ∧ (∀ t4 t5 t6 t7, Stop ctx containerName fe env t3 = (Outcome.ret none, t4) →
          WaitUntilStopped fuel ctx containerName settings.Timeout fe env t4
            = (Outcome.ret none, t5) →
          Start ctx image containerName fe settings false env t5 = (Outcome.ret none, t6) →
          WaitUntilStarted fuel ctx containerName settings.VolumeName settings.BuildkitAddress
            settings.Timeout fe opts env t6 = (Outcome.ret (Except.error err), t7) →
          MaybeRestart fuel ctx image containerName fe settings opts env t0
            = (Outcome.ret (Except.error err), t7))))
    ∧ (startLockAcquired env t0 ctx settings.StartUpLockPath →
      (∀ t1, IsStarted ctx containerName fe env
            (t0 ++ startLockEvents ctx settings.StartUpLockPath)
          = (Outcome.ret (Except.error err), t1) →
        MaybeStart fuel ctx image containerName fe settings opts env t0
          = (Outcome.ret (Except.error (GoError.wrap err "check is started buildkitd")),
             t1 ++ startUnlockEvents settings.StartUpLockPath))
      ∧ (∀ t1 t2, IsStarted ctx containerName fe env
            (t0 ++ startLockEvents ctx settings.StartUpLockPath)
          = (Outcome.ret (Except.ok true), t1) →
        MaybeRestart fuel ctx image containerName fe settings opts env t1
          = (Outcome.ret (Except.error err), t2) →
        MaybeStart fuel ctx image containerName fe settings opts env t0
          = (Outcome.ret (Except.error (GoError.wrap err "maybe restart")),
             t2 ++ startUnlockEvents settings.StartUpLockPath))
      ∧ (∀ t1 t2, IsStarted ctx containerName fe env
            (t0 ++ startLockEvents ctx settings.StartUpLockPath)
          = (Outcome.ret (Except.ok false), t1) →
        Start ctx image containerName fe settings false env t1
          = (Outcome.ret (some err), t2) →
        MaybeStart fuel ctx image containerName fe settings opts env t0
          = (Outcome.ret (Except.error (GoError.wrap err "start")),
             t2 ++ startUnlockEvents settings.StartUpLockPath))
      ∧ (∀ t1 t2 t3, IsStarted ctx containerName fe env
            (t0 ++ startLockEvents ctx settings.StartUpLockPath)
          = (Outcome.ret (Except.ok false), t1) →
        Start ctx image containerName fe settings false env t1 = (Outcome.ret none, t2) →
        WaitUntilStarted fuel ctx containerName settings.VolumeName settings.BuildkitAddress
          settings.Timeout fe opts env t2 = (Outcome.ret (Except.error err), t3) →
        MaybeStart fuel ctx image containerName fe settings opts env t0
          = (Outcome.ret (Except.error (GoError.wrap err "wait until started")),
             t3 ++ startUnlockEvents settings.StartUpLockPath))) := by
  refine ⟨?_, ?_, ?_⟩
  · intro opts' t1 t2 wasRunning hlocal hopts his
    exact ResetCache_failure fuel ctx image containerName fe settings opts opts' env t0 t1 t2
      wasRunning err hlocal hopts his
  · intro t1 t2 t3 containerImageID hash avail imageMatches settingsMatch hcid havail himg hhash
      hskip
    have hdec := MaybeRestart_decide fuel ctx image containerName fe settings opts env t0 t1 t2 t3
      containerImageID hash avail imageMatches settingsMatch hcid havail himg hhash hskip
    obtain ⟨r1, r2, r3, r4⟩ :=
      MaybeRestart_replace_failure fuel ctx image containerName fe settings opts env t3 err
    constructor
    · intro hreuse t4 hprobe
      rw [hdec, if_pos hreuse, hprobe]
    · intro hreplace
      rw [hdec, if_neg (by simp [hreplace])]
      exact ⟨r1, r2, r3, r4⟩
  · intro hlock
    obtain ⟨b1, b2, b3, b4⟩ := MaybeStart_body_failure fuel ctx image containerName fe settings
      opts env (t0 ++ startLockEvents ctx settings.StartUpLockPath) err
    exact ⟨fun t1 h1 => MaybeStart_of_body hlock (b1 t1 h1),
      fun t1 t2 h1 h2 => MaybeStart_of_body hlock (b2 t1 t2 h1 h2),
      fun t1 t2 h1 h2 => MaybeStart_of_body hlock (b3 t1 t2 h1 h2),
      fun t1 t2 t3 h1 h2 h3 => MaybeStart_of_body hlock (b4 t1 t2 t3 h1 h2 h3)⟩

theorem failing_step_propagation_witness :
    ResetCache 1 [] "img" "bk" Frontend.live demoSettings [] stopFailsEnv []
        = (Outcome.ret (some (GoError.ext demoError)),
           [Event.ContainerInfo [] "bk", Event.enter (Call.Stop "bk"),
            Event.ContainerStop [] 10 "bk"])
    ∧ (MaybeStart 1 [] "img" "bk" Frontend.live demoSettings [] staleStopFailsEnv []).1
        = Outcome.ret (Except.error (GoError.wrap (GoError.ext demoError) "maybe restart")) :=
  ⟨((failing_step_propagation 1 [] "img" "bk" Frontend.live demoSettings [] stopFailsEnv []
      (GoError.ext demoError)).1 [] _ _ true rfl rfl rfl).1 _ rfl rfl,
   congrArg Prod.fst
    (((failing_step_propagation 1 [] "img" "bk" Frontend.live demoSettings [] staleStopFailsEnv []
      (GoError.ext demoError)).2.2 (Or.inl rfl)).2.1 _ _ rfl rfl)⟩

/-- C16: the settings hash makes a round trip through the container label.
When `settings.Hash()` returns `hash`: every `ContainerRun` that `Start` issues,
whatever the outcome of `Start`, has `dev.earthly.settingshash = hash` as its
label; a successful `Start` has issued exactly one `ContainerRun`, for the
container name; and `GetSettingsHash` on a frontend that reports the container
with the labels it was run with returns `hash`.  When `settings.Hash()` fails,
`Start` returns the error (wrapped with "settings hash") and its history
consists of its entry marker: no call on the frontend is made. -/
theorem Start_settings_hash_round_trip
    (ctx : Ctx) (image containerName : String) (fe : Frontend) (settings : Settings)
    (reset : Bool) (env : Env) (t : Trace) :
    (∀ hash, env.Hash settings = Except.ok hash →
      ∃ es, (Start ctx image containerName fe settings reset env t).2 = t ++ es
        ∧ (∀ spec ∈ containerRuns es,
            spec.Labels = [("dev.earthly.settingshash", hash)]
            ∧ GoMap.get? spec.Labels "dev.earthly.settingshash" = some hash
            ∧ ∀ (ctx' : Ctx) (env' : Env) (t' : Trace) (infos : GoMap ContainerInfo)
                (ci : ContainerInfo),
              env'.feContainerInfo t' ctx' containerName = Except.ok infos →
              GoMap.get? infos containerName = some ci →
              ci.Labels = spec.Labels →
              GetSettingsHash ctx' containerName Frontend.live env' t'
                = (Outcome.ret (Except.ok hash), t' ++ [Event.ContainerInfo ctx' containerName]))
        ∧ ((Start ctx image containerName fe settings reset env t).1 = Outcome.ret none →
            ∃ spec, containerRuns es = [spec] ∧ spec.NameOrID = containerName
              ∧ spec.ImageRef = image))
    ∧ (∀ err, env.Hash settings = Except.error err →
      Start ctx image containerName fe settings reset env t
          = (Outcome.ret (some (GoError.wrap (GoError.ext err) "settings hash")),
             t ++ [Event.enter (Call.Start reset)])
        ∧ frontendCalls (t ++ [Event.enter (Call.Start reset)]) = frontendCalls t) := by
  constructor
  · intro hash hh
    obtain ⟨es, h1, h2⟩ := Start_labelled ctx image containerName fe reset t hh
    refine ⟨es, h1, ?_, ?_⟩
    · intro spec hspec
      obtain ⟨c, hc⟩ := mem_containerRuns hspec
      have hl : spec.Labels = [("dev.earthly.settingshash", hash)] := h2 _ hc
      refine ⟨hl, by rw [hl]; simp [GoMap.get?], ?_⟩
      intro ctx' env' t' infos ci hinfo hci hlabels
      rw [GetSettingsHash_label hinfo hci, hlabels, hl]
      simp [GoMap.getD, GoMap.get?]
    · intro hok
      rcases hr : Start ctx image containerName fe settings reset env t with ⟨o, t'⟩
      rw [hr] at hok h1
      simp only at hok h1
      subst hok
      obtain ⟨spec, hash', hruns, _, hn, hi, _⟩ := Start_runs_once hr
      rw [h1, containerRuns_append] at hruns
      exact ⟨spec, List.append_cancel_left hruns, hn, hi⟩
  · intro err hh
    constructor
    · unfold Start
      simp only [M.run_bind, M.run_emit, M.run_lib, hh, M.run_pure]
    · simp [frontendCalls, Event.isFrontend]

theorem Start_settings_hash_round_trip_witness :
    ∃ es, (Start [] "img" "bk" Frontend.live demoSettings false absentEnv []).2 = [] ++ es
      ∧ (∀ spec ∈ containerRuns es,
          GoMap.get? spec.Labels "dev.earthly.settingshash" = some "h1")
      ∧ ∃ spec, containerRuns es = [spec] ∧ spec.NameOrID = "bk" ∧ spec.ImageRef = "img" := by
  obtain ⟨es, h1, h2, h3⟩ :=
    (Start_settings_hash_round_trip [] "img" "bk" Frontend.live demoSettings false absentEnv
      []).1 "h1" rfl
  exact ⟨es, h1, fun spec hs => (h2 spec hs).2.1, h3 rfl⟩

/-- C17 (evaluation at the failing input): the `ContainerInfo` call of the
frontend fails.  `isContainerRunning` reports the failure, and `IsStarted`
returns it as an error, but `WaitUntilStopped` returns nil at its first poll:
the failed call is taken for a container that can no longer be found.  For a
frontend that answers, `IsStarted` returns `(false, nil)` both when the
container has no entry and when it is not running. -/
theorem WaitUntilStopped_transport_error_reported_stopped :
    transportDownEnv.feContainerInfo
        [Event.enter (Call.WaitUntilStopped (60 * second)), Event.WithTimeout [] (60 * second),
         Event.timeAfter (200 * millisecond)] [60 * second] "bk" = Except.error demoError
    ∧ WaitUntilStopped 1 [] "bk" (60 * second) Frontend.live transportDownEnv []
        = (Outcome.ret none,
           [Event.enter (Call.WaitUntilStopped (60 * second)), Event.WithTimeout [] (60 * second),
            Event.timeAfter (200 * millisecond), Event.ContainerInfo [60 * second] "bk"])
    ∧ (isContainerRunning [60 * second] "bk" Frontend.live transportDownEnv []).1
        = Outcome.ret (Except.error (GoError.wrap (GoError.ext demoError)
            "failed to get container info while checking if running"))
    ∧ (IsStarted [] "bk" Frontend.live transportDownEnv []).1
        = Outcome.ret (Except.error (GoError.ext demoError))
    ∧ (IsStarted [] "bk" Frontend.live goneEnv []).1 = Outcome.ret (Except.ok false)
    ∧ (IsStarted [] "bk" Frontend.live exitedEnv []).1 = Outcome.ret (Except.ok false) :=
  ⟨rfl, rfl, rfl, rfl, rfl, rfl⟩

/-- C18: for a non-local address `waitForConnection` never touches the
container frontend.  Whatever frontend it is given, the run is the run with the
nil frontend, it makes no frontend call on any of its paths and it does not
panic; hence `PrintSatelliteInfo`, which hands over a nil frontend, makes no
frontend call and does not panic when `settings.BuildkitAddress` is non-local. -/
theorem waitForConnection_remote_no_frontend
    (fuel : Nat) (ctx : Ctx) (containerName address : String) (opTimeout : Duration)
    (opts : List ClientOpt) (env : Env) (t : Trace)
    (hremote : env.IsLocal address = false) :
    (∀ fe, waitForConnection fuel ctx containerName address opTimeout fe opts env t
        = waitForConnection fuel ctx containerName address opTimeout Frontend.nil opts env t)
    ∧ (∀ fe, frontendCalls
          (waitForConnection fuel ctx containerName address opTimeout fe opts env t).2
        = frontendCalls t)
    ∧ (∀ fe msg, (waitForConnection fuel ctx containerName address opTimeout fe opts env t).1
        ≠ Outcome.panic msg)
    ∧ (∀ settings, settings.BuildkitAddress = address →
        (∀ msg, (PrintSatelliteInfo fuel ctx settings env t).1 ≠ Outcome.panic msg)
        ∧ frontendCalls (PrintSatelliteInfo fuel ctx settings env t).2 = frontendCalls t) := by
  refine ⟨fun fe => (waitForConnection_remote fuel ctx containerName address opTimeout opts env t
      hremote fe).1,
    fun fe => (waitForConnection_remote fuel ctx containerName address opTimeout opts env t
      hremote fe).2.2,
    fun fe => (waitForConnection_remote fuel ctx containerName address opTimeout opts env t
      hremote fe).2.1, ?_⟩
  intro settings haddr
  subst haddr
  have hopts := (addRequiredOpts_noPanic settings []).out env t
  have hoptsf := addRequiredOpts_frontendCalls settings [] env t
  unfold PrintSatelliteInfo
  rw [M.run_bind]
  rcases ho : addRequiredOpts settings [] env t with ⟨(e | o) | msg | _, t1⟩ <;>
    rw [ho] at hopts hoptsf <;> simp only at hopts hoptsf ⊢
  · exact ⟨fun msg h => by simp at h, hoptsf⟩
  · rw [M.run_bind]
    obtain ⟨_, h2, h3⟩ := waitForConnection_remote fuel ctx "" settings.BuildkitAddress
      settings.Timeout o env t1 hremote Frontend.nil
    rcases hw : waitForConnection fuel ctx "" settings.BuildkitAddress settings.Timeout
        Frontend.nil o env t1 with ⟨(e | r) | msg | _, t2⟩ <;>
      rw [hw] at h2 h3 <;> simp only at h2 h3 ⊢
    · exact ⟨fun msg h => by simp at h, by simp only [M.run_pure]; rw [h3, hoptsf]⟩
    · exact ⟨fun msg h => by simp at h, by simp only [M.run_pure]; rw [h3, hoptsf]⟩
    · exact absurd rfl (h2 msg)
    · exact ⟨fun msg h => by simp at h, by rw [h3, hoptsf]⟩
  · exact absurd rfl (hopts msg)
  · exact ⟨fun msg h => by simp at h, hoptsf⟩

theorem waitForConnection_remote_no_frontend_witness :
    (PrintSatelliteInfo 1 [] remoteSettings demoEnv []).1 = Outcome.ret none
    ∧ frontendCalls (PrintSatelliteInfo 1 [] remoteSettings demoEnv []).2 = frontendCalls [] :=
  ⟨rfl, ((waitForConnection_remote_no_frontend 1 [] "" "tcp://bk.example:8372" (60 * second) []
      demoEnv [] rfl).2.2.2 remoteSettings rfl).2⟩

end Buildkitd
